import Mathlib

/-!
Investment Platform: the investment ledger.

A shallow embedding of the server: the handlers of
`server/controllers/*.js` and of `server/routes/adminRoutes.js`, the
middleware `server/middleware/adminMiddleware.js`, the error handler of
`server/index.js`, the Mongoose models they read and write
(`server/models/*.js`) and `server/utils/APIResponse.js`; and of
`handleInvestmentChange` of `client/src/components/InvestorInterface.js`.

Modelling conventions.

* JavaScript numbers are exact rationals (`ℚ`): rounding, `NaN` and the
  infinities are outside the model, so `Number(x)` is the identity on a value
  of number type and `Number.isNaN` is `false` on it.
* The document store is a record of four collections, each a list of
  documents in insertion order. A handler is a function from the store to a
  response and the store it leaves behind. The store itself never fails:
  the only exceptions are the ones the JavaScript raises (a cast error on a
  malformed id, a type error on a property of `null`, a schema validation
  error on `save`).
* The bookkeeping fields Mongoose adds (`createdAt`, `updatedAt`, `__v`, the
  `timestamp` default of an Investment, the `_id` of a history entry) are not
  part of the model.
* `await` is sequential composition: one handler runs at a time. The one
  exception is `raceReadsFirst`, which interleaves two `makeInvestment`
  handlers at the `await` between their reads and their writes.
* A request body is given by what the schema makes of its fields; an id made
  for a new document is supplied by the environment and taken to be fresh.
* `populate` of a reference is the lookup of the referenced document by its
  id, and gives `null` when there is none. An aggregation pipeline is the
  composition of its stages over the list of documents; the order of the
  groups of a `$group` stage, which MongoDB leaves open, is the order in which
  the keys first occur.
-/

namespace InvestmentPlatform

/-! ## Values and documents -/

/-- The id of a stored document (`mongoose.Schema.Types.ObjectId`). -/
abbrev ObjectId := Nat

/-- A point in time (`Date`). -/
abbrev Timestamp := Nat

/-- A value read from a field of a JSON request body. -/
inductive JSValue where
  | undefined
  | null
  | bool (b : Bool)
  | number (q : ℚ)
  | string (s : String)
  | object
  deriving DecidableEq

/-- JavaScript truthiness: `!v` is `!(v.truthy)`. -/
def JSValue.truthy : JSValue → Bool
  | .undefined => false
  | .null => false
  | .bool b => b
  | .number q => decide (q ≠ 0)
  | .string s => decide (s ≠ "")
  | .object => true

/-- An id field of a request body, by what the handler can observe of it:
`missing` is an absent or falsy value, `malformed` a truthy value that
Mongoose cannot cast to an ObjectId, `oid i` a value that casts to `i`. -/
inductive IdField where
  | missing
  | malformed
  | oid (i : ObjectId)
  deriving DecidableEq

/-- Truthiness of an id field. -/
def IdField.truthy : IdField → Bool
  | .missing => false
  | .malformed => true
  | .oid _ => true

/-- The exceptions a handler can catch. -/
inductive Exception where
  | castError
  | typeError
  | validationError
  deriving DecidableEq

/-- The cast Mongoose applies to an id before a query; a value that does not
cast makes the query throw. It is only ever applied to a truthy field. -/
def IdField.cast : IdField → Except Exception ObjectId
  | .oid i => .ok i
  | .malformed => .error .castError
  | .missing => .error .castError

/-- Document of `models/Event.js`. -/
structure Event where
  _id : ObjectId
  name : String
  date : Timestamp
  totalBudgetPerInvestor : ℚ
  deriving DecidableEq

/-- Document of `models/Investor.js`. -/
structure Investor where
  _id : ObjectId
  name : String
  eventId : ObjectId
  remainingBudget : ℚ
  deriving DecidableEq

/-- Document of `models/Startup.js`. -/
structure Startup where
  _id : ObjectId
  name : String
  eventId : ObjectId
  logoUrl : Option String
  deriving DecidableEq

/-- Subdocument of `investmentHistorySchema`. -/
structure HistoryEntry where
  amount : ℚ
  timestamp : Timestamp
  deriving DecidableEq

/-- Document of `models/Investment.js`. -/
structure Investment where
  _id : ObjectId
  investorId : ObjectId
  startupId : ObjectId
  eventId : ObjectId
  amount : ℚ
  history : List HistoryEntry
  deriving DecidableEq

/-- The document store. -/
structure Store where
  events : List Event
  investors : List Investor
  startups : List Startup
  investments : List Investment
  deriving DecidableEq

/-! ## Store operations -/

/-- The write of an `updateOne` by `_id`: the first document selected by
`sameId` is replaced by `d`. -/
def updateOne {α : Type} (sameId : α → Bool) (d : α) : List α → List α
  | [] => []
  | x :: xs => if sameId x then d :: xs else x :: updateOne sameId d xs

/-- The query `Event.findById(i)`. -/
def Event.findById (db : Store) (i : ObjectId) : Option Event :=
  db.events.find? (fun d => d._id == i)

/-- The query `Investor.findById(i)`. -/
def Investor.findById (db : Store) (i : ObjectId) : Option Investor :=
  db.investors.find? (fun d => d._id == i)

/-- The query `Startup.findById(i)`. -/
def Startup.findById (db : Store) (i : ObjectId) : Option Startup :=
  db.startups.find? (fun d => d._id == i)

/-- The query `Investment.findById(i)`. -/
def Investment.findById (db : Store) (i : ObjectId) : Option Investment :=
  db.investments.find? (fun d => d._id == i)

/-- The query `Investment.findOne` by `investorId` and `startupId`: the first
Investment of the pair. -/
def Investment.findOne (db : Store) (investorId startupId : ObjectId) : Option Investment :=
  db.investments.find? (fun d => d.investorId == investorId && d.startupId == startupId)

/-- The write `investor.save()` of a loaded investor. -/
def Investor.save (d : Investor) (db : Store) : Store :=
  { db with investors := updateOne (fun x => x._id == d._id) d db.investors }

/-- The write `investment.save()` of a loaded investment. -/
def Investment.save (d : Investment) (db : Store) : Store :=
  { db with investments := updateOne (fun x => x._id == d._id) d db.investments }

/-- The write `investment.save()` of a document made by `new Investment(...)`. -/
def Investment.insert (d : Investment) (db : Store) : Store :=
  { db with investments := db.investments ++ [d] }

/-- The validator `min: 0` that the schemas put on every amount. -/
def minZero (q : ℚ) : Bool := decide (0 ≤ q)

/-! ## Responses -/

/-- The messages the handlers send. `insufficientBudget a` is
"Insufficient budget. Available: a"; `thrown e` is the message of a caught
exception; `success` is the default message "Success" of
`APIResponse.success`. -/
inductive Message where
  | missingRequiredFields
  | investorNotFound
  | invalidInvestmentAmount
  | startupNotFound
  | notSameEvent
  | insufficientBudget (available : ℚ)
  | amountMustBeNonneg
  | investmentUpdated
  | investmentSuccessful
  | thrown (e : Exception)
  | success
  | investmentNotFound
  | invalidEventId
  | eventNotFound
  | summaryRetrieved
  | invalidInvestorId
  | errorGettingRelated
  | errorGettingInvestorDetails
  | unauthorized
  | internalServerError
  | errorGettingInvestors
  | eventCreated
  | eventUpdated
  | eventDeleted
  | eventsRetrieved
  | investorCreated
  | investorUpdated
  | investorDeleted
  | investorsRetrieved
  | startupCreated
  | startupUpdated
  | startupDeleted
  | startupsRetrieved
  deriving DecidableEq

/-- The envelope `res.status(status).json(...)` of `utils/APIResponse.js`;
`data` is `none` when the envelope has no `data` field. -/
structure Response (α : Type) where
  status : Nat
  success : Bool
  message : Message
  data : Option α
  deriving DecidableEq

/-- The envelope built by `APIResponse.success(res, data, message, statusCode)`. -/
def APIResponse.success {α : Type} (data : α) (message : Message) (statusCode : Nat := 200) :
    Response α :=
  { status := statusCode, success := true, message := message, data := some data }

/-- The envelope built by `APIResponse.error(res, message, statusCode)`. -/
def APIResponse.error {α : Type} (message : Message) (statusCode : Nat := 500) : Response α :=
  { status := statusCode, success := false, message := message, data := none }

/-! ## makeInvestment -/

/-- The body of a `POST /investments` request. -/
structure RequestBody where
  investorId : IdField
  startupId : IdField
  amount : JSValue
  deriving DecidableEq

/-- What the environment supplies to one call: the clock read by `new Date()`
and the id given to a document made by `new Investment(...)`. -/
structure Env where
  now : Timestamp
  newId : ObjectId
  deriving DecidableEq

/-- The payload of a successful `makeInvestment`. -/
structure Payload where
  investment : Investment
  remainingBudget : ℚ
  deriving DecidableEq

/-- The `catch` block of `makeInvestment`: status 500 with the exception's
message. -/
def caught (e : Exception) : Response Payload :=
  APIResponse.error (.thrown e)

/-- The handler `investmentController.makeInvestment`, lines 7 to 113. -/
def makeInvestment (env : Env) (body : RequestBody) (db : Store) : Response Payload × Store :=
  -- line 13
  if !body.investorId.truthy || !body.startupId.truthy || !body.amount.truthy then
    (APIResponse.error .missingRequiredFields 400, db)
  else
  -- line 18
  match body.investorId.cast with
  | .error e => (caught e, db)
  | .ok investorId =>
  match Investor.findById db investorId with
  | none => (APIResponse.error .investorNotFound 404, db)
  | some investor =>
  -- line 28
  match body.amount with
  | .number amount =>
    if amount ≤ 0 then (APIResponse.error .invalidInvestmentAmount 400, db) else
    -- line 33
    match body.startupId.cast with
    | .error e => (caught e, db)
    | .ok startupId =>
    match Startup.findById db startupId with
    | none => (APIResponse.error .startupNotFound 404, db)
    | some startup =>
    -- line 43
    if startup.eventId ≠ investor.eventId then (APIResponse.error .notSameEvent 400, db) else
    -- line 48
    let existingInvestment := Investment.findOne db investorId startupId
    -- line 53 reads `existingInvestment.amount`, which throws on `null`
    match existingInvestment.map (fun d => d.amount) with
    | none => (caught .typeError, db)
    | some existingAmount =>
    if investor.remainingBudget + existingAmount < amount then
      (APIResponse.error (.insufficientBudget investor.remainingBudget) 400, db)
    else
    -- line 58
    let newAmt := amount
    if newAmt < 0 then (APIResponse.error .amountMustBeNonneg 400, db) else
    match existingInvestment with
    | some existing =>
      -- line 63
      let diff := newAmt - existing.amount
      if diff > 0 ∧ diff > investor.remainingBudget then
        (APIResponse.error (.insufficientBudget investor.remainingBudget) 400, db)
      else
      -- lines 71 to 77
      let entry : HistoryEntry := { amount := existing.amount, timestamp := env.now }
      let updated : Investment :=
        { existing with history := existing.history ++ [entry], amount := newAmt }
      let investor' : Investor :=
        { investor with remainingBudget := investor.remainingBudget - diff }
      -- line 79: both saves are started; each validates what it is about to
      -- write and writes on its own
      let investmentOk := minZero entry.amount && minZero updated.amount
      let investorOk := minZero investor'.remainingBudget
      let db1 := if investmentOk then Investment.save updated db else db
      let db2 := if investorOk then Investor.save investor' db1 else db1
      if investmentOk && investorOk then
        (APIResponse.success { investment := updated, remainingBudget := investor'.remainingBudget }
          .investmentUpdated, db2)
      else (caught .validationError, db2)
    | none =>
      -- lines 87 to 94
      let investment : Investment :=
        { _id := env.newId, investorId := investorId, startupId := startupId,
          eventId := investor.eventId, amount := amount, history := [] }
      let investor' : Investor :=
        { investor with remainingBudget := investor.remainingBudget - amount }
      -- lines 97 and 98: one save after the other
      if !minZero investment.amount then (caught .validationError, db) else
      let db1 := Investment.insert investment db
      if !minZero investor'.remainingBudget then (caught .validationError, db1) else
      let db2 := Investor.save investor' db1
      (APIResponse.success { investment := investment, remainingBudget := investor'.remainingBudget }
        .investmentSuccessful 201, db2)
  | _ => (APIResponse.error .invalidInvestmentAmount 400, db)

/-! ## getInvestmentHistory -/

/-- An entry of the history as `getInvestmentHistory` returns it: the stored
entry with its timestamp and the rendering of that timestamp. -/
structure HistoryRecord where
  amount : ℚ
  timestamp : Timestamp
  formattedDate : String
  deriving DecidableEq

/-- The payload of `getInvestmentHistory`. -/
structure HistoryView where
  _id : ObjectId
  investorName : String
  startupName : String
  currentAmount : ℚ
  history : List HistoryRecord
  deriving DecidableEq

/-- The comparator `(a, b) => new Date(b.timestamp) - new Date(a.timestamp)`
is not positive on `a` and `b`: `a` is not older than `b`. -/
def newestFirst (a b : HistoryRecord) : Prop := b.timestamp ≤ a.timestamp

instance : DecidableRel newestFirst :=
  fun a b => inferInstanceAs (Decidable (b.timestamp ≤ a.timestamp))

instance newestFirst_total : IsTotal HistoryRecord newestFirst :=
  ⟨fun a b => le_total b.timestamp a.timestamp⟩

instance newestFirst_trans : IsTrans HistoryRecord newestFirst :=
  ⟨fun _ _ _ hab hbc => le_trans hbc hab⟩

/-- The handler `investmentController.getInvestmentHistory`, lines 116 to 150.
`toLocaleString` is the rendering of a date by the runtime. `Array.sort` is a
stable sort, and so is the insertion sort that stands for it. -/
def getInvestmentHistory (toLocaleString : Timestamp → String) (investmentId : IdField)
    (db : Store) : Response HistoryView × Store :=
  -- line 120
  match investmentId.cast with
  | .error e => (APIResponse.error (.thrown e), db)
  | .ok id =>
  match Investment.findById db id with
  | none => (APIResponse.error .investmentNotFound 404, db)
  | some investment =>
    -- the two `populate` of lines 121 and 122
    let investorId := Investor.findById db investment.investorId
    let startupId := Startup.findById db investment.startupId
    -- lines 130 to 136
    let history :=
      (investment.history.map (fun record =>
        ({ amount := record.amount, timestamp := record.timestamp,
           formattedDate := toLocaleString record.timestamp } : HistoryRecord))).insertionSort
        newestFirst
    -- lines 138 to 144: `.name` of a reference that did not populate throws
    match investorId with
    | none => (APIResponse.error (.thrown .typeError), db)
    | some investor =>
    match startupId with
    | none => (APIResponse.error (.thrown .typeError), db)
    | some startup =>
      (APIResponse.success
        { _id := investment._id, investorName := investor.name, startupName := startup.name,
          currentAmount := investment.amount, history := history } .success, db)

/-! ## getEventInvestmentSummary -/

/-- The test `mongoose.Types.ObjectId.isValid` on a route parameter. -/
def IdField.isValid : IdField → Bool
  | .oid _ => true
  | .malformed => false
  | .missing => false

/-- An output document of a `$group` stage with the accumulators
`total: sum of amount` and `investmentCount: sum of 1`. -/
structure GroupDoc (κ : Type) where
  _id : κ
  total : ℚ
  investmentCount : Nat
  deriving DecidableEq

/-- One step of a `$group` stage: the document with key `k` and amount
`amount` is added to its group, which is opened when it is the first of its
key. -/
def GroupDoc.accumulate {κ : Type} [DecidableEq κ] (k : κ) (amount : ℚ) :
    List (GroupDoc κ) → List (GroupDoc κ)
  | [] => [{ _id := k, total := amount, investmentCount := 1 }]
  | g :: gs =>
    if g._id = k then
      { g with total := g.total + amount, investmentCount := g.investmentCount + 1 } :: gs
    else g :: GroupDoc.accumulate k amount gs

/-- The `$group` stage over the Investments `docs`, keyed by `key`, in one
pass; the groups come in the order in which their keys first occur. -/
def groupStage {κ : Type} [DecidableEq κ] (key : Investment → κ) (docs : List Investment) :
    List (GroupDoc κ) :=
  docs.foldl (fun acc d => GroupDoc.accumulate (key d) d.amount acc) []

/-- An entry of `byStartup`: a group after `$lookup` and `$unwind`. -/
structure StartupTotal where
  _id : ObjectId
  total : ℚ
  investmentCount : Nat
  startup : Startup
  deriving DecidableEq

/-- An entry of `byInvestor`: a group after `$lookup` and `$unwind`. -/
structure InvestorTotal where
  _id : ObjectId
  total : ℚ
  investmentCount : Nat
  investor : Investor
  deriving DecidableEq

/-- The payload of `getEventInvestmentSummary`. -/
structure SummaryData where
  eventTotal : ℚ
  byStartup : List StartupTotal
  byInvestor : List InvestorTotal
  deriving DecidableEq

/-- The stages `$lookup` from `startups` by `_id` and `$unwind`: one entry for
each Startup with the group's key, none when there is no such Startup. -/
def lookupStartups (db : Store) (groups : List (GroupDoc ObjectId)) : List StartupTotal :=
  groups.flatMap (fun g =>
    (db.startups.filter (fun st => st._id == g._id)).map (fun st =>
      { _id := g._id, total := g.total, investmentCount := g.investmentCount, startup := st }))

/-- The stages `$lookup` from `investors` by `_id` and `$unwind`. -/
def lookupInvestors (db : Store) (groups : List (GroupDoc ObjectId)) : List InvestorTotal :=
  groups.flatMap (fun g =>
    (db.investors.filter (fun iv => iv._id == g._id)).map (fun iv =>
      { _id := g._id, total := g.total, investmentCount := g.investmentCount, investor := iv }))

/-- The handler `investmentController.getEventInvestmentSummary`, lines 153 to
224. -/
def getEventInvestmentSummary (eventId : IdField) (db : Store) : Response SummaryData × Store :=
  -- line 159
  if !eventId.isValid then (APIResponse.error .invalidEventId 400, db) else
  -- line 164
  match eventId.cast with
  | .error e => (APIResponse.error (.thrown e), db)
  | .ok id =>
  match Event.findById db id with
  | none => (APIResponse.error .eventNotFound 404, db)
  | some _ =>
    -- the `$match` stage of the three pipelines
    let matched := db.investments.filter (fun d => d.eventId == id)
    -- lines 172 to 175: `$group` with `_id: null`
    let totalInvestments := groupStage (fun _ => ()) matched
    -- lines 178 to 192
    let startupInvestments := lookupStartups db (groupStage (fun d => d.startupId) matched)
    -- lines 195 to 209
    let investorInvestments := lookupInvestors db (groupStage (fun d => d.investorId) matched)
    -- lines 211 to 215: `totalInvestments[0]?.total || 0`
    let eventTotal :=
      match totalInvestments.head? with
      | some g => if g.total ≠ 0 then g.total else 0
      | none => 0
    (APIResponse.success
      { eventTotal := eventTotal, byStartup := startupInvestments,
        byInvestor := investorInvestments } .summaryRetrieved, db)

/-! ## getInvestorDetails of investorController -/

/-- The event of an investor as the view shows it. -/
structure EventRef where
  _id : ObjectId
  name : String
  totalBudgetPerInvestor : ℚ
  deriving DecidableEq

/-- An entry of `investments` in the investor view. -/
structure InvestmentView where
  _id : ObjectId
  startupId : ObjectId
  startupName : String
  amount : ℚ
  deriving DecidableEq

/-- An entry of `availableStartups` in the investor view. -/
structure StartupRef where
  _id : ObjectId
  name : String
  deriving DecidableEq

/-- The payload of `investorController.getInvestorDetails`. -/
structure InvestorView where
  _id : ObjectId
  name : String
  event : EventRef
  remainingBudget : ℚ
  investments : List InvestmentView
  availableStartups : List StartupRef
  deriving DecidableEq

/-- The `investments.map` of lines 82 to 87: `none` when an Investment's
startup did not populate, where `inv.startupId._id` throws. -/
def investmentViews (db : Store) : List Investment → Option (List InvestmentView)
  | [] => some []
  | inv :: rest =>
    match Startup.findById db inv.startupId with
    | none => none
    | some startup =>
      match investmentViews db rest with
      | none => none
      | some views =>
        some ({ _id := inv._id, startupId := startup._id, startupName := startup.name,
                amount := inv.amount } :: views)

/-- The handler `investorController.getInvestorDetails`, lines 35 to 103. -/
def investorController.getInvestorDetails (investorId : IdField) (db : Store) :
    Response InvestorView × Store :=
  -- line 39
  if !investorId.isValid then (APIResponse.error .invalidInvestorId 400, db) else
  -- line 46
  match investorId.cast with
  | .error _ => (APIResponse.error .errorGettingInvestorDetails, db)
  | .ok id =>
  match Investor.findById db id with
  | none => (APIResponse.error .investorNotFound 404, db)
  | some investor =>
    -- the `populate` of line 47
    let eventId := Event.findById db investor.eventId
    -- lines 61 to 68
    let investments := db.investments.filter (fun d => d.investorId == id)
    let startups : List Startup :=
      match eventId with
      | some event => db.startups.filter (fun st => st.eventId == event._id)
      | none => []
    -- lines 73 to 92, inside the inner `try`
    match eventId with
    | none => (APIResponse.error .errorGettingRelated, db)
    | some event =>
      match investmentViews db investments with
      | none => (APIResponse.error .errorGettingRelated, db)
      | some views =>
        (APIResponse.success
          { _id := investor._id, name := investor.name,
            event := { _id := event._id, name := event.name,
                       totalBudgetPerInvestor := event.totalBudgetPerInvestor },
            remainingBudget := investor.remainingBudget,
            investments := views,
            availableStartups := startups.map (fun startup =>
              ({ _id := startup._id, name := startup.name } : StartupRef)) } .success, db)

/-! ## makeInvestment as reads followed by writes -/

/-- The condition of line 53, on the investor's `remainingBudget`, the
amount of the existing Investment and the requested amount. -/
def firstBudgetCheck (remainingBudget existingAmount amount : ℚ) : Prop :=
  remainingBudget + existingAmount < amount

/-- The condition of line 66, on the same three numbers, with
`diff = amount - existingAmount`. -/
def laterBudgetCheck (remainingBudget existingAmount amount : ℚ) : Prop :=
  amount - existingAmount > 0 ∧ amount - existingAmount > remainingBudget

/-- What an update holds in memory when it reaches the saves of line 79: the
investor as loaded at line 18, the Investment as loaded at line 48 and the new
amount. -/
structure PendingUpdate where
  investor : Investor
  existing : Investment
  newAmt : ℚ
  deriving DecidableEq

/-- The part of `makeInvestment` up to line 68, for a pair that has an
Investment: the three queries and every check, which answer with an error or
leave an update to write. -/
def makeInvestmentReads (body : RequestBody) (db : Store) :
    Except (Response Payload) PendingUpdate :=
  if !body.investorId.truthy || !body.startupId.truthy || !body.amount.truthy then
    .error (APIResponse.error .missingRequiredFields 400)
  else
  match body.investorId.cast with
  | .error e => .error (caught e)
  | .ok investorId =>
  match Investor.findById db investorId with
  | none => .error (APIResponse.error .investorNotFound 404)
  | some investor =>
  match body.amount with
  | .number amount =>
    if amount ≤ 0 then .error (APIResponse.error .invalidInvestmentAmount 400) else
    match body.startupId.cast with
    | .error e => .error (caught e)
    | .ok startupId =>
    match Startup.findById db startupId with
    | none => .error (APIResponse.error .startupNotFound 404)
    | some startup =>
    if startup.eventId ≠ investor.eventId then .error (APIResponse.error .notSameEvent 400) else
    match Investment.findOne db investorId startupId with
    | none => .error (caught .typeError)
    | some existing =>
    if investor.remainingBudget + existing.amount < amount then
      .error (APIResponse.error (.insufficientBudget investor.remainingBudget) 400)
    else if amount < 0 then .error (APIResponse.error .amountMustBeNonneg 400)
    else if amount - existing.amount > 0 ∧ amount - existing.amount > investor.remainingBudget then
      .error (APIResponse.error (.insufficientBudget investor.remainingBudget) 400)
    else .ok { investor := investor, existing := existing, newAmt := amount }
  | _ => .error (APIResponse.error .invalidInvestmentAmount 400)

/-- The part of `makeInvestment` from line 70 to line 83: the documents held
in memory are changed and saved to the store as it is at that moment. -/
def makeInvestmentWrites (env : Env) (p : PendingUpdate) (db : Store) :
    Response Payload × Store :=
  let diff := p.newAmt - p.existing.amount
  let entry : HistoryEntry := { amount := p.existing.amount, timestamp := env.now }
  let updated : Investment :=
    { p.existing with history := p.existing.history ++ [entry], amount := p.newAmt }
  let investor' : Investor :=
    { p.investor with remainingBudget := p.investor.remainingBudget - diff }
  let investmentOk := minZero entry.amount && minZero updated.amount
  let investorOk := minZero investor'.remainingBudget
  let db1 := if investmentOk then Investment.save updated db else db
  let db2 := if investorOk then Investor.save investor' db1 else db1
  if investmentOk && investorOk then
    (APIResponse.success { investment := updated, remainingBudget := investor'.remainingBudget }
      .investmentUpdated, db2)
  else (caught .validationError, db2)

/-- Two `makeInvestment` handlers that run at the same time, in the
interleaving in which each has finished its reads before either writes (a
handler yields at every `await`); the first then writes before the second. -/
def raceReadsFirst (env1 env2 : Env) (body1 body2 : RequestBody) (db : Store) :
    Response Payload × Response Payload × Store :=
  match makeInvestmentReads body1 db, makeInvestmentReads body2 db with
  | .error r1, .error r2 => (r1, r2, db)
  | .error r1, .ok p2 => (r1, makeInvestmentWrites env2 p2 db)
  | .ok p1, .error r2 =>
    ((makeInvestmentWrites env1 p1 db).1, r2, (makeInvestmentWrites env1 p1 db).2)
  | .ok p1, .ok p2 =>
    ((makeInvestmentWrites env1 p1 db).1,
      makeInvestmentWrites env2 p2 (makeInvestmentWrites env1 p1 db).2)

/-! ## adminMiddleware -/

/-- What a middleware does with a request: it hands it on with `next()` or
answers it. -/
inductive Passage where
  | next
  | answered (r : Response Unit)
  deriving DecidableEq

/-- The middleware `adminMiddleware`, lines 3 to 12. `ADMIN_KEY` is
`process.env.ADMIN_KEY` and `header` is `req.headers['x-admin-key']`, each
`none` when `undefined`. -/
def adminMiddleware (ADMIN_KEY header : Option String) : Passage :=
  let isAdmin := decide (header = ADMIN_KEY)
  if !isAdmin then .answered (APIResponse.error .unauthorized 403) else .next

/-! ## handleInvestmentChange of the client -/

/-- The Investment of the loaded investor in a startup:
`investor.investments.find(inv => inv.startupId === startupId)`. -/
def existingInvestmentOf (investor : InvestorView) (startupId : ObjectId) :
    Option InvestmentView :=
  investor.investments.find? (fun inv => inv.startupId == startupId)

/-- The value of `existingInvestment?.amount || 0`. -/
def existingAmountOf (investor : InvestorView) (startupId : ObjectId) : ℚ :=
  match existingInvestmentOf investor startupId with
  | some inv => if inv.amount ≠ 0 then inv.amount else 0
  | none => 0

/-- The value of `availableBudget` at line 123 of `InvestorInterface.js`;
`investments` is the state of the amounts entered, by startup id. -/
def availableBudget (investor : InvestorView) (investments : List (ObjectId × ℚ))
    (startupId : ObjectId) : ℚ :=
  let otherInvestments :=
    ((investments.filter (fun entry => entry.1 != startupId)).map (fun entry => entry.2)).foldl
      (fun sum amount => sum + amount) 0
  investor.event.totalBudgetPerInvestor - otherInvestments + existingAmountOf investor startupId

/-- The state update that spreads `prev` and sets the key `startupId` to
`amount`. -/
def setEntry (startupId : ObjectId) (amount : ℚ) :
    List (ObjectId × ℚ) → List (ObjectId × ℚ)
  | [] => [(startupId, amount)]
  | entry :: rest =>
    if entry.1 == startupId then (startupId, amount) :: rest
    else entry :: setEntry startupId amount rest

/-- The handler `handleInvestmentChange`, lines 103 to 134 of
`InvestorInterface.js`. `value` is `Number(value)`, `none` when it is `NaN`.
The result is the new state of the amounts entered, `none` when the handler
returns without a change. -/
def handleInvestmentChange (investor : InvestorView) (investments : List (ObjectId × ℚ))
    (startupId : ObjectId) (value : Option ℚ) : Option (List (ObjectId × ℚ)) :=
  -- line 104
  let amount : ℚ := match value with
    | some v => if v ≠ 0 then v else 0
    | none => 0
  if amount < 0 then none else
  let totalWithNew := amount
  if totalWithNew > availableBudget investor investments startupId then none
  else some (setEntry startupId amount investments)

/-! ## The other route handlers -/

/-- The fields of a request body that the Event schema keeps, each absent or
with the value it casts to (a name after `trim`). A body with a field that
does not cast is `none` where a handler takes an `Option EventFields`. -/
structure EventFields where
  name : Option String
  date : Option Timestamp
  totalBudgetPerInvestor : Option ℚ
  deriving DecidableEq

/-- The fields of a request body that the Investor schema keeps. -/
structure InvestorFields where
  name : Option String
  eventId : Option ObjectId
  remainingBudget : Option ℚ
  deriving DecidableEq

/-- The fields of a request body that the Startup schema keeps; a `logoUrl`
may be set to `null`. -/
structure StartupFields where
  name : Option String
  eventId : Option ObjectId
  logoUrl : Option (Option String)
  deriving DecidableEq

/-- The field `budget` of the body of `POST /admin/investors`, by what the
handler can observe of it: a falsy value, a truthy value that casts to the
number `q`, or a truthy value that does not cast to a number. -/
inductive BudgetField where
  | falsy
  | castsTo (q : ℚ)
  | uncastable
  deriving DecidableEq

/-- What `upload.single('logo')` of the upload middleware does with a
request: it rejects it, which hands an error to the error handler of
`index.js`, or passes it on with `req.file`, `none` when no file came. -/
inductive Upload where
  | rejected
  | passed (filename : Option String)
  deriving DecidableEq

/-- The write `deleteOne` by `_id`: the first document selected is removed. -/
def deleteOne {α : Type} (sameId : α → Bool) (l : List α) : List α := l.eraseP sameId

/-- The save of a document made by `new Event(...)`: the validators
`required` and `min: 0` of `models/Event.js`, then the insert. -/
def Event.create (env : Env) (body : Option EventFields) (db : Store) :
    Except Exception (Event × Store) :=
  match body with
  | none => .error .validationError
  | some fields =>
    match fields.name, fields.date, fields.totalBudgetPerInvestor with
    | some name, some date, some total =>
      if name ≠ "" ∧ minZero total = true then
        let event : Event :=
          { _id := env.newId, name := name, date := date, totalBudgetPerInvestor := total }
        .ok (event, { db with events := db.events ++ [event] })
      else .error .validationError
    | _, _, _ => .error .validationError

/-- The save of a document made by `new Investor(...)`: the validators of
`models/Investor.js`, then the insert. -/
def Investor.create (env : Env) (name : Option String) (eventId : ObjectId)
    (remainingBudget : Option ℚ) (db : Store) : Except Exception (Investor × Store) :=
  match name, remainingBudget with
  | some name, some budget =>
    if name ≠ "" ∧ minZero budget = true then
      let investor : Investor :=
        { _id := env.newId, name := name, eventId := eventId, remainingBudget := budget }
      .ok (investor, { db with investors := db.investors ++ [investor] })
    else .error .validationError
  | _, _ => .error .validationError

/-- The save of a document made by `new Startup(...)`: the validators of
`models/Startup.js`, then the insert. -/
def Startup.create (env : Env) (name : Option String) (eventId : ObjectId)
    (logoUrl : Option String) (db : Store) : Except Exception (Startup × Store) :=
  match name with
  | some name =>
    if name ≠ "" then
      let startup : Startup :=
        { _id := env.newId, name := name, eventId := eventId, logoUrl := logoUrl }
      .ok (startup, { db with startups := db.startups ++ [startup] })
    else .error .validationError
  | none => .error .validationError

/-- The handler `eventController.createEvent`. -/
def eventController.createEvent (env : Env) (body : Option EventFields) (db : Store) :
    Response Event × Store :=
  match Event.create env body db with
  | .ok (event, db') => (APIResponse.success event .eventCreated 201, db')
  | .error e => (APIResponse.error (.thrown e), db)

/-- The payload of `getEventDetails`. -/
structure EventDetails where
  event : Event
  investors : List Investor
  startups : List Startup
  deriving DecidableEq

/-- The handler `eventController.getEventDetails`. -/
def eventController.getEventDetails (eventId : IdField) (db : Store) :
    Response EventDetails × Store :=
  match eventId.cast with
  | .error e => (APIResponse.error (.thrown e), db)
  | .ok id =>
  match Event.findById db id with
  | none => (APIResponse.error .eventNotFound 404, db)
  | some event =>
    (APIResponse.success
      { event := event,
        investors := db.investors.filter (fun d => d.eventId == id),
        startups := db.startups.filter (fun d => d.eventId == id) } .success, db)

/-- The handler `eventController.getAllEvents`. -/
def eventController.getAllEvents (db : Store) : Response (List Event) × Store :=
  (APIResponse.success db.events .success, db)

/-- The handler `investorController.createInvestor`, lines 7 to 32. -/
def investorController.createInvestor (env : Env) (name : Option String) (eventId : IdField)
    (db : Store) : Response Investor × Store :=
  -- line 11
  if !eventId.isValid then (APIResponse.error .invalidEventId 400, db) else
  -- line 15
  match eventId.cast with
  | .error e => (APIResponse.error (.thrown e), db)
  | .ok id =>
  match Event.findById db id with
  | none => (APIResponse.error .eventNotFound 404, db)
  | some event =>
    -- lines 20 to 27
    match Investor.create env name id (some event.totalBudgetPerInvestor) db with
    | .ok (investor, db') => (APIResponse.success investor .investorCreated 201, db')
    | .error e => (APIResponse.error (.thrown e), db)

/-- An investor with its `eventId` populated. -/
structure PopulatedInvestor where
  investor : Investor
  event : Option EventRef
  deriving DecidableEq

/-- The handler `investorController.getInvestorsByEvent`. -/
def investorController.getInvestorsByEvent (eventId : IdField) (db : Store) :
    Response (List PopulatedInvestor) × Store :=
  if !eventId.isValid then (APIResponse.error .invalidEventId 400, db) else
  match eventId.cast with
  | .error _ => (APIResponse.error .errorGettingInvestors, db)
  | .ok id =>
    (APIResponse.success
      ((db.investors.filter (fun d => d.eventId == id)).map (fun d =>
        ({ investor := d,
           event := (Event.findById db d.eventId).map (fun ev =>
             ({ _id := ev._id, name := ev.name,
                totalBudgetPerInvestor := ev.totalBudgetPerInvestor } : EventRef)) }
          : PopulatedInvestor))) .success, db)

/-- The handler `startupController.createStartup`. An absent `eventId` finds
no event; one that does not cast makes `findById` throw. -/
def startupController.createStartup (env : Env) (name : Option String) (eventId : IdField)
    (db : Store) : Response Startup × Store :=
  match eventId with
  | .malformed => (APIResponse.error (.thrown .castError), db)
  | .missing => (APIResponse.error .eventNotFound 404, db)
  | .oid id =>
  match Event.findById db id with
  | none => (APIResponse.error .eventNotFound 404, db)
  | some _ =>
    match Startup.create env name id none db with
    | .ok (startup, db') => (APIResponse.success startup .startupCreated 201, db')
    | .error e => (APIResponse.error (.thrown e), db)

/-- The handler `startupController.getStartupsByEvent`. -/
def startupController.getStartupsByEvent (eventId : IdField) (db : Store) :
    Response (List Startup) × Store :=
  match eventId.cast with
  | .error e => (APIResponse.error (.thrown e), db)
  | .ok id => (APIResponse.success (db.startups.filter (fun d => d.eventId == id)) .success, db)

/-- A startup with its `eventId` populated. -/
structure PopulatedStartup where
  startup : Startup
  event : Option Event
  deriving DecidableEq

/-- The handler `startupController.getStartupDetails`. -/
def startupController.getStartupDetails (startupId : IdField) (db : Store) :
    Response PopulatedStartup × Store :=
  match startupId.cast with
  | .error e => (APIResponse.error (.thrown e), db)
  | .ok id =>
  match Startup.findById db id with
  | none => (APIResponse.error .startupNotFound 404, db)
  | some startup =>
    (APIResponse.success
      { startup := startup, event := Event.findById db startup.eventId } .success, db)

/-! ## The admin routes -/

/-- The validator `min: 0` fails on a number that an update sets. -/
def belowZero : Option ℚ → Bool
  | some q => !minZero q
  | none => false

/-- The handler of `GET /admin/events`, which writes the envelope itself. -/
def adminRoutes.getEvents (db : Store) : Response (List Event) × Store :=
  ({ status := 200, success := true, message := .eventsRetrieved,
     data := some (db.events.insertionSort (fun a b => b.date ≤ a.date)) }, db)

/-- The handler of `POST /admin/events`. -/
def adminRoutes.postEvents (env : Env) (body : Option EventFields) (db : Store) :
    Response Event × Store :=
  match Event.create env body db with
  | .ok (event, db') => (APIResponse.success event .eventCreated 201, db')
  | .error e => (APIResponse.error (.thrown e), db)

/-- The handler of `PUT /admin/events/:id`, lines 38 to 50:
`findByIdAndUpdate(id, body)` with `runValidators`. -/
def adminRoutes.putEvent (id : IdField) (body : Option EventFields) (db : Store) :
    Response Event × Store :=
  match id.cast with
  | .error e => (APIResponse.error (.thrown e), db)
  | .ok i =>
  match body with
  | none => (APIResponse.error (.thrown .castError), db)
  | some fields =>
    -- the validators of the paths the body sets
    if fields.name = some "" ∨ belowZero fields.totalBudgetPerInvestor = true then
      (APIResponse.error (.thrown .validationError), db)
    else
    match Event.findById db i with
    | none => (APIResponse.error .eventNotFound 404, db)
    | some event =>
      let updated : Event :=
        { event with
          name := fields.name.getD event.name,
          date := fields.date.getD event.date,
          totalBudgetPerInvestor :=
            fields.totalBudgetPerInvestor.getD event.totalBudgetPerInvestor }
      (APIResponse.success updated .eventUpdated,
        { db with events := updateOne (fun d => d._id == i) updated db.events })

/-- The handler of `DELETE /admin/events/:id`, lines 52 to 67. -/
def adminRoutes.deleteEvent (id : IdField) (db : Store) : Response Unit × Store :=
  match id.cast with
  | .error e => (APIResponse.error (.thrown e), db)
  | .ok i =>
  -- line 54
  match Event.findById db i with
  | none => (APIResponse.error .eventNotFound 404, db)
  | some _ =>
    -- lines 58 to 61
    (APIResponse.success () .eventDeleted,
      { db with
        events := deleteOne (fun d => d._id == i) db.events,
        investors := db.investors.filter (fun d => !(d.eventId == i)),
        startups := db.startups.filter (fun d => !(d.eventId == i)) })

/-- The handler of `GET /admin/investors/event/:eventId`. -/
def adminRoutes.getInvestorsByEvent (eventId : IdField) (db : Store) :
    Response (List Investor) × Store :=
  match eventId.cast with
  | .error e => (APIResponse.error (.thrown e), db)
  | .ok id =>
    (APIResponse.success (db.investors.filter (fun d => d.eventId == id)) .investorsRetrieved, db)

/-- The handler of `POST /admin/investors`, lines 79 to 97. An absent
`eventId` finds no event; one that does not cast makes `findById` throw. -/
def adminRoutes.postInvestors (env : Env) (name : Option String) (eventId : IdField)
    (budget : BudgetField) (db : Store) : Response Investor × Store :=
  match eventId with
  | .malformed => (APIResponse.error (.thrown .castError), db)
  | .missing => (APIResponse.error .eventNotFound 404, db)
  | .oid id =>
  match Event.findById db id with
  | none => (APIResponse.error .eventNotFound 404, db)
  | some event =>
    -- line 89: `budget || event.totalBudgetPerInvestor`
    let remainingBudget : Option ℚ :=
      match budget with
      | .falsy => some event.totalBudgetPerInvestor
      | .castsTo q => some q
      | .uncastable => none
    match Investor.create env name id remainingBudget db with
    | .ok (investor, db') => (APIResponse.success investor .investorCreated 201, db')
    | .error e => (APIResponse.error (.thrown e), db)

/-- The handler of `PUT /admin/investors/:id`. -/
def adminRoutes.putInvestor (id : IdField) (body : Option InvestorFields) (db : Store) :
    Response Investor × Store :=
  match id.cast with
  | .error e => (APIResponse.error (.thrown e), db)
  | .ok i =>
  match body with
  | none => (APIResponse.error (.thrown .castError), db)
  | some fields =>
    if fields.name = some "" ∨ belowZero fields.remainingBudget = true then
      (APIResponse.error (.thrown .validationError), db)
    else
    match Investor.findById db i with
    | none => (APIResponse.error .investorNotFound 404, db)
    | some investor =>
      let updated : Investor :=
        { investor with
          name := fields.name.getD investor.name,
          eventId := fields.eventId.getD investor.eventId,
          remainingBudget := fields.remainingBudget.getD investor.remainingBudget }
      (APIResponse.success updated .investorUpdated,
        { db with investors := updateOne (fun d => d._id == i) updated db.investors })

/-- The handler of `DELETE /admin/investors/:id`. -/
def adminRoutes.deleteInvestor (id : IdField) (db : Store) : Response Unit × Store :=
  match id.cast with
  | .error e => (APIResponse.error (.thrown e), db)
  | .ok i =>
  match Investor.findById db i with
  | none => (APIResponse.error .investorNotFound 404, db)
  | some _ =>
    (APIResponse.success () .investorDeleted,
      { db with investors := deleteOne (fun d => d._id == i) db.investors })

/-- The handler of `GET /admin/startups/event/:eventId`. -/
def adminRoutes.getStartupsByEvent (eventId : IdField) (db : Store) :
    Response (List Startup) × Store :=
  match eventId.cast with
  | .error e => (APIResponse.error (.thrown e), db)
  | .ok id =>
    (APIResponse.success (db.startups.filter (fun d => d.eventId == id)) .startupsRetrieved, db)

/-- The handler of `POST /admin/startups`, after `upload.single('logo')` has
passed the request on with `req.file`. -/
def adminRoutes.postStartups (env : Env) (file : Option String) (name : Option String)
    (eventId : IdField) (db : Store) : Response Startup × Store :=
  match eventId with
  | .malformed => (APIResponse.error (.thrown .castError), db)
  | .missing => (APIResponse.error .eventNotFound 404, db)
  | .oid id =>
  match Event.findById db id with
  | none => (APIResponse.error .eventNotFound 404, db)
  | some _ =>
    match Startup.create env name id (file.map (fun filename => "/uploads/" ++ filename)) db with
    | .ok (startup, db') => (APIResponse.success startup .startupCreated 201, db')
    | .error e => (APIResponse.error (.thrown e), db)

/-- The handler of `PUT /admin/startups/:id`. -/
def adminRoutes.putStartup (id : IdField) (body : Option StartupFields) (db : Store) :
    Response Startup × Store :=
  match id.cast with
  | .error e => (APIResponse.error (.thrown e), db)
  | .ok i =>
  match body with
  | none => (APIResponse.error (.thrown .castError), db)
  | some fields =>
    if fields.name = some "" then (APIResponse.error (.thrown .validationError), db) else
    match Startup.findById db i with
    | none => (APIResponse.error .startupNotFound 404, db)
    | some startup =>
      let updated : Startup :=
        { startup with
          name := fields.name.getD startup.name,
          eventId := fields.eventId.getD startup.eventId,
          logoUrl := fields.logoUrl.getD startup.logoUrl }
      (APIResponse.success updated .startupUpdated,
        { db with startups := updateOne (fun d => d._id == i) updated db.startups })

/-- The handler of `DELETE /admin/startups/:id`. -/
def adminRoutes.deleteStartup (id : IdField) (db : Store) : Response Unit × Store :=
  match id.cast with
  | .error e => (APIResponse.error (.thrown e), db)
  | .ok i =>
  match Startup.findById db i with
  | none => (APIResponse.error .startupNotFound 404, db)
  | some _ =>
    (APIResponse.success () .startupDeleted,
      { db with startups := deleteOne (fun d => d._id == i) db.startups })

/-! ## The server as a whole -/

/-- What a client sees of the envelope of a response: the status, the
`success` flag and the `message` when the body has them, and whether the body
has a `data` field. -/
structure Envelope where
  status : Nat
  success : Option Bool
  message : Option Message
  data : Bool
  deriving DecidableEq

/-- The envelope of a response written through `APIResponse`. -/
def Response.envelope {α : Type} (r : Response α) : Envelope :=
  { status := r.status, success := some r.success, message := some r.message,
    data := r.data.isSome }

/-- The body of `GET /admin/debug/events`, lines 181 to 193: `count` and
`events`, with status 200 and no field of the envelope. The store does not
fail, so the `catch` of the route is not reached. -/
def adminRoutes.debugEvents (db : Store) : Envelope × Store :=
  ({ status := 200, success := none, message := none, data := false }, db)

/-- The error handling middleware of `index.js`, lines 64 to 70. -/
def errorHandler : Response Unit :=
  { status := 500, success := false, message := .internalServerError, data := none }

/-- The routes of `routes/index.js` that are open to every client. -/
inductive PublicOperation where
  | createEvent (body : Option EventFields)
  | getEventDetails (eventId : IdField)
  | getAllEvents
  | createInvestor (name : Option String) (eventId : IdField)
  | getInvestorDetails (investorId : IdField)
  | getInvestorsByEvent (eventId : IdField)
  | createStartup (name : Option String) (eventId : IdField)
  | getStartupsByEvent (eventId : IdField)
  | getStartupDetails (startupId : IdField)
  | makeInvestment (body : RequestBody)
  | getInvestmentHistory (investmentId : IdField)
  | getEventInvestmentSummary (eventId : IdField)

/-- The routes of `routes/adminRoutes.js`. -/
inductive AdminOperation where
  | getEvents
  | postEvents (body : Option EventFields)
  | putEvent (id : IdField) (body : Option EventFields)
  | deleteEvent (id : IdField)
  | getInvestorsByEvent (eventId : IdField)
  | postInvestors (name : Option String) (eventId : IdField) (budget : BudgetField)
  | putInvestor (id : IdField) (body : Option InvestorFields)
  | deleteInvestor (id : IdField)
  | getStartupsByEvent (eventId : IdField)
  | postStartups (upload : Upload) (name : Option String) (eventId : IdField)
  | putStartup (id : IdField) (body : Option StartupFields)
  | deleteStartup (id : IdField)
  | debugEvents

/-- A request to the server: an open route, or an admin route with the
`x-admin-key` header of the request. -/
inductive Operation where
  | openRoute (op : PublicOperation)
  | adminRoute (header : Option String) (op : AdminOperation)

/-- What is fixed around the requests: the configured `ADMIN_KEY` and the
rendering of dates of the runtime. -/
structure Server where
  ADMIN_KEY : Option String
  toLocaleString : Timestamp → String

/-- The answer to a request on an open route and the store it leaves. -/
def PublicOperation.handle (server : Server) (env : Env) (db : Store) :
    PublicOperation → Envelope × Store
  | .createEvent body =>
    ((eventController.createEvent env body db).1.envelope,
      (eventController.createEvent env body db).2)
  | .getEventDetails eventId =>
    ((eventController.getEventDetails eventId db).1.envelope,
      (eventController.getEventDetails eventId db).2)
  | .getAllEvents =>
    ((eventController.getAllEvents db).1.envelope, (eventController.getAllEvents db).2)
  | .createInvestor name eventId =>
    ((investorController.createInvestor env name eventId db).1.envelope,
      (investorController.createInvestor env name eventId db).2)
  | .getInvestorDetails investorId =>
    ((investorController.getInvestorDetails investorId db).1.envelope,
      (investorController.getInvestorDetails investorId db).2)
  | .getInvestorsByEvent eventId =>
    ((investorController.getInvestorsByEvent eventId db).1.envelope,
      (investorController.getInvestorsByEvent eventId db).2)
  | .createStartup name eventId =>
    ((startupController.createStartup env name eventId db).1.envelope,
      (startupController.createStartup env name eventId db).2)
  | .getStartupsByEvent eventId =>
    ((startupController.getStartupsByEvent eventId db).1.envelope,
      (startupController.getStartupsByEvent eventId db).2)
  | .getStartupDetails startupId =>
    ((startupController.getStartupDetails startupId db).1.envelope,
      (startupController.getStartupDetails startupId db).2)
  | .makeInvestment body =>
    ((InvestmentPlatform.makeInvestment env body db).1.envelope,
      (InvestmentPlatform.makeInvestment env body db).2)
  | .getInvestmentHistory investmentId =>
    ((InvestmentPlatform.getInvestmentHistory server.toLocaleString investmentId db).1.envelope,
      (InvestmentPlatform.getInvestmentHistory server.toLocaleString investmentId db).2)
  | .getEventInvestmentSummary eventId =>
    ((InvestmentPlatform.getEventInvestmentSummary eventId db).1.envelope,
      (InvestmentPlatform.getEventInvestmentSummary eventId db).2)

/-- The answer of an admin route, past `adminMiddleware`, and the store it
leaves. -/
def AdminOperation.handle (env : Env) (db : Store) : AdminOperation → Envelope × Store
  | .getEvents => ((adminRoutes.getEvents db).1.envelope, (adminRoutes.getEvents db).2)
  | .postEvents body =>
    ((adminRoutes.postEvents env body db).1.envelope, (adminRoutes.postEvents env body db).2)
  | .putEvent id body =>
    ((adminRoutes.putEvent id body db).1.envelope, (adminRoutes.putEvent id body db).2)
  | .deleteEvent id =>
    ((adminRoutes.deleteEvent id db).1.envelope, (adminRoutes.deleteEvent id db).2)
  | .getInvestorsByEvent eventId =>
    ((adminRoutes.getInvestorsByEvent eventId db).1.envelope,
      (adminRoutes.getInvestorsByEvent eventId db).2)
  | .postInvestors name eventId budget =>
    ((adminRoutes.postInvestors env name eventId budget db).1.envelope,
      (adminRoutes.postInvestors env name eventId budget db).2)
  | .putInvestor id body =>
    ((adminRoutes.putInvestor id body db).1.envelope, (adminRoutes.putInvestor id body db).2)
  | .deleteInvestor id =>
    ((adminRoutes.deleteInvestor id db).1.envelope, (adminRoutes.deleteInvestor id db).2)
  | .getStartupsByEvent eventId =>
    ((adminRoutes.getStartupsByEvent eventId db).1.envelope,
      (adminRoutes.getStartupsByEvent eventId db).2)
  | .postStartups .rejected _ _ => (errorHandler.envelope, db)
  | .postStartups (.passed file) name eventId =>
    ((adminRoutes.postStartups env file name eventId db).1.envelope,
      (adminRoutes.postStartups env file name eventId db).2)
  | .putStartup id body =>
    ((adminRoutes.putStartup id body db).1.envelope, (adminRoutes.putStartup id body db).2)
  | .deleteStartup id =>
    ((adminRoutes.deleteStartup id db).1.envelope, (adminRoutes.deleteStartup id db).2)
  | .debugEvents => adminRoutes.debugEvents db

/-- The answer of the server to a request and the store it leaves: an admin
route is behind `adminMiddleware` (`router.use(adminMiddleware)`). -/
def Operation.handle (server : Server) (env : Env) (db : Store) : Operation → Envelope × Store
  | .openRoute op => op.handle server env db
  | .adminRoute header op =>
    match adminMiddleware server.ADMIN_KEY header with
    | .answered r => (r.envelope, db)
    | .next => op.handle env db

/-! ## Notions used to state the properties -/

/-- The envelope contract on a response written through `APIResponse`: a
success carries a `data` field, an error carries none and has a status of 400
or above. -/
def Response.Conforms {α : Type} (r : Response α) : Prop :=
  (r.success = true → r.data.isSome = true) ∧
  (r.success = false → r.data = none ∧ 400 ≤ r.status)

/-- The envelope contract on what a client sees: the body has a `success` flag
and a `message`; a success has a `data` field; an error has none and has a
status of 400 or above. -/
def Envelope.Conforms (e : Envelope) : Prop :=
  e.success.isSome = true ∧ e.message.isSome = true ∧
  (e.success = some true → e.data = true) ∧
  (e.success = some false → e.data = false ∧ 400 ≤ e.status)

/-- The ways in which the routes other than `PUT /admin/events/:id` leave the
Event collection: as it was, with one Event more at the end, or with the first
Event of some id removed. -/
def EventsKept (db after : Store) : Prop :=
  after.events = db.events ∨ (∃ event, after.events = db.events ++ [event]) ∨
    ∃ i, after.events = deleteOne (fun d => d._id == i) db.events

/-- A request to `PUT /admin/events/:id`. -/
def Operation.isPutEvent : Operation → Bool
  | .adminRoute _ (.putEvent _ _) => true
  | _ => false

/-- A request to `GET /admin/debug/events`. -/
def Operation.isDebugEvents : Operation → Bool
  | .adminRoute _ .debugEvents => true
  | _ => false

/-- A server whose `ADMIN_KEY` is "secret". -/
def demoServer : Server := { ADMIN_KEY := some "secret", toLocaleString := fun t => toString t }

/-- The Investment written by the update branch of `makeInvestment`: the
amount before the change is appended to the history, then the amount is
overwritten. -/
def Investment.reallocate (existing : Investment) (now : Timestamp) (newAmt : ℚ) : Investment :=
  { existing with
    history := existing.history ++ [{ amount := existing.amount, timestamp := now }],
    amount := newAmt }

/-- The investor written by `makeInvestment` after a change of `diff`. -/
def Investor.debit (investor : Investor) (diff : ℚ) : Investor :=
  { investor with remainingBudget := investor.remainingBudget - diff }

/-- A call that answered with an error envelope and left the store as it was. -/
def Rejected (db : Store) (r : Response Payload × Store) : Prop :=
  r.2 = db ∧ r.1.success = false

/-- The sum of `amount` over the Investments of investor `i`. -/
def investedBy (db : Store) (i : ObjectId) : ℚ :=
  ((db.investments.filter (fun d => d.investorId == i)).map (fun d => d.amount)).sum

/-- Invariant 2 of the ledger for investor `i`: the investor and its event
exist and `remainingBudget` plus the invested sum is the event's budget. -/
def BudgetInvariant (db : Store) (i : ObjectId) : Prop :=
  ∃ investor event, Investor.findById db i = some investor ∧
    Event.findById db investor.eventId = some event ∧
    investor.remainingBudget + investedBy db i = event.totalBudgetPerInvestor

/-- Every stored Investment amount passed the validator `min: 0` of
`investmentSchema`. -/
def Store.SchemaValid (db : Store) : Prop :=
  ∀ d ∈ db.investments, 0 ≤ d.amount

/-- What the database guarantees of the Investment collection: `_id` is
unique, and the documents satisfy the schema. -/
def Store.WellFormed (db : Store) : Prop :=
  (db.investments.map (fun d => d._id)).Nodup ∧ db.SchemaValid

/-- The store after a sequence of `makeInvestment` calls of investor `i`, each
with its own environment, startup field and amount field. -/
def allocateAll (i : ObjectId) : List (Env × IdField × JSValue) → Store → Store
  | [], db => db
  | (env, s, a) :: rest, db =>
    allocateAll i rest (makeInvestment env { investorId := .oid i, startupId := s, amount := a } db).2

/-! ## A sample event -/

/-- An event with a budget of 1000 per investor. -/
def demoEvent : Event :=
  { _id := 1, name := "Demo Day", date := 0, totalBudgetPerInvestor := 1000 }

/-- Investor A of the sample event, with `remainingBudget = r`. -/
def investorA (r : ℚ) : Investor :=
  { _id := 10, name := "A", eventId := 1, remainingBudget := r }

/-- Startup X of the sample event. -/
def startupX : Startup := { _id := 20, name := "X", eventId := 1, logoUrl := none }

/-- Startup Y of the sample event. -/
def startupY : Startup := { _id := 21, name := "Y", eventId := 1, logoUrl := none }

/-- A startup of another event. -/
def startupZ : Startup := { _id := 22, name := "Z", eventId := 2, logoUrl := none }

/-- The Investment of A in X, with amount `a` and history `h`. -/
def investmentAX (a : ℚ) (h : List HistoryEntry) : Investment :=
  { _id := 30, investorId := 10, startupId := 20, eventId := 1, amount := a, history := h }

/-- The sample store before any allocation. -/
def freshStore : Store :=
  { events := [demoEvent], investors := [investorA 1000],
    startups := [startupX, startupY, startupZ], investments := [] }

/-- The sample store in which A has `a` in X and `r` left. -/
def storeAX (r a : ℚ) (h : List HistoryEntry) : Store :=
  { events := [demoEvent], investors := [investorA r],
    startups := [startupX, startupY, startupZ], investments := [investmentAX a h] }

/-- The request of A for `x` in the startup with id `s`. -/
def requestA (s : ObjectId) (x : ℚ) : RequestBody :=
  { investorId := .oid 10, startupId := .oid s, amount := .number x }

/-- The environment of the call made at time `t`. -/
def envAt (t : Timestamp) : Env := { now := t, newId := 100 + t }

/-- Every Investment of event `e` refers to a Startup and to an Investor that
are in the store. -/
def Store.Referential (db : Store) (e : ObjectId) : Prop :=
  ∀ d ∈ db.investments, d.eventId = e →
    (Startup.findById db d.startupId).isSome ∧ (Investor.findById db d.investorId).isSome

/-- The sample store after `DELETE /startups/20`: the Investment of A in X
stays. -/
def storeWithoutX : Store :=
  { events := [demoEvent], investors := [investorA 900],
    startups := [startupY, startupZ], investments := [investmentAX 100 []] }

/-- The sample store after `DELETE /investors/10`: the Investment of A in X
stays. -/
def storeWithoutA : Store :=
  { events := [demoEvent], investors := [],
    startups := [startupX, startupY, startupZ], investments := [investmentAX 100 []] }

/-- The Investment a request is about: the one `makeInvestment` finds for the
pair of the request, when both ids are well formed. -/
def RequestBody.target (body : RequestBody) (db : Store) : Option Investment :=
  match body.investorId, body.startupId with
  | .oid i, .oid s => Investment.findOne db i s
  | _, _ => none

/-- A rendering of dates for the examples. -/
def dateString (t : Timestamp) : String := toString t

/-- The Investment of A in Y, with amount `a` and history `h`. -/
def investmentAY (a : ℚ) (h : List HistoryEntry) : Investment :=
  { _id := 31, investorId := 10, startupId := 21, eventId := 1, amount := a, history := h }

/-- The sample store in which A has `ax` in X, `ay` in Y and `r` left. -/
def storeAXY (r ax ay : ℚ) : Store :=
  { events := [demoEvent], investors := [investorA r],
    startups := [startupX, startupY, startupZ],
    investments := [investmentAX ax [], investmentAY ay []] }

/-- The view of A that the client has loaded when A has 400 in X and 600
left. -/
def viewA : InvestorView :=
  { _id := 10, name := "A",
    event := { _id := 1, name := "Demo Day", totalBudgetPerInvestor := 1000 },
    remainingBudget := 600,
    investments := [{ _id := 30, startupId := 20, startupName := "X", amount := 400 }],
    availableStartups := [{ _id := 20, name := "X" }, { _id := 21, name := "Y" }] }

/-! ## Lemmas on the store operations -/

theorem find?_updateOne_hit {α : Type} (sameId p : α → Bool) (d e : α) (l : List α)
    (hfind : l.find? p = some e) (hsame : sameId e = true) (hp : p d = true) :
    (updateOne sameId d l).find? p = some d := by
  induction l with
  | nil => simp at hfind
  | cons x xs ih =>
    unfold updateOne
    by_cases hx : sameId x = true
    · simp [hx, hp]
    · by_cases hpx : p x = true
      · simp [List.find?_cons, hpx] at hfind
        subst hfind
        exact absurd hsame hx
      · simp only [hx, Bool.false_eq_true, ite_false, List.find?_cons]
        simp only [List.find?_cons, hpx] at hfind
        simp [hpx, ih hfind]

theorem find?_updateOne_miss {α : Type} (sameId p : α → Bool) (d : α) (l : List α)
    (hd : p d = false) (hsep : ∀ x, sameId x = true → p x = false) :
    (updateOne sameId d l).find? p = l.find? p := by
  induction l with
  | nil => simp [updateOne]
  | cons x xs ih =>
    unfold updateOne
    by_cases hx : sameId x = true
    · simp [hx, List.find?_cons, hd, hsep x hx]
    · simp [hx, List.find?_cons, ih]

theorem mem_updateOne {α : Type} (sameId : α → Bool) (d x : α) (l : List α)
    (h : x ∈ updateOne sameId d l) : x = d ∨ x ∈ l := by
  induction l with
  | nil => simp [updateOne] at h
  | cons y ys ih =>
    unfold updateOne at h
    by_cases hy : sameId y = true
    · simp [hy] at h
      rcases h with h | h
      · exact Or.inl h
      · exact Or.inr (List.mem_cons_of_mem _ h)
    · simp [hy] at h
      rcases h with h | h
      · exact Or.inr (by simp [h])
      · rcases ih h with h | h
        · exact Or.inl h
        · exact Or.inr (List.mem_cons_of_mem _ h)

theorem map_key_updateOne {α : Type} (key : α → ObjectId) (d : α) (l : List α) :
    (updateOne (fun x => key x == key d) d l).map key = l.map key := by
  induction l with
  | nil => simp [updateOne]
  | cons y ys ih =>
    unfold updateOne
    by_cases hy : key y = key d
    · simp [hy]
    · simp [hy, ih]

theorem sum_map_updateOne {α : Type} (key : α → ObjectId) (g : α → ℚ) (d e : α) (l : List α)
    (hnodup : (l.map key).Nodup) (hmem : e ∈ l) (hkey : key e = key d) :
    ((updateOne (fun x => key x == key d) d l).map g).sum = (l.map g).sum - g e + g d := by
  induction l with
  | nil => simp at hmem
  | cons y ys ih =>
    unfold updateOne
    simp only [List.map_cons, List.nodup_cons] at hnodup
    by_cases hy : key y = key d
    · have hey : e = y := by
        rcases List.mem_cons.1 hmem with h | h
        · exact h
        · exact absurd (List.mem_map.2 ⟨e, h, by rw [hkey, hy]⟩) hnodup.1
      subst hey
      simp [hy]
      ring
    · have hmem' : e ∈ ys := by
        rcases List.mem_cons.1 hmem with h | h
        · subst h; exact absurd hkey hy
        · exact h
      simp [hy, ih hnodup.2 hmem']
      ring

/-! ## The shape of a call -/

theorem makeInvestment_update (env : Env) (db : Store) (i s : ObjectId) (x : ℚ)
    (investor : Investor) (startup : Startup) (existing : Investment)
    (hinv : Investor.findById db i = some investor)
    (hst : Startup.findById db s = some startup)
    (hev : startup.eventId = investor.eventId)
    (hex : Investment.findOne db i s = some existing)
    (hx : 0 < x) (hfit : x ≤ investor.remainingBudget + existing.amount) :
    makeInvestment env ⟨.oid i, .oid s, .number x⟩ db =
      if 0 ≤ existing.amount then
        (APIResponse.success
          { investment := existing.reallocate env.now x,
            remainingBudget := investor.remainingBudget - (x - existing.amount) }
          .investmentUpdated,
         Investor.save (investor.debit (x - existing.amount))
          (Investment.save (existing.reallocate env.now x) db))
      else
        (caught .validationError, Investor.save (investor.debit (x - existing.amount)) db) := by
  have h1 : ¬ (investor.remainingBudget + existing.amount < x) := not_lt.2 hfit
  have h2 : ¬ (x ≤ 0) := not_le.2 hx
  have h3 : ¬ (x < 0) := not_lt.2 hx.le
  have h4 : ¬ (investor.remainingBudget < x - existing.amount) := by
    intro h; linarith
  have h5 : 0 ≤ investor.remainingBudget - (x - existing.amount) := by linarith
  have h6 : x ≠ 0 := ne_of_gt hx
  simp only [makeInvestment, IdField.truthy, JSValue.truthy, IdField.cast, hinv, hst, hev, hex]
  simp [h1, h2, h3, h4, h5, h6, hx.le, minZero, Investment.reallocate, Investor.debit]
  split <;> simp_all


theorem rejected_error (db : Store) (m : Message) (c : Nat) :
    Rejected db (APIResponse.error m c, db) := ⟨rfl, rfl⟩

theorem makeInvestment_cases (env : Env) (body : RequestBody) (db : Store) :
    Rejected db (makeInvestment env body db) ∨
    ∃ i s x investor startup existing,
      body = ⟨.oid i, .oid s, .number x⟩ ∧ Investor.findById db i = some investor ∧
      Startup.findById db s = some startup ∧ startup.eventId = investor.eventId ∧
      Investment.findOne db i s = some existing ∧ 0 < x ∧
      x ≤ investor.remainingBudget + existing.amount := by
  rcases body with ⟨bi, bs, ba⟩
  by_cases hgood : ∃ i s x investor startup existing,
      bi = .oid i ∧ bs = .oid s ∧ ba = .number x ∧ Investor.findById db i = some investor ∧
      Startup.findById db s = some startup ∧ startup.eventId = investor.eventId ∧
      Investment.findOne db i s = some existing ∧ 0 < x ∧
      x ≤ investor.remainingBudget + existing.amount
  · obtain ⟨i, s, x, investor, startup, existing, rfl, rfl, rfl, h⟩ := hgood
    exact Or.inr ⟨i, s, x, investor, startup, existing, rfl, h⟩
  · left
    cases bi with
    | missing => simp [makeInvestment, IdField.truthy, Rejected, APIResponse.error]
    | malformed =>
      simp only [makeInvestment, IdField.truthy, IdField.cast]
      split <;> simp [Rejected, APIResponse.error, caught]
    | oid i =>
      cases hinv : Investor.findById db i with
      | none =>
        simp only [makeInvestment, IdField.truthy, IdField.cast, hinv]
        split <;> simp [Rejected, APIResponse.error, caught]
      | some investor =>
        cases ba with
        | number x =>
          by_cases hx : x ≤ 0
          · simp only [makeInvestment, IdField.truthy, IdField.cast, hinv, hx]
            split <;> simp [Rejected, APIResponse.error, caught]
          · have hx0 : x ≠ 0 := fun h => hx (le_of_eq h)
            cases bs with
            | missing => simp [makeInvestment, IdField.truthy, Rejected, APIResponse.error]
            | malformed =>
              simp [makeInvestment, IdField.truthy, IdField.cast, JSValue.truthy, hinv, hx, hx0,
                Rejected, APIResponse.error, caught]
            | oid s =>
              cases hst : Startup.findById db s with
              | none =>
                simp [makeInvestment, IdField.truthy, IdField.cast, JSValue.truthy, hinv, hx, hx0,
                  hst, Rejected, APIResponse.error, caught]
              | some startup =>
                by_cases hev : startup.eventId = investor.eventId
                · cases hex : Investment.findOne db i s with
                  | none =>
                    simp [makeInvestment, IdField.truthy, IdField.cast, JSValue.truthy, hinv, hx,
                      hx0, hst, hev, hex, Rejected, APIResponse.error, caught]
                  | some existing =>
                    by_cases hfit : investor.remainingBudget + existing.amount < x
                    · simp [makeInvestment, IdField.truthy, IdField.cast, JSValue.truthy, hinv, hx,
                        hx0, hst, hev, hex, hfit, Rejected, APIResponse.error, caught]
                    · exact absurd ⟨i, s, x, investor, startup, existing, rfl, rfl, rfl, hinv,
                        hst, hev, hex, not_le.1 hx, not_lt.1 hfit⟩ hgood
                · simp [makeInvestment, IdField.truthy, IdField.cast, JSValue.truthy, hinv, hx,
                    hx0, hst, hev, Rejected, APIResponse.error, caught]
        | _ =>
          simp only [makeInvestment, IdField.truthy, IdField.cast, hinv]
          split <;> simp [Rejected, APIResponse.error, caught]

/-! ## Lookups after a write -/

theorem Investor.id_of_findById {db : Store} {i : ObjectId} {investor : Investor}
    (h : Investor.findById db i = some investor) : investor._id = i := by
  have := List.find?_some h
  simpa using this

theorem Investment.pair_of_findOne {db : Store} {i s : ObjectId} {existing : Investment}
    (h : Investment.findOne db i s = some existing) :
    existing.investorId = i ∧ existing.startupId = s := by
  have := List.find?_some h
  simpa using this

theorem Investment.mem_of_findOne {db : Store} {i s : ObjectId} {existing : Investment}
    (h : Investment.findOne db i s = some existing) : existing ∈ db.investments :=
  List.mem_of_find?_eq_some h

theorem Investor.findById_save_self (db : Store) (i : ObjectId) (investor d : Investor)
    (h : Investor.findById db i = some investor) (hid : d._id = investor._id) :
    Investor.findById (Investor.save d db) i = some d := by
  have hi := Investor.id_of_findById h
  exact find?_updateOne_hit _ _ d investor db.investors h (by simp [hid]) (by simp [hid, hi])

theorem Investor.findById_save_other (db : Store) (j : ObjectId) (d : Investor)
    (h : d._id ≠ j) : Investor.findById (Investor.save d db) j = Investor.findById db j := by
  refine find?_updateOne_miss _ _ d db.investors (by simp [h]) ?_
  intro x hx
  have : x._id = d._id := by simpa using hx
  simp [this, h]

theorem Investment.findOne_save (db : Store) (i s : ObjectId) (existing d : Investment)
    (h : Investment.findOne db i s = some existing) (hid : d._id = existing._id)
    (hi : d.investorId = i) (hs : d.startupId = s) :
    Investment.findOne (Investment.save d db) i s = some d :=
  find?_updateOne_hit _ _ d existing db.investments h (by simp [hid]) (by simp [hi, hs])

theorem Investment.findById_save (db : Store) (existing d : Investment)
    (hmem : existing ∈ db.investments) (hid : d._id = existing._id) :
    Investment.findById (Investment.save d db) existing._id = some d := by
  have hsome : (db.investments.find? (fun x => x._id == existing._id)).isSome := by
    rw [List.find?_isSome]
    exact ⟨existing, hmem, by simp⟩
  obtain ⟨e, he⟩ := Option.isSome_iff_exists.1 hsome
  have hee : e._id = existing._id := by simpa using List.find?_some he
  exact find?_updateOne_hit _ _ d e db.investments he (by simp [hid, hee]) (by simp [hid])

theorem sum_filter_eq_sum_ite (p : Investment → Bool) (l : List Investment) :
    ((l.filter p).map (fun d => d.amount)).sum =
      (l.map (fun d => if p d then d.amount else 0)).sum := by
  induction l with
  | nil => simp
  | cons y ys ih =>
    by_cases hy : p y = true
    · simp [List.filter_cons, hy, ih]
    · simp [List.filter_cons, hy, ih]

theorem investedBy_save (db : Store) (j : ObjectId) (existing d : Investment)
    (hnodup : (db.investments.map (fun x => x._id)).Nodup) (hmem : existing ∈ db.investments)
    (hid : d._id = existing._id) :
    investedBy (Investment.save d db) j =
      investedBy db j - (if existing.investorId = j then existing.amount else 0)
        + (if d.investorId = j then d.amount else 0) := by
  unfold investedBy Investment.save
  rw [sum_filter_eq_sum_ite, sum_filter_eq_sum_ite]
  have := sum_map_updateOne (fun x : Investment => x._id)
    (fun x => if (x.investorId == j) = true then x.amount else 0) d existing db.investments
    hnodup hmem hid.symm
  simpa using this

theorem wellFormed_save (db : Store) (d : Investment) (hwf : db.WellFormed)
    (hd : 0 ≤ d.amount) (db' : Store)
    (hdb : db'.investments = (Investment.save d db).investments) : db'.WellFormed := by
  constructor
  · rw [hdb]
    have := map_key_updateOne (fun x : Investment => x._id) d db.investments
    simp only [Investment.save]
    rw [this]
    exact hwf.1
  · intro x hx
    rw [hdb] at hx
    rcases mem_updateOne _ d x db.investments hx with h | h
    · rw [h]; exact hd
    · exact hwf.2 x h

/-! ## One call on a well-formed store -/

/-- On a store that satisfies the schema a call is either rejected without a write or is an
update of an existing Investment, written together with the investor. -/
theorem makeInvestment_schemaValid (env : Env) (body : RequestBody) (db : Store)
    (hsv : db.SchemaValid) :
    Rejected db (makeInvestment env body db) ∨
    ∃ i s x investor startup existing,
      body = ⟨.oid i, .oid s, .number x⟩ ∧ Investor.findById db i = some investor ∧
      Startup.findById db s = some startup ∧ startup.eventId = investor.eventId ∧
      Investment.findOne db i s = some existing ∧ 0 < x ∧
      x ≤ investor.remainingBudget + existing.amount ∧
      makeInvestment env body db =
        (APIResponse.success
          { investment := existing.reallocate env.now x,
            remainingBudget := investor.remainingBudget - (x - existing.amount) }
          .investmentUpdated,
         Investor.save (investor.debit (x - existing.amount))
          (Investment.save (existing.reallocate env.now x) db)) := by
  rcases makeInvestment_cases env body db with h | ⟨i, s, x, investor, startup, existing, rfl,
    hI, hS, hev, hex, hx, hfit⟩
  · exact Or.inl h
  · refine Or.inr ⟨i, s, x, investor, startup, existing, rfl, hI, hS, hev, hex, hx, hfit, ?_⟩
    rw [makeInvestment_update env db i s x investor startup existing hI hS hev hex hx hfit,
      if_pos (hsv existing (Investment.mem_of_findOne hex))]

theorem makeInvestment_step (env : Env) (body : RequestBody) (db : Store) (j : ObjectId)
    (hwf : db.WellFormed) (hinv : BudgetInvariant db j) :
    (makeInvestment env body db).2.WellFormed ∧
      BudgetInvariant (makeInvestment env body db).2 j := by
  rcases makeInvestment_schemaValid env body db hwf.2 with h | ⟨i, s, x, investor, startup,
    existing, rfl, hI, hS, hev, hex, hx, hfit, hres⟩
  · rw [h.1]; exact ⟨hwf, hinv⟩
  · rw [hres]
    have hmem := Investment.mem_of_findOne hex
    have hpair := Investment.pair_of_findOne hex
    refine ⟨wellFormed_save db (existing.reallocate env.now x) hwf (le_of_lt hx) _ rfl, ?_⟩
    obtain ⟨invJ, event, hJ, hE, hsum⟩ := hinv
    have hsave := investedBy_save db j existing (existing.reallocate env.now x) hwf.1 hmem rfl
    by_cases hji : j = i
    · subst hji
      rw [hI] at hJ
      cases hJ
      refine ⟨investor.debit (x - existing.amount), event,
        Investor.findById_save_self _ j investor _ hI rfl, hE, ?_⟩
      have : investedBy (Investor.save (investor.debit (x - existing.amount))
          (Investment.save (existing.reallocate env.now x) db)) j =
          investedBy db j - existing.amount + x := by
        simpa [Investment.reallocate, hpair.1] using hsave
      rw [this]
      simp only [Investor.debit]
      linarith
    · have hid : (investor.debit (x - existing.amount))._id ≠ j := by
        have := Investor.id_of_findById hI
        simp only [Investor.debit]
        rw [this]
        exact fun h => hji h.symm
      refine ⟨invJ, event, ?_, hE, ?_⟩
      · rw [Investor.findById_save_other _ j _ hid]
        exact hJ
      · have hne : ¬ existing.investorId = j := by
          rw [hpair.1]; exact fun h => hji h.symm
        have : investedBy (Investor.save (investor.debit (x - existing.amount))
            (Investment.save (existing.reallocate env.now x) db)) j = investedBy db j := by
          simpa [Investment.reallocate, hne] using hsave
        rw [this]
        exact hsum

theorem allocateAll_step (i : ObjectId) (calls : List (Env × IdField × JSValue)) (db : Store)
    (hwf : db.WellFormed) (hinv : BudgetInvariant db i) :
    (allocateAll i calls db).WellFormed ∧ BudgetInvariant (allocateAll i calls db) i := by
  induction calls generalizing db with
  | nil => exact ⟨hwf, hinv⟩
  | cons c rest ih =>
    obtain ⟨env, s, a⟩ := c
    have h := makeInvestment_step env { investorId := .oid i, startupId := s, amount := a } db i
      hwf hinv
    exact ih _ h.1 h.2

/-- A request that passes every check but has no Investment for its pair
throws at line 53, before any write. -/
theorem makeInvestment_no_existing (env : Env) (db : Store) (i s : ObjectId) (x : ℚ)
    (investor : Investor) (startup : Startup)
    (hI : Investor.findById db i = some investor)
    (hS : Startup.findById db s = some startup)
    (hev : startup.eventId = investor.eventId)
    (hex : Investment.findOne db i s = none) (hx : 0 < x) :
    makeInvestment env ⟨.oid i, .oid s, .number x⟩ db = (caught .typeError, db) := by
  have h2 : ¬ (x ≤ 0) := not_le.2 hx
  have h6 : x ≠ 0 := ne_of_gt hx
  simp [makeInvestment, IdField.truthy, JSValue.truthy, IdField.cast, hI, hS, hev, hex, h2, h6]

/-- A reallocation of A in X on the sample store. -/
theorem makeInvestment_storeAX (t : Timestamp) (r a x : ℚ) (h : List HistoryEntry)
    (hx : 0 < x) (hfit : x ≤ r + a) (ha : 0 ≤ a) :
    makeInvestment (envAt t) (requestA 20 x) (storeAX r a h) =
      (APIResponse.success
        { investment := investmentAX x (h ++ [{ amount := a, timestamp := t }]),
          remainingBudget := r - (x - a) } .investmentUpdated,
       storeAX (r - (x - a)) x (h ++ [{ amount := a, timestamp := t }])) := by
  have hI : Investor.findById (storeAX r a h) 10 = some (investorA r) := rfl
  have hS : Startup.findById (storeAX r a h) 20 = some startupX := rfl
  have hex : Investment.findOne (storeAX r a h) 10 20 = some (investmentAX a h) := rfl
  have := makeInvestment_update (envAt t) (storeAX r a h) 10 20 x (investorA r) startupX
    (investmentAX a h) hI hS rfl hex hx hfit
  have ha' : 0 ≤ (investmentAX a h).amount := ha
  rw [if_pos ha'] at this
  rw [requestA, this]
  simp [Investment.reallocate, Investor.debit, investmentAX, investorA, storeAX, Investor.save,
    Investment.save, updateOne, envAt]

/-- A call answers "Insufficient budget" only through the check of line 53, on
an existing Investment of the pair. -/
theorem makeInvestment_insufficient (env : Env) (body : RequestBody) (db : Store) (q : ℚ)
    (h : (makeInvestment env body db).1.message = .insufficientBudget q) :
    ∃ i s x investor startup existing,
      body = ⟨.oid i, .oid s, .number x⟩ ∧ Investor.findById db i = some investor ∧
      Startup.findById db s = some startup ∧ startup.eventId = investor.eventId ∧
      Investment.findOne db i s = some existing ∧ 0 < x ∧
      investor.remainingBudget + existing.amount < x ∧ q = investor.remainingBudget := by
  rcases body with ⟨bi, bs, ba⟩
  cases bi with
  | missing => simp [makeInvestment, IdField.truthy, APIResponse.error] at h
  | malformed =>
    simp only [makeInvestment, IdField.truthy, IdField.cast] at h
    split at h <;> simp [APIResponse.error, caught] at h
  | oid i =>
    cases hinv : Investor.findById db i with
    | none =>
      simp only [makeInvestment, IdField.truthy, IdField.cast, hinv] at h
      split at h <;> simp [APIResponse.error, caught] at h
    | some investor =>
      cases ba with
      | number x =>
        by_cases hx : x ≤ 0
        · simp only [makeInvestment, IdField.truthy, IdField.cast, hinv, hx] at h
          split at h <;> simp [APIResponse.error, caught] at h
        · have hx0 : x ≠ 0 := fun h => hx (le_of_eq h)
          cases bs with
          | missing => simp [makeInvestment, IdField.truthy, APIResponse.error] at h
          | malformed =>
            simp [makeInvestment, IdField.truthy, IdField.cast, JSValue.truthy, hinv, hx, hx0,
              APIResponse.error, caught] at h
          | oid s =>
            cases hst : Startup.findById db s with
            | none =>
              simp [makeInvestment, IdField.truthy, IdField.cast, JSValue.truthy, hinv, hx, hx0,
                hst, APIResponse.error, caught] at h
            | some startup =>
              by_cases hev : startup.eventId = investor.eventId
              · cases hex : Investment.findOne db i s with
                | none =>
                  simp [makeInvestment, IdField.truthy, IdField.cast, JSValue.truthy, hinv, hx,
                    hx0, hst, hev, hex, APIResponse.error, caught] at h
                | some existing =>
                  by_cases hfit : investor.remainingBudget + existing.amount < x
                  · simp [makeInvestment, IdField.truthy, IdField.cast, JSValue.truthy, hinv, hx,
                      hx0, hst, hev, hex, hfit, APIResponse.error, caught] at h
                    exact ⟨i, s, x, investor, startup, existing, rfl, hinv, hst, hev, hex,
                      not_le.1 hx, hfit, h.symm⟩
                  · have hupd := makeInvestment_update env db i s x investor startup existing
                      hinv hst hev hex (not_le.1 hx) (not_lt.1 hfit)
                    rw [hupd] at h
                    split at h <;> simp [APIResponse.success, APIResponse.error, caught] at h
              · simp [makeInvestment, IdField.truthy, IdField.cast, JSValue.truthy, hinv, hx,
                  hx0, hst, hev, APIResponse.error, caught] at h
      | _ =>
        simp only [makeInvestment, IdField.truthy, IdField.cast, hinv] at h
        split at h <;> simp [APIResponse.error, caught] at h

/-- An accepted call is an update of the Investment of the pair, written
together with the investor. -/
theorem makeInvestment_accepted (env : Env) (body : RequestBody) (db : Store)
    (hok : (makeInvestment env body db).1.success = true) :
    ∃ i s x investor startup existing,
      body = ⟨.oid i, .oid s, .number x⟩ ∧ Investor.findById db i = some investor ∧
      Startup.findById db s = some startup ∧ startup.eventId = investor.eventId ∧
      Investment.findOne db i s = some existing ∧ 0 < x ∧
      x ≤ investor.remainingBudget + existing.amount ∧ 0 ≤ existing.amount ∧
      makeInvestment env body db =
        (APIResponse.success
          { investment := existing.reallocate env.now x,
            remainingBudget := investor.remainingBudget - (x - existing.amount) }
          .investmentUpdated,
         Investor.save (investor.debit (x - existing.amount))
          (Investment.save (existing.reallocate env.now x) db)) := by
  rcases makeInvestment_cases env body db with h | ⟨i, s, x, investor, startup, existing, rfl,
    hI, hS, hev, hex, hx, hfit⟩
  · rw [h.2] at hok; cases hok
  · have hupd := makeInvestment_update env db i s x investor startup existing hI hS hev hex hx
      hfit
    by_cases ha : 0 ≤ existing.amount
    · rw [if_pos ha] at hupd
      exact ⟨i, s, x, investor, startup, existing, rfl, hI, hS, hev, hex, hx, hfit, ha, hupd⟩
    · rw [if_neg ha] at hupd
      rw [hupd] at hok
      cases hok

/-! ## The `$group` stage -/

theorem filter_key_eq_singleton {α κ : Type} [DecidableEq κ] (key : α → κ) (l : List α) (x : α)
    (hnodup : (l.map key).Nodup) (hx : x ∈ l) :
    l.filter (fun y => decide (key y = key x)) = [x] := by
  induction l with
  | nil => simp at hx
  | cons y ys ih =>
    simp only [List.map_cons, List.nodup_cons] at hnodup
    rcases List.mem_cons.1 hx with h | h
    · subst h
      have hnone : ys.filter (fun y => decide (key y = key x)) = [] := by
        rw [List.filter_eq_nil_iff]
        intro z hz hzk
        exact hnodup.1 (List.mem_map.2 ⟨z, hz, by simpa using hzk⟩)
      simp [List.filter_cons, hnone]
    · have hne : key y ≠ key x := by
        intro hk
        exact hnodup.1 (List.mem_map.2 ⟨x, h, hk.symm⟩)
      simp [List.filter_cons, hne, ih hnodup.2 h]

theorem GroupDoc.sum_total_accumulate {κ : Type} [DecidableEq κ] (k : κ) (a : ℚ)
    (gs : List (GroupDoc κ)) :
    ((GroupDoc.accumulate k a gs).map (fun g => g.total)).sum
      = (gs.map (fun g => g.total)).sum + a := by
  induction gs with
  | nil => simp [GroupDoc.accumulate]
  | cons g gs ih =>
    unfold GroupDoc.accumulate
    by_cases hg : g._id = k
    · simp [hg]; ring
    · simp [hg, ih]; ring

theorem GroupDoc.keys_accumulate {κ : Type} [DecidableEq κ] (k : κ) (a : ℚ)
    (gs : List (GroupDoc κ)) :
    (GroupDoc.accumulate k a gs).map (fun g => g._id) =
      if k ∈ gs.map (fun g => g._id) then gs.map (fun g => g._id)
      else gs.map (fun g => g._id) ++ [k] := by
  induction gs with
  | nil => simp [GroupDoc.accumulate]
  | cons g gs ih =>
    unfold GroupDoc.accumulate
    by_cases hg : g._id = k
    · simp [hg]
    · have hg' : ¬ k = g._id := fun h => hg h.symm
      simp only [hg, if_false, List.map_cons, List.mem_cons, hg', false_or, ih]
      split <;> simp

theorem GroupDoc.filter_total_accumulate {κ : Type} [DecidableEq κ] (k j : κ) (a : ℚ)
    (gs : List (GroupDoc κ)) :
    (((GroupDoc.accumulate k a gs).filter (fun g => decide (g._id = j))).map
        (fun g => g.total)).sum
      = ((gs.filter (fun g => decide (g._id = j))).map (fun g => g.total)).sum
        + (if k = j then a else 0) := by
  induction gs with
  | nil =>
    by_cases hk : k = j <;> simp [GroupDoc.accumulate, List.filter_cons, hk]
  | cons g gs ih =>
    unfold GroupDoc.accumulate
    by_cases hg : g._id = k
    · by_cases hk : k = j
      · subst hk
        simp [hg, List.filter_cons]; ring
      · have hgj : ¬ g._id = j := by rw [hg]; exact hk
        simp [hg, hk, List.filter_cons]
    · by_cases hgj : g._id = j
      · subst hgj
        simp [hg, List.filter_cons, ih]; ring
      · simp [hg, hgj, List.filter_cons, ih]

theorem GroupDoc.filter_count_accumulate {κ : Type} [DecidableEq κ] (k j : κ) (a : ℚ)
    (gs : List (GroupDoc κ)) :
    (((GroupDoc.accumulate k a gs).filter (fun g => decide (g._id = j))).map
        (fun g => g.investmentCount)).sum
      = ((gs.filter (fun g => decide (g._id = j))).map (fun g => g.investmentCount)).sum
        + (if k = j then 1 else 0) := by
  induction gs with
  | nil =>
    by_cases hk : k = j <;> simp [GroupDoc.accumulate, List.filter_cons, hk]
  | cons g gs ih =>
    unfold GroupDoc.accumulate
    by_cases hg : g._id = k
    · by_cases hk : k = j
      · subst hk
        simp [hg, List.filter_cons]; omega
      · have hgj : ¬ g._id = j := by rw [hg]; exact hk
        simp [hg, hk, List.filter_cons]
    · by_cases hgj : g._id = j
      · subst hgj
        simp [hg, List.filter_cons, ih]; omega
      · simp [hg, hgj, List.filter_cons, ih]

theorem foldl_accumulate_sum_total {κ : Type} [DecidableEq κ] (key : Investment → κ)
    (docs : List Investment) (acc : List (GroupDoc κ)) :
    ((docs.foldl (fun acc d => GroupDoc.accumulate (key d) d.amount acc) acc).map
        (fun g => g.total)).sum
      = (acc.map (fun g => g.total)).sum + (docs.map (fun d => d.amount)).sum := by
  induction docs generalizing acc with
  | nil => simp
  | cons d ds ih =>
    simp only [List.foldl_cons, List.map_cons, List.sum_cons]
    rw [ih, GroupDoc.sum_total_accumulate]
    ring

theorem foldl_accumulate_nodup {κ : Type} [DecidableEq κ] (key : Investment → κ)
    (docs : List Investment) (acc : List (GroupDoc κ))
    (hacc : (acc.map (fun g => g._id)).Nodup) :
    ((docs.foldl (fun acc d => GroupDoc.accumulate (key d) d.amount acc) acc).map
        (fun g => g._id)).Nodup := by
  induction docs generalizing acc with
  | nil => simpa using hacc
  | cons d ds ih =>
    simp only [List.foldl_cons]
    apply ih
    rw [GroupDoc.keys_accumulate]
    split
    · exact hacc
    · rename_i hk
      rw [List.nodup_append]
      refine ⟨hacc, List.nodup_singleton _, ?_⟩
      intro a ha hb
      simp only [List.mem_singleton] at hb
      subst hb
      exact hk ha

theorem foldl_accumulate_keys {κ : Type} [DecidableEq κ] (key : Investment → κ)
    (docs : List Investment) (acc : List (GroupDoc κ)) (k : κ)
    (hk : k ∈ (docs.foldl (fun acc d => GroupDoc.accumulate (key d) d.amount acc) acc).map
        (fun g => g._id)) :
    k ∈ acc.map (fun g => g._id) ∨ ∃ d ∈ docs, key d = k := by
  induction docs generalizing acc with
  | nil => exact Or.inl (by simpa using hk)
  | cons d ds ih =>
    simp only [List.foldl_cons] at hk
    rcases ih _ hk with h | ⟨d', hd', hkd⟩
    · rw [GroupDoc.keys_accumulate] at h
      split at h
      · exact Or.inl h
      · rcases List.mem_append.1 h with h | h
        · exact Or.inl h
        · exact Or.inr ⟨d, by simp, (List.mem_singleton.1 h).symm⟩
    · exact Or.inr ⟨d', List.mem_cons_of_mem _ hd', hkd⟩

theorem foldl_accumulate_filter_total {κ : Type} [DecidableEq κ] (key : Investment → κ)
    (docs : List Investment) (acc : List (GroupDoc κ)) (j : κ) :
    (((docs.foldl (fun acc d => GroupDoc.accumulate (key d) d.amount acc) acc).filter
        (fun g => decide (g._id = j))).map (fun g => g.total)).sum
      = ((acc.filter (fun g => decide (g._id = j))).map (fun g => g.total)).sum
        + ((docs.filter (fun d => decide (key d = j))).map (fun d => d.amount)).sum := by
  induction docs generalizing acc with
  | nil => simp
  | cons d ds ih =>
    simp only [List.foldl_cons]
    rw [ih, GroupDoc.filter_total_accumulate]
    by_cases hk : key d = j
    · simp [List.filter_cons, hk]; ring
    · simp [List.filter_cons, hk]

theorem foldl_accumulate_filter_count {κ : Type} [DecidableEq κ] (key : Investment → κ)
    (docs : List Investment) (acc : List (GroupDoc κ)) (j : κ) :
    (((docs.foldl (fun acc d => GroupDoc.accumulate (key d) d.amount acc) acc).filter
        (fun g => decide (g._id = j))).map (fun g => g.investmentCount)).sum
      = ((acc.filter (fun g => decide (g._id = j))).map (fun g => g.investmentCount)).sum
        + (docs.filter (fun d => decide (key d = j))).length := by
  induction docs generalizing acc with
  | nil => simp
  | cons d ds ih =>
    simp only [List.foldl_cons]
    rw [ih, GroupDoc.filter_count_accumulate]
    by_cases hk : key d = j
    · simp [List.filter_cons, hk]; omega
    · simp [List.filter_cons, hk]

/-- The groups of a `$group` stage have distinct keys. -/
theorem groupStage_nodup {κ : Type} [DecidableEq κ] (key : Investment → κ)
    (docs : List Investment) : ((groupStage key docs).map (fun g => g._id)).Nodup :=
  foldl_accumulate_nodup key docs [] (by simp)

/-- Every group of a `$group` stage is the group of some input document. -/
theorem groupStage_key {κ : Type} [DecidableEq κ] (key : Investment → κ)
    (docs : List Investment) (g : GroupDoc κ) (hg : g ∈ groupStage key docs) :
    ∃ d ∈ docs, key d = g._id := by
  have hk : g._id ∈ (groupStage key docs).map (fun g => g._id) := List.mem_map.2 ⟨g, hg, rfl⟩
  rcases foldl_accumulate_keys key docs [] g._id hk with h | h
  · simp at h
  · exact h

/-- The totals of the groups add up to the total of the input. -/
theorem groupStage_sum_total {κ : Type} [DecidableEq κ] (key : Investment → κ)
    (docs : List Investment) :
    ((groupStage key docs).map (fun g => g.total)).sum = (docs.map (fun d => d.amount)).sum := by
  have := foldl_accumulate_sum_total key docs []
  simpa [groupStage] using this

/-- A group holds the sum and the number of the input documents of its key. -/
theorem groupStage_group {κ : Type} [DecidableEq κ] (key : Investment → κ)
    (docs : List Investment) (g : GroupDoc κ) (hg : g ∈ groupStage key docs) :
    g.total = ((docs.filter (fun d => decide (key d = g._id))).map (fun d => d.amount)).sum ∧
    g.investmentCount = (docs.filter (fun d => decide (key d = g._id))).length := by
  have hone := filter_key_eq_singleton (fun g : GroupDoc κ => g._id) (groupStage key docs) g
    (groupStage_nodup key docs) hg
  have ht := foldl_accumulate_filter_total key docs [] g._id
  have hc := foldl_accumulate_filter_count key docs [] g._id
  simp only [groupStage] at hone
  rw [hone] at ht hc
  constructor
  · simpa using ht
  · simpa using hc

/-! ## The summary pipelines -/

theorem find?_key_of_nodup {α : Type} (key : α → ObjectId) (l : List α) (x : α)
    (hnodup : (l.map key).Nodup) (hx : x ∈ l) :
    l.find? (fun y => key y == key x) = some x := by
  induction l with
  | nil => simp at hx
  | cons y ys ih =>
    simp only [List.map_cons, List.nodup_cons] at hnodup
    rcases List.mem_cons.1 hx with h | h
    · subst h; simp
    · have hne : key y ≠ key x := by
        intro hk
        exact hnodup.1 (List.mem_map.2 ⟨x, h, hk.symm⟩)
      simp [List.find?_cons, hne, ih hnodup.2 h]

theorem filter_id_eq_singleton {α : Type} (key : α → ObjectId) (l : List α) (k : ObjectId)
    (x : α) (hnodup : (l.map key).Nodup) (hfind : l.find? (fun y => key y == k) = some x) :
    l.filter (fun y => key y == k) = [x] := by
  have hk : key x = k := by simpa using List.find?_some hfind
  have hmem : x ∈ l := List.mem_of_find?_eq_some hfind
  have h := filter_key_eq_singleton key l x hnodup hmem
  rw [← h, ← hk]
  congr 1

theorem filter_id_length_le_one {α : Type} (key : α → ObjectId) (l : List α) (k : ObjectId)
    (hnodup : (l.map key).Nodup) : (l.filter (fun y => key y == k)).length ≤ 1 := by
  cases hfind : l.find? (fun y => key y == k) with
  | none =>
    have : l.filter (fun y => key y == k) = [] := by
      rw [List.filter_eq_nil_iff]
      intro z hz
      exact List.find?_eq_none.1 hfind z hz
    simp [this]
  | some x => simp [filter_id_eq_singleton key l k x hnodup hfind]

/-- The value of `totalInvestments[0]?.total || 0` is the sum of the matched
amounts. -/
theorem eventTotal_eq_sum (docs : List Investment) :
    (match (groupStage (fun _ => ()) docs).head? with
      | some g => if g.total ≠ 0 then g.total else 0
      | none => 0) = (docs.map (fun d => d.amount)).sum := by
  have hs := groupStage_sum_total (fun _ : Investment => ()) docs
  have hn := groupStage_nodup (fun _ : Investment => ()) docs
  cases hgs : groupStage (fun _ : Investment => ()) docs with
  | nil =>
    rw [hgs] at hs
    simpa using hs
  | cons g rest =>
    rw [hgs] at hs hn
    cases rest with
    | nil =>
      simp only [List.map_cons, List.map_nil, List.sum_cons, List.sum_nil, add_zero] at hs
      simp only [List.head?_cons]
      rw [← hs]
      by_cases h0 : g.total = 0 <;> simp [h0]
    | cons g' rest' =>
      simp at hn

/-- The answer of `getEventInvestmentSummary` for an event that exists. -/
theorem getEventInvestmentSummary_found (db : Store) (e : ObjectId) (event : Event)
    (hE : Event.findById db e = some event) :
    getEventInvestmentSummary (.oid e) db =
      (APIResponse.success
        { eventTotal :=
            ((db.investments.filter (fun d => d.eventId == e)).map (fun d => d.amount)).sum,
          byStartup := lookupStartups db
            (groupStage (fun d => d.startupId) (db.investments.filter (fun d => d.eventId == e))),
          byInvestor := lookupInvestors db
            (groupStage (fun d => d.investorId)
              (db.investments.filter (fun d => d.eventId == e))) }
        .summaryRetrieved, db) := by
  simp only [getEventInvestmentSummary, IdField.isValid, IdField.cast, hE]
  rw [eventTotal_eq_sum]
  rfl

theorem mem_lookupStartups (db : Store) (groups : List (GroupDoc ObjectId))
    (entry : StartupTotal) (h : entry ∈ lookupStartups db groups) :
    ∃ g ∈ groups, entry._id = g._id ∧ entry.total = g.total ∧
      entry.investmentCount = g.investmentCount ∧ entry.startup ∈ db.startups ∧
      entry.startup._id = g._id := by
  simp only [lookupStartups, List.mem_flatMap, List.mem_map, List.mem_filter] at h
  obtain ⟨g, hg, st, ⟨hst, hid⟩, rfl⟩ := h
  exact ⟨g, hg, rfl, rfl, rfl, hst, by simpa using hid⟩

theorem lookupStartups_ids_sublist (db : Store) (groups : List (GroupDoc ObjectId))
    (hnodup : (db.startups.map (fun st => st._id)).Nodup) :
    ((lookupStartups db groups).map (fun t => t._id)).Sublist (groups.map (fun g => g._id)) := by
  induction groups with
  | nil => simp [lookupStartups]
  | cons g gs ih =>
    have hle := filter_id_length_le_one (fun st : Startup => st._id) db.startups g._id hnodup
    have hcons : lookupStartups db (g :: gs) =
        (db.startups.filter (fun st => st._id == g._id)).map (fun st =>
          ({ _id := g._id, total := g.total, investmentCount := g.investmentCount,
             startup := st } : StartupTotal)) ++ lookupStartups db gs := by
      simp [lookupStartups]
    rw [hcons, List.map_append, List.map_cons]
    cases hf : db.startups.filter (fun st => st._id == g._id) with
    | nil => simpa using List.Sublist.cons _ ih
    | cons st rest =>
      rw [hf] at hle
      cases rest with
      | nil => simpa using ih
      | cons st' rest' => simp at hle

theorem lookupStartups_sum (db : Store) (groups : List (GroupDoc ObjectId))
    (hone : ∀ g ∈ groups, ∃ st, db.startups.filter (fun st => st._id == g._id) = [st]) :
    ((lookupStartups db groups).map (fun t => t.total)).sum
      = (groups.map (fun g => g.total)).sum := by
  induction groups with
  | nil => simp [lookupStartups]
  | cons g gs ih =>
    obtain ⟨st, hst⟩ := hone g (by simp)
    have hcons : lookupStartups db (g :: gs) =
        (db.startups.filter (fun st => st._id == g._id)).map (fun st =>
          ({ _id := g._id, total := g.total, investmentCount := g.investmentCount,
             startup := st } : StartupTotal)) ++ lookupStartups db gs := by
      simp [lookupStartups]
    rw [hcons, hst]
    simp [ih (fun g' hg' => hone g' (List.mem_cons_of_mem _ hg'))]

theorem lookupInvestors_sum (db : Store) (groups : List (GroupDoc ObjectId))
    (hone : ∀ g ∈ groups, ∃ iv, db.investors.filter (fun iv => iv._id == g._id) = [iv]) :
    ((lookupInvestors db groups).map (fun t => t.total)).sum
      = (groups.map (fun g => g.total)).sum := by
  induction groups with
  | nil => simp [lookupInvestors]
  | cons g gs ih =>
    obtain ⟨iv, hiv⟩ := hone g (by simp)
    have hcons : lookupInvestors db (g :: gs) =
        (db.investors.filter (fun iv => iv._id == g._id)).map (fun iv =>
          ({ _id := g._id, total := g.total, investmentCount := g.investmentCount,
             investor := iv } : InvestorTotal)) ++ lookupInvestors db gs := by
      simp [lookupInvestors]
    rw [hcons, hiv]
    simp [ih (fun g' hg' => hone g' (List.mem_cons_of_mem _ hg'))]

/-! ## History, frame and view lemmas -/

/-- The answer of `getInvestmentHistory` for an Investment whose investor and
startup are in the store. -/
theorem getInvestmentHistory_found (fmt : Timestamp → String) (db : Store) (id : ObjectId)
    (investment : Investment) (investor : Investor) (startup : Startup)
    (hinv : Investment.findById db id = some investment)
    (hI : Investor.findById db investment.investorId = some investor)
    (hS : Startup.findById db investment.startupId = some startup) :
    getInvestmentHistory fmt (.oid id) db =
      (APIResponse.success
        { _id := investment._id, investorName := investor.name, startupName := startup.name,
          currentAmount := investment.amount,
          history := (investment.history.map (fun record =>
              ({ amount := record.amount, timestamp := record.timestamp,
                 formattedDate := fmt record.timestamp } : HistoryRecord))).insertionSort
              newestFirst } .success, db) := by
  simp [getInvestmentHistory, IdField.cast, hinv, hI, hS]

theorem forall2_same {α : Type} (R : α → α → Prop) (hrefl : ∀ x, R x x) (l : List α) :
    List.Forall₂ R l l := by
  induction l with
  | nil => exact List.Forall₂.nil
  | cons x xs ih => exact List.Forall₂.cons (hrefl x) ih

theorem forall2_updateOne {α : Type} (key : α → ObjectId) (R : α → α → Prop) (d e : α)
    (l : List α) (hnodup : (l.map key).Nodup) (hmem : e ∈ l) (hkey : key d = key e)
    (hrefl : ∀ x, R x x) (hR : R e d) :
    List.Forall₂ R l (updateOne (fun x => key x == key d) d l) := by
  induction l with
  | nil => simp at hmem
  | cons y ys ih =>
    unfold updateOne
    simp only [List.map_cons, List.nodup_cons] at hnodup
    by_cases hy : key y = key d
    · have hey : e = y := by
        rcases List.mem_cons.1 hmem with h | h
        · exact h
        · exact absurd (List.mem_map.2 ⟨e, h, by rw [← hkey, hy]⟩) hnodup.1
      subst hey
      simp only [hy, beq_self_eq_true, if_true]
      exact List.Forall₂.cons hR (forall2_same R hrefl ys)
    · have hmem' : e ∈ ys := by
        rcases List.mem_cons.1 hmem with h | h
        · subst h; exact absurd hkey.symm hy
        · exact h
      simp only [beq_iff_eq, hy, if_false]
      exact List.Forall₂.cons (hrefl y) (ih hnodup.2 hmem')

theorem investmentViews_total (db : Store) (l : List Investment)
    (href : ∀ d ∈ l, (Startup.findById db d.startupId).isSome) :
    ∃ views, investmentViews db l = some views ∧
      List.Forall₂ (fun (inv : Investment) (v : InvestmentView) =>
        v._id = inv._id ∧ v.startupId = inv.startupId ∧ v.amount = inv.amount ∧
        ∃ startup, Startup.findById db inv.startupId = some startup ∧
          v.startupName = startup.name) l views := by
  induction l with
  | nil => exact ⟨[], rfl, List.Forall₂.nil⟩
  | cons inv rest ih =>
    obtain ⟨views, hviews, hall⟩ := ih (fun d hd => href d (List.mem_cons_of_mem _ hd))
    obtain ⟨startup, hst⟩ := Option.isSome_iff_exists.1 (href inv (by simp))
    have hid : startup._id = inv.startupId := by
      have := List.find?_some hst
      simpa using this
    refine ⟨({ _id := inv._id, startupId := startup._id, startupName := startup.name,
               amount := inv.amount } : InvestmentView) :: views, ?_,
      List.Forall₂.cons ⟨rfl, hid, rfl, startup, hst, rfl⟩ hall⟩
    simp [investmentViews, hst, hviews]

/-! ## Reads, writes and the frame of a call -/

/-- Run on its own, `makeInvestment` is its reads followed by its writes. -/
theorem makeInvestment_eq_reads_writes (env : Env) (body : RequestBody) (db : Store) :
    makeInvestment env body db =
      match makeInvestmentReads body db with
      | .error r => (r, db)
      | .ok p => makeInvestmentWrites env p db := by
  rcases body with ⟨bi, bs, ba⟩
  cases bi with
  | missing => simp [makeInvestment, makeInvestmentReads, IdField.truthy]
  | malformed =>
    simp only [makeInvestment, makeInvestmentReads, IdField.truthy, IdField.cast]
    split <;> simp
  | oid i =>
    cases hinv : Investor.findById db i with
    | none =>
      simp only [makeInvestment, makeInvestmentReads, IdField.truthy, IdField.cast, hinv]
      split <;> simp
    | some investor =>
      cases ba with
      | number x =>
        by_cases hx : x ≤ 0
        · by_cases h0 : x = 0
          · simp [makeInvestment, makeInvestmentReads, JSValue.truthy, h0]
          · cases bs <;>
              simp [makeInvestment, makeInvestmentReads, IdField.truthy, IdField.cast,
                JSValue.truthy, hinv, hx, h0]
        · have hx0 : x ≠ 0 := fun h => hx (le_of_eq h)
          cases bs with
          | missing => simp [makeInvestment, makeInvestmentReads, IdField.truthy]
          | malformed =>
            simp [makeInvestment, makeInvestmentReads, IdField.truthy, IdField.cast,
              JSValue.truthy, hinv, hx, hx0]
          | oid s =>
            cases hst : Startup.findById db s with
            | none =>
              simp [makeInvestment, makeInvestmentReads, IdField.truthy, IdField.cast,
                JSValue.truthy, hinv, hx, hx0, hst]
            | some startup =>
              by_cases hev : startup.eventId = investor.eventId
              · cases hex : Investment.findOne db i s with
                | none =>
                  simp [makeInvestment, makeInvestmentReads, IdField.truthy, IdField.cast,
                    JSValue.truthy, hinv, hx, hx0, hst, hev, hex]
                | some existing =>
                  by_cases hfit : investor.remainingBudget + existing.amount < x
                  · simp [makeInvestment, makeInvestmentReads, IdField.truthy, IdField.cast,
                      JSValue.truthy, hinv, hx, hx0, hst, hev, hex, hfit]
                  · have h3 : ¬ (x < 0) := fun h => hx (le_of_lt h)
                    have h4 : ¬ (investor.remainingBudget < x - existing.amount) := by
                      intro h; apply hfit; linarith
                    simp [makeInvestment, makeInvestmentReads, makeInvestmentWrites,
                      IdField.truthy, IdField.cast, JSValue.truthy, hinv, hx, hx0, hst, hev, hex,
                      hfit, h3, h4]
              · simp [makeInvestment, makeInvestmentReads, IdField.truthy, IdField.cast,
                  JSValue.truthy, hinv, hx, hx0, hst, hev]
      | _ =>
        simp only [makeInvestment, makeInvestmentReads, IdField.truthy, IdField.cast, hinv]
        split <;> simp

/-- A request that passes the validation, for a pair with an Investment, and
asks more than `remainingBudget + existing.amount` is answered "Insufficient
budget" with the investor's `remainingBudget`, before any write. -/
theorem makeInvestment_over_budget (env : Env) (db : Store) (i s : ObjectId) (x : ℚ)
    (investor : Investor) (startup : Startup) (existing : Investment)
    (hI : Investor.findById db i = some investor)
    (hS : Startup.findById db s = some startup)
    (hev : startup.eventId = investor.eventId)
    (hex : Investment.findOne db i s = some existing)
    (hx : 0 < x) (hlt : investor.remainingBudget + existing.amount < x) :
    makeInvestment env ⟨.oid i, .oid s, .number x⟩ db =
      (APIResponse.error (.insufficientBudget investor.remainingBudget) 400, db) := by
  have h2 : ¬ (x ≤ 0) := not_le.2 hx
  have h6 : x ≠ 0 := ne_of_gt hx
  simp [makeInvestment, IdField.truthy, JSValue.truthy, IdField.cast, hI, hS, hev, hex, h2, h6,
    hlt]

theorem find?_updateOne_miss_mem {α : Type} (sameId p : α → Bool) (d : α) (l : List α)
    (hd : p d = false) (hsep : ∀ x ∈ l, sameId x = true → p x = false) :
    (updateOne sameId d l).find? p = l.find? p := by
  induction l with
  | nil => simp [updateOne]
  | cons x xs ih =>
    unfold updateOne
    by_cases hx : sameId x = true
    · simp [hx, List.find?_cons, hd, hsep x (by simp) hx]
    · simp [hx, List.find?_cons, ih (fun y hy => hsep y (List.mem_cons_of_mem _ hy))]

theorem eq_of_key_eq_of_nodup {α : Type} (key : α → ObjectId) (l : List α) (x y : α)
    (hnodup : (l.map key).Nodup) (hx : x ∈ l) (hy : y ∈ l) (hk : key x = key y) : x = y := by
  have h := filter_key_eq_singleton key l y hnodup hy
  have hxf : x ∈ l.filter (fun z => decide (key z = key y)) :=
    List.mem_filter.2 ⟨hx, by simpa using hk⟩
  rw [h] at hxf
  simpa using hxf

/-- On a store with unique Investment ids the save of an Investment of one
pair leaves the Investment found for any other pair as it was. -/
theorem Investment.findOne_save_other (db : Store) (i s : ObjectId) (existing d : Investment)
    (hnodup : (db.investments.map (fun x => x._id)).Nodup) (hmem : existing ∈ db.investments)
    (hid : d._id = existing._id)
    (hd : ¬ (d.investorId = i ∧ d.startupId = s))
    (he : ¬ (existing.investorId = i ∧ existing.startupId = s)) :
    Investment.findOne (Investment.save d db) i s = Investment.findOne db i s := by
  refine find?_updateOne_miss_mem _ _ d db.investments (by simpa using hd) ?_
  intro x hx hsame
  have hk : x._id = existing._id := by
    have : x._id = d._id := by simpa using hsame
    rw [this, hid]
  have := eq_of_key_eq_of_nodup (fun x : Investment => x._id) db.investments x existing hnodup hx
    hmem hk
  subst this
  simpa using he

theorem forall2_updateOne_find {α : Type} (sameId : α → Bool) (R : α → α → Prop) (d e : α)
    (l : List α) (hfind : l.find? sameId = some e) (hrefl : ∀ x, R x x) (hR : R e d) :
    List.Forall₂ R l (updateOne sameId d l) := by
  induction l with
  | nil => simp at hfind
  | cons y ys ih =>
    unfold updateOne
    by_cases hy : sameId y = true
    · simp only [List.find?_cons, hy] at hfind
      cases hfind
      simp only [hy, if_true]
      exact List.Forall₂.cons hR (forall2_same R hrefl ys)
    · simp only [List.find?_cons, hy] at hfind
      simp only [hy, Bool.false_eq_true, if_false]
      exact List.Forall₂.cons (hrefl y) (ih hfind)

/-! ## Deletion and the effect of a request on the events -/

theorem find?_deleteOne_self {α : Type} (key : α → ObjectId) (i : ObjectId) (l : List α)
    (hnodup : (l.map key).Nodup) :
    (deleteOne (fun d => key d == i) l).find? (fun d => key d == i) = none := by
  induction l with
  | nil => simp [deleteOne]
  | cons y ys ih =>
    simp only [List.map_cons, List.nodup_cons] at hnodup
    by_cases hy : key y = i
    · have : deleteOne (fun d => key d == i) (y :: ys) = ys := by
        simp [deleteOne, List.eraseP_cons, hy]
      rw [this, List.find?_eq_none]
      intro z hz hzi
      have hzk : key z = key y := by rw [hy]; simpa using hzi
      exact hnodup.1 (List.mem_map.2 ⟨z, hz, hzk⟩)
    · have : deleteOne (fun d => key d == i) (y :: ys)
          = y :: deleteOne (fun d => key d == i) ys := by
        simp [deleteOne, List.eraseP_cons, hy]
      rw [this]
      simp [List.find?_cons, hy, ih hnodup.2]

theorem find?_deleteOne_other {α : Type} (key : α → ObjectId) (i j : ObjectId) (l : List α)
    (hne : j ≠ i) :
    (deleteOne (fun d => key d == i) l).find? (fun d => key d == j)
      = l.find? (fun d => key d == j) := by
  induction l with
  | nil => simp [deleteOne]
  | cons y ys ih =>
    by_cases hy : key y = i
    · have : deleteOne (fun d => key d == i) (y :: ys) = ys := by
        simp [deleteOne, List.eraseP_cons, hy]
      have hyj : ¬ key y = j := by rw [hy]; exact fun h => hne h.symm
      rw [this]
      simp [List.find?_cons, hyj]
    · have : deleteOne (fun d => key d == i) (y :: ys)
          = y :: deleteOne (fun d => key d == i) ys := by
        simp [deleteOne, List.eraseP_cons, hy]
      rw [this]
      by_cases hyj : key y = j
      · simp [List.find?_cons, hyj]
      · simp [List.find?_cons, hyj, ih]

/-! ## Every handler answers through the envelope -/

theorem conforms_success {α : Type} (d : α) (m : Message) (c : Nat) :
    (APIResponse.success d m c).Conforms :=
  ⟨fun _ => rfl, fun h => by simp [APIResponse.success] at h⟩

theorem conforms_error {α : Type} (m : Message) (c : Nat) (hc : 400 ≤ c) :
    (APIResponse.error m c : Response α).Conforms :=
  ⟨fun h => by simp [APIResponse.error] at h, fun _ => ⟨rfl, hc⟩⟩

theorem envelope_conforms {α : Type} (r : Response α) (h : r.Conforms) :
    r.envelope.Conforms := by
  refine ⟨rfl, rfl, ?_, ?_⟩
  · intro hs
    have : r.success = true := by simpa [Response.envelope] using hs
    simpa [Response.envelope] using h.1 this
  · intro hs
    have : r.success = false := by simpa [Response.envelope] using hs
    have h2 := h.2 this
    simp [Response.envelope, h2.1, h2.2]

theorem makeInvestmentReads_conforms (body : RequestBody) (db : Store) (r : Response Payload)
    (h : makeInvestmentReads body db = .error r) : r.Conforms := by
  unfold makeInvestmentReads at h
  repeat' split at h
  all_goals first
    | (cases h; exact conforms_error _ _ (by decide))
    | cases h

theorem makeInvestment_conforms (env : Env) (body : RequestBody) (db : Store) :
    (makeInvestment env body db).1.Conforms := by
  rw [makeInvestment_eq_reads_writes]
  cases hr : makeInvestmentReads body db with
  | error r => exact makeInvestmentReads_conforms body db r hr
  | ok p =>
    simp only [makeInvestmentWrites]
    split
    · exact conforms_success _ _ _
    · exact conforms_error _ _ (by decide)

theorem getInvestmentHistory_conforms (fmt : Timestamp → String) (id : IdField) (db : Store) :
    (getInvestmentHistory fmt id db).1.Conforms := by
  unfold getInvestmentHistory
  try dsimp only
  repeat' split
  all_goals first
    | exact conforms_success _ _ _
    | exact conforms_error _ _ (by decide)

theorem getEventInvestmentSummary_conforms (id : IdField) (db : Store) :
    (getEventInvestmentSummary id db).1.Conforms := by
  unfold getEventInvestmentSummary
  try dsimp only
  repeat' split
  all_goals first
    | exact conforms_success _ _ _
    | exact conforms_error _ _ (by decide)

theorem getInvestorDetails_conforms (id : IdField) (db : Store) :
    (investorController.getInvestorDetails id db).1.Conforms := by
  unfold investorController.getInvestorDetails
  try dsimp only
  repeat' split
  all_goals first
    | exact conforms_success _ _ _
    | exact conforms_error _ _ (by decide)

theorem createEvent_conforms (env : Env) (body : Option EventFields) (db : Store) :
    (eventController.createEvent env body db).1.Conforms := by
  unfold eventController.createEvent
  try dsimp only
  repeat' split
  all_goals first
    | exact conforms_success _ _ _
    | exact conforms_error _ _ (by decide)

theorem getEventDetails_conforms (id : IdField) (db : Store) :
    (eventController.getEventDetails id db).1.Conforms := by
  unfold eventController.getEventDetails
  try dsimp only
  repeat' split
  all_goals first
    | exact conforms_success _ _ _
    | exact conforms_error _ _ (by decide)

theorem createInvestor_conforms (env : Env) (name : Option String) (id : IdField) (db : Store) :
    (investorController.createInvestor env name id db).1.Conforms := by
  unfold investorController.createInvestor
  try dsimp only
  repeat' split
  all_goals first
    | exact conforms_success _ _ _
    | exact conforms_error _ _ (by decide)

theorem getInvestorsByEvent_conforms (id : IdField) (db : Store) :
    (investorController.getInvestorsByEvent id db).1.Conforms := by
  unfold investorController.getInvestorsByEvent
  try dsimp only
  repeat' split
  all_goals first
    | exact conforms_success _ _ _
    | exact conforms_error _ _ (by decide)

theorem createStartup_conforms (env : Env) (name : Option String) (id : IdField) (db : Store) :
    (startupController.createStartup env name id db).1.Conforms := by
  unfold startupController.createStartup
  try dsimp only
  repeat' split
  all_goals first
    | exact conforms_success _ _ _
    | exact conforms_error _ _ (by decide)

theorem getStartupsByEvent_conforms (id : IdField) (db : Store) :
    (startupController.getStartupsByEvent id db).1.Conforms := by
  unfold startupController.getStartupsByEvent
  try dsimp only
  repeat' split
  all_goals first
    | exact conforms_success _ _ _
    | exact conforms_error _ _ (by decide)

theorem getStartupDetails_conforms (id : IdField) (db : Store) :
    (startupController.getStartupDetails id db).1.Conforms := by
  unfold startupController.getStartupDetails
  try dsimp only
  repeat' split
  all_goals first
    | exact conforms_success _ _ _
    | exact conforms_error _ _ (by decide)

theorem PublicOperation.open_conforms (server : Server) (env : Env) (db : Store)
    (op : PublicOperation) : (op.handle server env db).1.Conforms := by
  cases op with
  | createEvent body => exact envelope_conforms _ (createEvent_conforms env body db)
  | getEventDetails id => exact envelope_conforms _ (getEventDetails_conforms id db)
  | getAllEvents => exact envelope_conforms _ (conforms_success _ _ _)
  | createInvestor name id => exact envelope_conforms _ (createInvestor_conforms env name id db)
  | getInvestorDetails id => exact envelope_conforms _ (getInvestorDetails_conforms id db)
  | getInvestorsByEvent id => exact envelope_conforms _ (getInvestorsByEvent_conforms id db)
  | createStartup name id => exact envelope_conforms _ (createStartup_conforms env name id db)
  | getStartupsByEvent id => exact envelope_conforms _ (getStartupsByEvent_conforms id db)
  | getStartupDetails id => exact envelope_conforms _ (getStartupDetails_conforms id db)
  | makeInvestment body => exact envelope_conforms _ (makeInvestment_conforms env body db)
  | getInvestmentHistory id =>
    exact envelope_conforms _ (getInvestmentHistory_conforms server.toLocaleString id db)
  | getEventInvestmentSummary id =>
    exact envelope_conforms _ (getEventInvestmentSummary_conforms id db)

theorem putEvent_conforms (id : IdField) (body : Option EventFields) (db : Store) :
    (adminRoutes.putEvent id body db).1.Conforms := by
  unfold adminRoutes.putEvent
  try dsimp only
  repeat' split
  all_goals first
    | exact conforms_success _ _ _
    | exact conforms_error _ _ (by decide)

theorem postEvents_conforms (env : Env) (body : Option EventFields) (db : Store) :
    (adminRoutes.postEvents env body db).1.Conforms := by
  unfold adminRoutes.postEvents
  try dsimp only
  repeat' split
  all_goals first
    | exact conforms_success _ _ _
    | exact conforms_error _ _ (by decide)

theorem deleteEvent_conforms (id : IdField) (db : Store) :
    (adminRoutes.deleteEvent id db).1.Conforms := by
  unfold adminRoutes.deleteEvent
  try dsimp only
  repeat' split
  all_goals first
    | exact conforms_success _ _ _
    | exact conforms_error _ _ (by decide)

theorem adminGetInvestorsByEvent_conforms (id : IdField) (db : Store) :
    (adminRoutes.getInvestorsByEvent id db).1.Conforms := by
  unfold adminRoutes.getInvestorsByEvent
  try dsimp only
  repeat' split
  all_goals first
    | exact conforms_success _ _ _
    | exact conforms_error _ _ (by decide)

theorem postInvestors_conforms (env : Env) (name : Option String) (id : IdField)
    (budget : BudgetField) (db : Store) :
    (adminRoutes.postInvestors env name id budget db).1.Conforms := by
  unfold adminRoutes.postInvestors
  try dsimp only
  repeat' split
  all_goals first
    | exact conforms_success _ _ _
    | exact conforms_error _ _ (by decide)

theorem putInvestor_conforms (id : IdField) (body : Option InvestorFields) (db : Store) :
    (adminRoutes.putInvestor id body db).1.Conforms := by
  unfold adminRoutes.putInvestor
  try dsimp only
  repeat' split
  all_goals first
    | exact conforms_success _ _ _
    | exact conforms_error _ _ (by decide)

theorem deleteInvestor_conforms (id : IdField) (db : Store) :
    (adminRoutes.deleteInvestor id db).1.Conforms := by
  unfold adminRoutes.deleteInvestor
  try dsimp only
  repeat' split
  all_goals first
    | exact conforms_success _ _ _
    | exact conforms_error _ _ (by decide)

theorem adminGetStartupsByEvent_conforms (id : IdField) (db : Store) :
    (adminRoutes.getStartupsByEvent id db).1.Conforms := by
  unfold adminRoutes.getStartupsByEvent
  try dsimp only
  repeat' split
  all_goals first
    | exact conforms_success _ _ _
    | exact conforms_error _ _ (by decide)

theorem postStartups_conforms (env : Env) (file name : Option String) (id : IdField)
    (db : Store) : (adminRoutes.postStartups env file name id db).1.Conforms := by
  unfold adminRoutes.postStartups
  try dsimp only
  repeat' split
  all_goals first
    | exact conforms_success _ _ _
    | exact conforms_error _ _ (by decide)

theorem putStartup_conforms (id : IdField) (body : Option StartupFields) (db : Store) :
    (adminRoutes.putStartup id body db).1.Conforms := by
  unfold adminRoutes.putStartup
  try dsimp only
  repeat' split
  all_goals first
    | exact conforms_success _ _ _
    | exact conforms_error _ _ (by decide)

theorem deleteStartup_conforms (id : IdField) (db : Store) :
    (adminRoutes.deleteStartup id db).1.Conforms := by
  unfold adminRoutes.deleteStartup
  try dsimp only
  repeat' split
  all_goals first
    | exact conforms_success _ _ _
    | exact conforms_error _ _ (by decide)

theorem getEvents_conforms (db : Store) : (adminRoutes.getEvents db).1.Conforms := by
  simp [adminRoutes.getEvents, Response.Conforms]

theorem errorHandler_conforms : errorHandler.Conforms := by
  simp [errorHandler, Response.Conforms]

theorem adminMiddleware_answered (key header : Option String) (r : Response Unit)
    (h : adminMiddleware key header = .answered r) :
    r = APIResponse.error .unauthorized 403 := by
  unfold adminMiddleware at h
  dsimp only at h
  split at h
  · cases h; rfl
  · cases h

theorem AdminOperation.admin_conforms (env : Env) (db : Store) (op : AdminOperation)
    (hop : ∀ header, (Operation.adminRoute header op).isDebugEvents = false) :
    (op.handle env db).1.Conforms := by
  cases op with
  | getEvents => exact envelope_conforms _ (getEvents_conforms db)
  | postEvents body => exact envelope_conforms _ (postEvents_conforms env body db)
  | putEvent id body => exact envelope_conforms _ (putEvent_conforms id body db)
  | deleteEvent id => exact envelope_conforms _ (deleteEvent_conforms id db)
  | getInvestorsByEvent id =>
    exact envelope_conforms _ (adminGetInvestorsByEvent_conforms id db)
  | postInvestors name id budget =>
    exact envelope_conforms _ (postInvestors_conforms env name id budget db)
  | putInvestor id body => exact envelope_conforms _ (putInvestor_conforms id body db)
  | deleteInvestor id => exact envelope_conforms _ (deleteInvestor_conforms id db)
  | getStartupsByEvent id =>
    exact envelope_conforms _ (adminGetStartupsByEvent_conforms id db)
  | postStartups upload name id =>
    cases upload with
    | rejected => exact envelope_conforms _ errorHandler_conforms
    | passed file => exact envelope_conforms _ (postStartups_conforms env file name id db)
  | putStartup id body => exact envelope_conforms _ (putStartup_conforms id body db)
  | deleteStartup id => exact envelope_conforms _ (deleteStartup_conforms id db)
  | debugEvents => exact absurd (hop none) (by simp [Operation.isDebugEvents])

/-! ## What a request does to the events -/

theorem investor_view_store (id : IdField) (db : Store) :
    (investorController.getInvestorDetails id db).2 = db := by
  unfold investorController.getInvestorDetails
  dsimp only
  repeat' split
  all_goals rfl


theorem Event.create_events_append (env : Env) (body : Option EventFields) (db after : Store)
    (event : Event) (h : Event.create env body db = .ok (event, after)) :
    after.events = db.events ++ [event] := by
  unfold Event.create at h
  repeat' split at h
  all_goals first
    | (cases h; rfl)
    | cases h

theorem Investor.create_events_same (env : Env) (name : Option String) (e : ObjectId)
    (budget : Option ℚ) (db after : Store) (investor : Investor)
    (h : Investor.create env name e budget db = .ok (investor, after)) :
    after.events = db.events := by
  unfold Investor.create at h
  repeat' split at h
  all_goals first
    | (cases h; rfl)
    | cases h

theorem Startup.create_events_kept (env : Env) (name : Option String) (e : ObjectId)
    (logo : Option String) (db after : Store) (startup : Startup)
    (h : Startup.create env name e logo db = .ok (startup, after)) :
    after.events = db.events := by
  unfold Startup.create at h
  repeat' split at h
  all_goals first
    | (cases h; rfl)
    | cases h

theorem makeInvestment_events (env : Env) (body : RequestBody) (db : Store) :
    (makeInvestment env body db).2.events = db.events := by
  rcases makeInvestment_cases env body db with h | ⟨i, s, x, investor, startup, existing, rfl,
    hI, hS, hev, hex, hx, hfit⟩
  · rw [h.1]
  · rw [makeInvestment_update env db i s x investor startup existing hI hS hev hex hx hfit]
    split <;> rfl

theorem PublicOperation.open_events (server : Server) (env : Env) (db : Store)
    (op : PublicOperation) : EventsKept db (op.handle server env db).2 := by
  cases op with
  | createEvent body =>
    simp only [PublicOperation.handle, eventController.createEvent]
    split
    · rename_i event after h
      exact Or.inr (Or.inl ⟨event, Event.create_events_append env body db after event h⟩)
    · exact Or.inl rfl
  | getEventDetails id =>
    simp only [PublicOperation.handle, eventController.getEventDetails]
    repeat' split
    all_goals exact Or.inl rfl
  | getAllEvents => exact Or.inl rfl
  | createInvestor name id =>
    simp only [PublicOperation.handle, investorController.createInvestor]
    repeat' split
    all_goals first
      | exact Or.inl rfl
      | (rename_i h; exact Or.inl (Investor.create_events_same _ _ _ _ _ _ _ h))
  | getInvestorDetails id =>
    exact Or.inl (by
      have := (investor_view_store id db)
      exact congrArg Store.events this)
  | getInvestorsByEvent id =>
    simp only [PublicOperation.handle, investorController.getInvestorsByEvent]
    repeat' split
    all_goals exact Or.inl rfl
  | createStartup name id =>
    simp only [PublicOperation.handle, startupController.createStartup]
    repeat' split
    all_goals first
      | exact Or.inl rfl
      | (rename_i h; exact Or.inl (Startup.create_events_kept _ _ _ _ _ _ _ h))
  | getStartupsByEvent id =>
    simp only [PublicOperation.handle, startupController.getStartupsByEvent]
    repeat' split
    all_goals exact Or.inl rfl
  | getStartupDetails id =>
    simp only [PublicOperation.handle, startupController.getStartupDetails]
    repeat' split
    all_goals exact Or.inl rfl
  | makeInvestment body => exact Or.inl (makeInvestment_events env body db)
  | getInvestmentHistory id =>
    simp only [PublicOperation.handle, InvestmentPlatform.getInvestmentHistory]
    repeat' split
    all_goals exact Or.inl rfl
  | getEventInvestmentSummary id =>
    simp only [PublicOperation.handle, InvestmentPlatform.getEventInvestmentSummary]
    repeat' split
    all_goals exact Or.inl rfl

theorem AdminOperation.admin_events (env : Env) (db : Store) (op : AdminOperation)
    (hop : ∀ header, (Operation.adminRoute header op).isPutEvent = false) :
    EventsKept db (op.handle env db).2 := by
  cases op with
  | getEvents => exact Or.inl rfl
  | postEvents body =>
    simp only [AdminOperation.handle, adminRoutes.postEvents]
    split
    · rename_i event after h
      exact Or.inr (Or.inl ⟨event, Event.create_events_append env body db after event h⟩)
    · exact Or.inl rfl
  | putEvent id body => exact absurd (hop none) (by simp [Operation.isPutEvent])
  | deleteEvent id =>
    simp only [AdminOperation.handle, adminRoutes.deleteEvent]
    repeat' split
    all_goals first
      | exact Or.inl rfl
      | exact Or.inr (Or.inr ⟨_, rfl⟩)
  | getInvestorsByEvent id =>
    simp only [AdminOperation.handle, adminRoutes.getInvestorsByEvent]
    repeat' split
    all_goals exact Or.inl rfl
  | postInvestors name id budget =>
    simp only [AdminOperation.handle, adminRoutes.postInvestors]
    repeat' split
    all_goals first
      | exact Or.inl rfl
      | (rename_i h; exact Or.inl (Investor.create_events_same _ _ _ _ _ _ _ h))
  | putInvestor id body =>
    simp only [AdminOperation.handle, adminRoutes.putInvestor]
    repeat' split
    all_goals exact Or.inl rfl
  | deleteInvestor id =>
    simp only [AdminOperation.handle, adminRoutes.deleteInvestor]
    repeat' split
    all_goals exact Or.inl rfl
  | getStartupsByEvent id =>
    simp only [AdminOperation.handle, adminRoutes.getStartupsByEvent]
    repeat' split
    all_goals exact Or.inl rfl
  | postStartups upload name id =>
    cases upload with
    | rejected => exact Or.inl rfl
    | passed file =>
      simp only [AdminOperation.handle, adminRoutes.postStartups]
      repeat' split
      all_goals first
        | exact Or.inl rfl
        | (rename_i h; exact Or.inl (Startup.create_events_kept _ _ _ _ _ _ _ h))
  | putStartup id body =>
    simp only [AdminOperation.handle, adminRoutes.putStartup]
    repeat' split
    all_goals exact Or.inl rfl
  | deleteStartup id =>
    simp only [AdminOperation.handle, adminRoutes.deleteStartup]
    repeat' split
    all_goals exact Or.inl rfl
  | debugEvents => exact Or.inl rfl

theorem Operation.handle_events (server : Server) (env : Env) (db : Store) (op : Operation)
    (hop : op.isPutEvent = false) : EventsKept db (op.handle server env db).2 := by
  cases op with
  | openRoute op => exact PublicOperation.open_events server env db op
  | adminRoute header op =>
    simp only [Operation.handle]
    split
    · exact Or.inl rfl
    · apply AdminOperation.admin_events
      intro header'
      cases op <;> simp_all [Operation.isPutEvent]

theorem EventsKept.same_event (db after : Store) (h : EventsKept db after)
    (hnodup : (db.events.map (fun d => d._id)).Nodup) (e : ObjectId) (before event : Event)
    (hb : Event.findById db e = some before) (ha : Event.findById after e = some event) :
    event = before := by
  unfold Event.findById at hb ha
  rcases h with h | ⟨added, h⟩ | ⟨i, h⟩
  · rw [h, hb] at ha
    exact (Option.some.inj ha).symm
  · rw [h, List.find?_append, hb] at ha
    exact (Option.some.inj ha).symm
  · rw [h] at ha
    by_cases hei : e = i
    · subst hei
      rw [find?_deleteOne_self (fun d : Event => d._id) e db.events hnodup] at ha
      cases ha
    · rw [find?_deleteOne_other (fun d : Event => d._id) i e db.events hei, hb] at ha
      exact (Option.some.inj ha).symm

/-! ## The claims -/

/-- C1. Budget invariant preservation: on a store of the database (unique
ids, amounts that passed the schema validator) in which investor `i` satisfies
`remainingBudget + Σ amount = event.totalBudgetPerInvestor`, the same equality
holds after each call of every sequence of `makeInvestment` calls of that
investor, whatever their startup and amount fields and whether they succeeded
or were rejected. -/
theorem budget_invariant_preserved (db : Store) (i : ObjectId)
    (calls : List (Env × IdField × JSValue)) (k : Nat)
    (hwf : db.WellFormed) (hinv : BudgetInvariant db i) :
    BudgetInvariant (allocateAll i (calls.take k) db) i :=
  (allocateAll_step i (calls.take k) db hwf hinv).2

/-- Witness of C1: A holds 400 in X with 600 left of 1000, asks 700 for Y and
then 100 for X. -/
theorem budget_invariant_preserved_witness :
    (storeAX 600 400 []).WellFormed ∧ BudgetInvariant (storeAX 600 400 []) 10 ∧
    BudgetInvariant
      (allocateAll 10
        ([(envAt 1, IdField.oid 21, JSValue.number 700),
          (envAt 2, IdField.oid 20, JSValue.number 100)].take 2)
        (storeAX 600 400 [])) 10 :=
  have hwf : (storeAX 600 400 []).WellFormed :=
    ⟨by simp [storeAX], by simp [Store.SchemaValid, storeAX, investmentAX]⟩
  have hinv : BudgetInvariant (storeAX 600 400 []) 10 :=
    ⟨investorA 600, demoEvent, rfl, rfl, by
      norm_num [investedBy, storeAX, investmentAX, investorA, demoEvent]⟩
  ⟨hwf, hinv, budget_invariant_preserved _ 10 _ 2 hwf hinv⟩

/-- C2. No over-allocation: an investor whose `remainingBudget` is at least 0
before a `makeInvestment` call, whatever the request, is still stored after it
with a `remainingBudget` of at least 0. -/
theorem remainingBudget_nonneg_preserved (env : Env) (body : RequestBody) (db : Store)
    (j : ObjectId) (investor : Investor)
    (hJ : Investor.findById db j = some investor) (h0 : 0 ≤ investor.remainingBudget) :
    ∃ after, Investor.findById (makeInvestment env body db).2 j = some after ∧
      0 ≤ after.remainingBudget := by
  rcases makeInvestment_cases env body db with h | ⟨i, s, x, requester, startup, existing, rfl,
    hI, hS, hev, hex, hx, hfit⟩
  · rw [h.1]; exact ⟨investor, hJ, h0⟩
  · rw [makeInvestment_update env db i s x requester startup existing hI hS hev hex hx hfit]
    have hkey : ∀ db0 : Store, db0.investors = db.investors →
        ∃ after, Investor.findById (Investor.save (requester.debit (x - existing.amount)) db0) j
          = some after ∧ 0 ≤ after.remainingBudget := by
      intro db0 h00
      have hI0 : Investor.findById db0 i = some requester := by
        unfold Investor.findById; rw [h00]; exact hI
      have hJ0 : Investor.findById db0 j = some investor := by
        unfold Investor.findById; rw [h00]; exact hJ
      by_cases hji : j = i
      · subst hji
        refine ⟨_, Investor.findById_save_self db0 j requester _ hI0 rfl, ?_⟩
        simp only [Investor.debit]
        linarith
      · have hid : (requester.debit (x - existing.amount))._id ≠ j := by
          have := Investor.id_of_findById hI
          simp only [Investor.debit]
          rw [this]
          exact fun h => hji h.symm
        exact ⟨investor, by rw [Investor.findById_save_other _ j _ hid]; exact hJ0, h0⟩
    split
    · exact hkey _ rfl
    · exact hkey _ rfl

/-- Witness of C2: A has 900 left and raises its 100 in X to 1000. -/
theorem remainingBudget_nonneg_preserved_witness :
    Investor.findById (storeAX 900 100 []) 10 = some (investorA 900) ∧
    (0 : ℚ) ≤ (investorA 900).remainingBudget ∧
    ∃ after, Investor.findById
        (makeInvestment (envAt 1) (requestA 20 1000) (storeAX 900 100 [])).2 10 = some after ∧
      0 ≤ after.remainingBudget :=
  ⟨rfl, by norm_num [investorA],
    remainingBudget_nonneg_preserved (envAt 1) (requestA 20 1000) (storeAX 900 100 []) 10
      (investorA 900) rfl (by norm_num [investorA])⟩

/-- C3, evaluated on the code: with a budget of 1000 and no Investment of A
in X, the request of 400 for X is answered with status 500 (the type error of
`existingInvestment.amount` on `null`), no Investment is created and
`remainingBudget` stays 1000. -/
theorem first_allocation_throws :
    Investment.findOne freshStore 10 20 = none ∧
    makeInvestment (envAt 1) (requestA 20 400) freshStore =
      (APIResponse.error (.thrown .typeError) 500, freshStore) ∧
    Investor.findById freshStore 10 = some (investorA 1000) :=
  ⟨rfl, makeInvestment_no_existing (envAt 1) freshStore 10 20 400 (investorA 1000) startupX
    rfl rfl rfl rfl (by norm_num), rfl⟩

/-- C4. Update semantics: when an Investment of the pair exists, with amount
`a` and history `h`, and the request for `x` is accepted, the call appends
one entry of amount `a` at the end of `h`, sets the amount to `x`, takes
`remainingBudget` from `r` to `r - (x - a)`, stores both documents and
returns the updated Investment with the new `remainingBudget`. -/
theorem update_semantics (env : Env) (db : Store) (i s : ObjectId) (x : ℚ)
    (investor : Investor) (existing : Investment)
    (hI : Investor.findById db i = some investor)
    (hex : Investment.findOne db i s = some existing)
    (hok : (makeInvestment env ⟨.oid i, .oid s, .number x⟩ db).1.success = true) :
    (makeInvestment env ⟨.oid i, .oid s, .number x⟩ db).1 =
      APIResponse.success
        { investment :=
            { existing with
              history := existing.history ++ [{ amount := existing.amount, timestamp := env.now }],
              amount := x },
          remainingBudget := investor.remainingBudget - (x - existing.amount) }
        .investmentUpdated 200 ∧
    Investment.findOne (makeInvestment env ⟨.oid i, .oid s, .number x⟩ db).2 i s =
      some { existing with
              history := existing.history ++ [{ amount := existing.amount, timestamp := env.now }],
              amount := x } ∧
    Investor.findById (makeInvestment env ⟨.oid i, .oid s, .number x⟩ db).2 i =
      some { investor with
              remainingBudget := investor.remainingBudget - (x - existing.amount) } := by
  rcases makeInvestment_cases env ⟨.oid i, .oid s, .number x⟩ db with h | ⟨i', s', x', investor',
    startup, existing', hbody, hI', hS, hev, hex', hx, hfit⟩
  · rw [h.2] at hok; cases hok
  · cases hbody
    rw [hI] at hI'; cases hI'
    rw [hex] at hex'; cases hex'
    have hupd := makeInvestment_update env db i s x investor startup existing hI hS hev hex hx
      hfit
    by_cases ha : 0 ≤ existing.amount
    · rw [if_pos ha] at hupd
      rw [hupd]
      have hpair := Investment.pair_of_findOne hex
      refine ⟨rfl, ?_, ?_⟩
      · exact Investment.findOne_save db i s existing (existing.reallocate env.now x) hex rfl
          hpair.1 hpair.2
      · exact Investor.findById_save_self _ i investor _ hI rfl
    · rw [if_neg ha] at hupd
      rw [hupd] at hok
      cases hok

/-- Witness of C4: A has 900 left and raises its 100 in X to 150. -/
theorem update_semantics_witness :
    Investor.findById (storeAX 900 100 []) 10 = some (investorA 900) ∧
    Investment.findOne (storeAX 900 100 []) 10 20 = some (investmentAX 100 []) ∧
    Investor.findById (makeInvestment (envAt 7) ⟨.oid 10, .oid 20, .number 150⟩
      (storeAX 900 100 [])).2 10 =
      some { investorA 900 with
              remainingBudget := (investorA 900).remainingBudget
                - (150 - (investmentAX 100 []).amount) } :=
  ⟨rfl, rfl,
    (update_semantics (envAt 7) (storeAX 900 100 []) 10 20 150 (investorA 900)
      (investmentAX 100 []) rfl rfl
      (by
        have h := makeInvestment_storeAX 7 900 100 150 [] (by norm_num) (by norm_num)
          (by norm_num)
        rw [requestA] at h
        rw [h]
        rfl)).2.2⟩

/-- C5, evaluated on the code: A has 600 left and no Investment in Y; the
request of 700 for Y passes validation and has `delta = 700 > 600`, yet it is
answered with status 500 and the type error of line 53, not with status 400
and "Insufficient budget. Available: 600". -/
theorem overdraw_on_new_pair_throws :
    Investor.findById (storeAX 600 400 []) 10 = some (investorA 600) ∧
    Startup.findById (storeAX 600 400 []) 21 = some startupY ∧
    Investment.findOne (storeAX 600 400 []) 10 21 = none ∧
    (investorA 600).remainingBudget < 700 - 0 ∧
    makeInvestment (envAt 1) (requestA 21 700) (storeAX 600 400 []) =
      (APIResponse.error (.thrown .typeError) 500, storeAX 600 400 []) ∧
    (makeInvestment (envAt 1) (requestA 21 700) (storeAX 600 400 [])).1 ≠
      APIResponse.error (.insufficientBudget 600) 400 := by
  have h := makeInvestment_no_existing (envAt 1) (storeAX 600 400 []) 10 21 700 (investorA 600)
    startupY rfl rfl rfl rfl (by norm_num)
  refine ⟨rfl, rfl, rfl, by norm_num [investorA], h, ?_⟩
  rw [requestA, h]
  simp [caught, APIResponse.error]

/-- Counterexample to C6 as stated: A raises its 100 in X to 150, which
succeeds and leaves a history of length 1; the same request again leaves a
history of length 2. -/
theorem ghost_history_entry :
    (makeInvestment (envAt 1) (requestA 20 150) (storeAX 900 100 [])).1.success = true ∧
    (Investment.findOne
      (makeInvestment (envAt 1) (requestA 20 150) (storeAX 900 100 [])).2 10 20).map
        (fun d => d.history.length) = some 1 ∧
    (Investment.findOne
      (makeInvestment (envAt 2) (requestA 20 150)
        (makeInvestment (envAt 1) (requestA 20 150) (storeAX 900 100 [])).2).2 10 20).map
        (fun d => d.history.length) = some 2 := by
  have h1 := makeInvestment_storeAX 1 900 100 150 [] (by norm_num) (by norm_num) (by norm_num)
  have h2 := makeInvestment_storeAX 2 (900 - (150 - 100)) 150 150 ([] ++ [⟨100, 1⟩]) (by norm_num)
    (by norm_num) (by norm_num)
  rw [h1, h2]
  exact ⟨rfl, rfl, rfl⟩

/-- C6, amended. When `makeInvestment` has just succeeded for investor `i`,
startup `s` and amount `x`, the same request again succeeds, leaves the
investor as it is (`remainingBudget` unchanged) and appends one entry of
amount `x` to the history of the Investment, whose amount stays `x`. -/
theorem repeat_allocation (env1 env2 : Env) (db : Store) (i s : ObjectId) (x : ℚ)
    (hok : (makeInvestment env1 ⟨.oid i, .oid s, .number x⟩ db).1.success = true) :
    ∃ investor investment,
      Investor.findById (makeInvestment env1 ⟨.oid i, .oid s, .number x⟩ db).2 i
        = some investor ∧
      Investment.findOne (makeInvestment env1 ⟨.oid i, .oid s, .number x⟩ db).2 i s
        = some investment ∧
      investment.amount = x ∧
      (makeInvestment env2 ⟨.oid i, .oid s, .number x⟩
        (makeInvestment env1 ⟨.oid i, .oid s, .number x⟩ db).2).1.success = true ∧
      Investor.findById (makeInvestment env2 ⟨.oid i, .oid s, .number x⟩
        (makeInvestment env1 ⟨.oid i, .oid s, .number x⟩ db).2).2 i = some investor ∧
      Investment.findOne (makeInvestment env2 ⟨.oid i, .oid s, .number x⟩
        (makeInvestment env1 ⟨.oid i, .oid s, .number x⟩ db).2).2 i s =
        some { investment with
                history := investment.history ++ [{ amount := x, timestamp := env2.now }] } := by
  rcases makeInvestment_cases env1 ⟨.oid i, .oid s, .number x⟩ db with h | ⟨i', s', x', investor,
    startup, existing, hbody, hI, hS, hev, hex, hx, hfit⟩
  · rw [h.2] at hok; cases hok
  · cases hbody
    have hupd := makeInvestment_update env1 db i s x investor startup existing hI hS hev hex hx
      hfit
    by_cases ha : 0 ≤ existing.amount
    · rw [if_pos ha] at hupd
      rw [hupd]
      have hpair := Investment.pair_of_findOne hex
      have hI1 : Investor.findById
          (Investor.save (investor.debit (x - existing.amount))
            (Investment.save (existing.reallocate env1.now x) db)) i
          = some (investor.debit (x - existing.amount)) :=
        Investor.findById_save_self _ i investor _ hI rfl
      have hex1 : Investment.findOne
          (Investor.save (investor.debit (x - existing.amount))
            (Investment.save (existing.reallocate env1.now x) db)) i s
          = some (existing.reallocate env1.now x) :=
        Investment.findOne_save db i s existing (existing.reallocate env1.now x) hex rfl
          hpair.1 hpair.2
      have hr : 0 ≤ (investor.debit (x - existing.amount)).remainingBudget := by
        simp only [Investor.debit]; linarith
      have hfit1 : x ≤ (investor.debit (x - existing.amount)).remainingBudget
          + (existing.reallocate env1.now x).amount := by
        have : (existing.reallocate env1.now x).amount = x := rfl
        rw [this]; linarith
      have hupd2 := makeInvestment_update env2 _ i s x (investor.debit (x - existing.amount))
        startup (existing.reallocate env1.now x) hI1 hS hev hex1 hx hfit1
      have hx0 : 0 ≤ (existing.reallocate env1.now x).amount := le_of_lt hx
      rw [if_pos hx0] at hupd2
      refine ⟨_, _, hI1, hex1, rfl, ?_, ?_, ?_⟩
      · rw [hupd2]; rfl
      · rw [hupd2]
        have h := Investor.findById_save_self
          (Investment.save ((existing.reallocate env1.now x).reallocate env2.now x)
            (Investor.save (investor.debit (x - existing.amount))
              (Investment.save (existing.reallocate env1.now x) db))) i
          (investor.debit (x - existing.amount))
          ((investor.debit (x - existing.amount)).debit
            (x - (existing.reallocate env1.now x).amount)) hI1 rfl
        rw [h]
        simp [Investor.debit, Investment.reallocate]
      · rw [hupd2]
        have h := Investment.findOne_save
          (Investor.save (investor.debit (x - existing.amount))
            (Investment.save (existing.reallocate env1.now x) db)) i s
          (existing.reallocate env1.now x)
          ((existing.reallocate env1.now x).reallocate env2.now x) hex1 rfl hpair.1 hpair.2
        exact h
    · rw [if_neg ha] at hupd
      rw [hupd] at hok
      cases hok

/-- Witness of C6 amended: A raises its 100 in X to 150, twice. -/
theorem repeat_allocation_witness :
    (makeInvestment (envAt 1) ⟨.oid 10, .oid 20, .number 150⟩ (storeAX 900 100 [])).1.success
      = true ∧
    ∃ investor investment,
      Investor.findById (makeInvestment (envAt 1) ⟨.oid 10, .oid 20, .number 150⟩
        (storeAX 900 100 [])).2 10 = some investor ∧
      Investment.findOne (makeInvestment (envAt 1) ⟨.oid 10, .oid 20, .number 150⟩
        (storeAX 900 100 [])).2 10 20 = some investment ∧
      investment.amount = 150 ∧
      (makeInvestment (envAt 2) ⟨.oid 10, .oid 20, .number 150⟩
        (makeInvestment (envAt 1) ⟨.oid 10, .oid 20, .number 150⟩
          (storeAX 900 100 [])).2).1.success = true ∧
      Investor.findById (makeInvestment (envAt 2) ⟨.oid 10, .oid 20, .number 150⟩
        (makeInvestment (envAt 1) ⟨.oid 10, .oid 20, .number 150⟩
          (storeAX 900 100 [])).2).2 10 = some investor ∧
      Investment.findOne (makeInvestment (envAt 2) ⟨.oid 10, .oid 20, .number 150⟩
        (makeInvestment (envAt 1) ⟨.oid 10, .oid 20, .number 150⟩
          (storeAX 900 100 [])).2).2 10 20 =
        some { investment with
                history := investment.history
                  ++ [{ amount := 150, timestamp := (envAt 2).now }] } :=
  have hok : (makeInvestment (envAt 1) ⟨.oid 10, .oid 20, .number 150⟩
      (storeAX 900 100 [])).1.success = true := by
    have h := makeInvestment_storeAX 1 900 100 150 [] (by norm_num) (by norm_num) (by norm_num)
    rw [requestA] at h
    rw [h]
    rfl
  ⟨hok, repeat_allocation (envAt 1) (envAt 2) (storeAX 900 100 []) 10 20 150 hok⟩

/-- C7, evaluated on the code: with a budget of 1000 and no Investment of A
in X, the requests of 100, 150 and 80 for X are each answered with status 500
and the store is left without an Investment of A in X, so there is no history
`[100, 150]` and no amount 80. -/
theorem history_scenario_throws :
    (150 : ℚ) ≤ (investorA 1000).remainingBudget ∧
    Investment.findOne freshStore 10 20 = none ∧
    (makeInvestment (envAt 1) (requestA 20 100) freshStore).1 =
      APIResponse.error (.thrown .typeError) 500 ∧
    allocateAll 10
      [(envAt 1, IdField.oid 20, JSValue.number 100),
       (envAt 2, IdField.oid 20, JSValue.number 150),
       (envAt 3, IdField.oid 20, JSValue.number 80)] freshStore = freshStore := by
  have h1 := makeInvestment_no_existing (envAt 1) freshStore 10 20 100 (investorA 1000) startupX
    rfl rfl rfl rfl (by norm_num)
  have h2 := makeInvestment_no_existing (envAt 2) freshStore 10 20 150 (investorA 1000) startupX
    rfl rfl rfl rfl (by norm_num)
  have h3 := makeInvestment_no_existing (envAt 3) freshStore 10 20 80 (investorA 1000) startupX
    rfl rfl rfl rfl (by norm_num)
  refine ⟨by norm_num [investorA], rfl, ?_, ?_⟩
  · rw [requestA, h1]; rfl
  · simp only [allocateAll]
    rw [h1]
    simp only []
    rw [h2]
    simp only []
    rw [h3]

/-- C8. Cross-event rejection: when the investor and the startup exist, the
startup's `eventId` differs from the investor's and the amount is a number
above 0, `makeInvestment` answers with status 400 ("Startup and investor must
belong to the same event") and the store is unchanged. -/
theorem cross_event_rejected (env : Env) (db : Store) (i s : ObjectId) (x : ℚ)
    (investor : Investor) (startup : Startup)
    (hI : Investor.findById db i = some investor)
    (hS : Startup.findById db s = some startup)
    (hne : startup.eventId ≠ investor.eventId) (hx : 0 < x) :
    makeInvestment env ⟨.oid i, .oid s, .number x⟩ db =
      (APIResponse.error .notSameEvent 400, db) := by
  have h2 : ¬ (x ≤ 0) := not_le.2 hx
  have h6 : x ≠ 0 := ne_of_gt hx
  simp [makeInvestment, IdField.truthy, JSValue.truthy, IdField.cast, hI, hS, hne, h2, h6]

/-- Witness of C8: A, of event 1, asks 100 for Z, of event 2. -/
theorem cross_event_rejected_witness :
    Investor.findById (storeAX 900 100 []) 10 = some (investorA 900) ∧
    Startup.findById (storeAX 900 100 []) 22 = some startupZ ∧
    startupZ.eventId ≠ (investorA 900).eventId ∧ (0 : ℚ) < 100 ∧
    makeInvestment (envAt 1) ⟨.oid 10, .oid 22, .number 100⟩ (storeAX 900 100 []) =
      (APIResponse.error .notSameEvent 400, storeAX 900 100 []) :=
  ⟨rfl, rfl, by decide, by norm_num,
    cross_event_rejected (envAt 1) (storeAX 900 100 []) 10 22 100 (investorA 900) startupZ
      rfl rfl (by decide) (by norm_num)⟩

/-- C9. Atomicity on failure: on a store whose Investments satisfy the schema,
every `makeInvestment` call that answers with an error envelope, whatever the
error (missing field, invalid amount, not found, other event, insufficient
budget, caught exception), leaves the store equal to the store before the
call. -/
theorem failure_leaves_store (env : Env) (body : RequestBody) (db : Store)
    (hsv : db.SchemaValid) (herr : (makeInvestment env body db).1.success = false) :
    (makeInvestment env body db).2 = db := by
  rcases makeInvestment_schemaValid env body db hsv with h | ⟨i, s, x, investor, startup,
    existing, _, _, _, _, _, _, _, hres⟩
  · exact h.1
  · rw [hres] at herr
    cases herr

/-- Witness of C9: A has 600 left and 400 in X, and asks 1100 for X. -/
theorem failure_leaves_store_witness :
    (storeAX 600 400 []).SchemaValid ∧
    (makeInvestment (envAt 1) (requestA 20 1100) (storeAX 600 400 [])).1.success = false ∧
    (makeInvestment (envAt 1) (requestA 20 1100) (storeAX 600 400 [])).2 = storeAX 600 400 [] :=
  have hsv : (storeAX 600 400 []).SchemaValid := by
    simp [Store.SchemaValid, storeAX, investmentAX]
  have herr : (makeInvestment (envAt 1) (requestA 20 1100) (storeAX 600 400 [])).1.success
      = false := by
    norm_num [makeInvestment, requestA, storeAX, investmentAX, investorA, startupX, startupY,
      startupZ, IdField.truthy, JSValue.truthy, IdField.cast, Investor.findById,
      Startup.findById, Investment.findOne, APIResponse.error]
  ⟨hsv, herr, failure_leaves_store (envAt 1) (requestA 20 1100) (storeAX 600 400 []) hsv herr⟩

/-- Counterexample to C10 as stated: A has 100 in X and asks 0 for X; the
call does not succeed. -/
theorem zero_allocation_not_accepted :
    Investment.findOne (storeAX 900 100 []) 10 20 = some (investmentAX 100 []) ∧
    (0 : ℚ) < (investmentAX 100 []).amount ∧
    (makeInvestment (envAt 1) (requestA 20 0) (storeAX 900 100 [])).1.success = false ∧
    (makeInvestment (envAt 1) (requestA 20 0) (storeAX 900 100 [])).2 = storeAX 900 100 [] := by
  refine ⟨rfl, by norm_num [investmentAX], ?_, ?_⟩ <;>
    simp [makeInvestment, requestA, JSValue.truthy, APIResponse.error]

/-- C10, amended. A request whose amount is 0 is rejected at the first check
with status 400 ("Missing required fields") and the store is unchanged: an
existing Investment keeps its amount and the investor its `remainingBudget`. -/
theorem zero_amount_rejected (env : Env) (investorId startupId : IdField) (db : Store) :
    makeInvestment env ⟨investorId, startupId, .number 0⟩ db =
      (APIResponse.error .missingRequiredFields 400, db) := by
  simp [makeInvestment, JSValue.truthy]

/-- C11. Reductions are never blocked by budget: when an Investment of the
pair exists with amount `a`, the investor has `remainingBudget >= 0` and the
requested amount `x` is at most `a`, the call is not answered with
"Insufficient budget", and when it succeeds the investor is stored with a
`remainingBudget` larger by exactly `a - x`. -/
theorem reduction_not_blocked (env : Env) (db : Store) (i s : ObjectId) (x : ℚ)
    (investor : Investor) (existing : Investment)
    (hI : Investor.findById db i = some investor)
    (hex : Investment.findOne db i s = some existing)
    (hr : 0 ≤ investor.remainingBudget) (hle : x ≤ existing.amount) :
    (∀ q, (makeInvestment env ⟨.oid i, .oid s, .number x⟩ db).1.message
      ≠ .insufficientBudget q) ∧
    ((makeInvestment env ⟨.oid i, .oid s, .number x⟩ db).1.success = true →
      Investor.findById (makeInvestment env ⟨.oid i, .oid s, .number x⟩ db).2 i =
        some { investor with
                remainingBudget := investor.remainingBudget + (existing.amount - x) }) := by
  constructor
  · intro q hq
    obtain ⟨i', s', x', investor', startup, existing', hbody, hI', _, _, hex', _, hlt, _⟩ :=
      makeInvestment_insufficient env _ db q hq
    cases hbody
    rw [hI] at hI'; cases hI'
    rw [hex] at hex'; cases hex'
    linarith
  · intro hok
    obtain ⟨i', s', x', investor', startup, existing', hbody, hI', _, _, hex', _, _, _, hres⟩ :=
      makeInvestment_accepted env _ db hok
    cases hbody
    rw [hI] at hI'; cases hI'
    rw [hex] at hex'; cases hex'
    rw [hres]
    have h := Investor.findById_save_self (Investment.save (existing.reallocate env.now x) db) i
      investor (investor.debit (x - existing.amount)) hI rfl
    rw [h]
    simp only [Investor.debit, Option.some.injEq, Investor.mk.injEq, true_and]
    ring

/-- Witness of C11: A has 850 left and lowers its 150 in X to 80. -/
theorem reduction_not_blocked_witness :
    Investor.findById (storeAX 850 150 []) 10 = some (investorA 850) ∧
    Investment.findOne (storeAX 850 150 []) 10 20 = some (investmentAX 150 []) ∧
    (makeInvestment (envAt 3) ⟨.oid 10, .oid 20, .number 80⟩ (storeAX 850 150 [])).1.success
      = true ∧
    Investor.findById (makeInvestment (envAt 3) ⟨.oid 10, .oid 20, .number 80⟩
        (storeAX 850 150 [])).2 10 =
      some { investorA 850 with
              remainingBudget := (investorA 850).remainingBudget
                + ((investmentAX 150 []).amount - 80) } :=
  have hok : (makeInvestment (envAt 3) ⟨.oid 10, .oid 20, .number 80⟩
      (storeAX 850 150 [])).1.success = true := by
    have h := makeInvestment_storeAX 3 850 150 80 [] (by norm_num) (by norm_num) (by norm_num)
    rw [requestA] at h
    rw [h]
    rfl
  ⟨rfl, rfl, hok,
    (reduction_not_blocked (envAt 3) (storeAX 850 150 []) 10 20 80 (investorA 850)
      (investmentAX 150 []) rfl rfl (by norm_num [investorA])
      (by norm_num [investmentAX])).2 hok⟩

/-- C12. Amount validation: when the request names an existing investor and
an existing startup and its amount is a negative number or is not of number
type, the call is answered with status 400 and an error envelope, and the
store is unchanged. -/
theorem amount_validation (env : Env) (db : Store) (i s : ObjectId) (amount : JSValue)
    (investor : Investor) (startup : Startup)
    (hI : Investor.findById db i = some investor)
    (hS : Startup.findById db s = some startup)
    (hbad : (∃ x, amount = .number x ∧ x < 0) ∨ ∀ x, amount ≠ .number x) :
    (makeInvestment env ⟨.oid i, .oid s, amount⟩ db).1.status = 400 ∧
    (makeInvestment env ⟨.oid i, .oid s, amount⟩ db).1.success = false ∧
    (makeInvestment env ⟨.oid i, .oid s, amount⟩ db).2 = db := by
  have _ := hS
  rcases hbad with ⟨x, rfl, hx⟩ | hnot
  · have h1 : x ≠ 0 := ne_of_lt hx
    have h2 : x ≤ 0 := le_of_lt hx
    simp [makeInvestment, IdField.truthy, JSValue.truthy, IdField.cast, hI, h1, h2,
      APIResponse.error]
  · cases amount with
    | number x => exact absurd rfl (hnot x)
    | bool b =>
      cases b <;>
        simp [makeInvestment, IdField.truthy, JSValue.truthy, IdField.cast, hI,
          APIResponse.error]
    | string str =>
      by_cases hs : str = "" <;>
        simp [makeInvestment, IdField.truthy, JSValue.truthy, IdField.cast, hI, hs,
          APIResponse.error]
    | _ =>
      simp [makeInvestment, IdField.truthy, JSValue.truthy, IdField.cast, hI,
        APIResponse.error]

/-- Witness of C12: A asks for the negative amount -5 in X. -/
theorem amount_validation_witness :
    Investor.findById (storeAX 900 100 []) 10 = some (investorA 900) ∧
    Startup.findById (storeAX 900 100 []) 20 = some startupX ∧
    (makeInvestment (envAt 1) ⟨.oid 10, .oid 20, .number (-5)⟩ (storeAX 900 100 [])).1.status
      = 400 ∧
    (makeInvestment (envAt 1) ⟨.oid 10, .oid 20, .number (-5)⟩ (storeAX 900 100 [])).2
      = storeAX 900 100 [] :=
  have h := amount_validation (envAt 1) (storeAX 900 100 []) 10 20 (.number (-5))
    (investorA 900) startupX rfl rfl (Or.inl ⟨-5, rfl, by norm_num⟩)
  ⟨rfl, rfl, h.1, h.2.2⟩

/-- Counterexample to C13 as stated: after startup X is deleted, the event
total still counts the 100 of A in X, while `byStartup` has no entry for X and
its totals add up to 0. -/
theorem summary_partition_broken_by_delete :
    Event.findById storeWithoutX 1 = some demoEvent ∧
    ∃ data, (getEventInvestmentSummary (.oid 1) storeWithoutX).1.data = some data ∧
      data.eventTotal = 100 ∧ data.byStartup = [] ∧
      (data.byStartup.map (fun t => t.total)).sum ≠ data.eventTotal := by
  refine ⟨rfl, { eventTotal := 100, byStartup := [],
                 byInvestor := [{ _id := 10, total := 100, investmentCount := 1,
                                  investor := investorA 900 }] }, ?_, rfl, rfl, by norm_num⟩
  rw [getEventInvestmentSummary_found storeWithoutX 1 demoEvent rfl]
  simp [APIResponse.success, storeWithoutX, investmentAX, investorA, startupY, startupZ,
    lookupStartups, lookupInvestors, groupStage, GroupDoc.accumulate]

/-- C13, amended. Summary partition consistency on a store without dangling
references: when the event exists, Startup ids and Investor ids are unique and
every Investment of the event refers to a Startup and an Investor that exist,
the totals of `byStartup` and the totals of `byInvestor` each add up to
`eventTotal`. -/
theorem summary_partition (db : Store) (e : ObjectId) (event : Event)
    (hE : Event.findById db e = some event)
    (hS : (db.startups.map (fun st => st._id)).Nodup)
    (hI : (db.investors.map (fun iv => iv._id)).Nodup)
    (href : db.Referential e) :
    ∃ data, (getEventInvestmentSummary (.oid e) db).1.data = some data ∧
      (data.byStartup.map (fun t => t.total)).sum = data.eventTotal ∧
      data.eventTotal = (data.byInvestor.map (fun t => t.total)).sum := by
  rw [getEventInvestmentSummary_found db e event hE]
  refine ⟨_, rfl, ?_, ?_⟩
  · simp only
    rw [lookupStartups_sum, groupStage_sum_total]
    intro g hg
    obtain ⟨d, hd, hk⟩ := groupStage_key _ _ g hg
    have hd' := List.mem_filter.1 hd
    have hsome := (href d hd'.1 (by simpa using hd'.2)).1
    obtain ⟨st, hst⟩ := Option.isSome_iff_exists.1 hsome
    refine ⟨st, ?_⟩
    have hk' : d.startupId = g._id := hk
    rw [← hk']
    exact filter_id_eq_singleton (fun st : Startup => st._id) db.startups d.startupId st hS hst
  · simp only
    rw [lookupInvestors_sum, groupStage_sum_total]
    intro g hg
    obtain ⟨d, hd, hk⟩ := groupStage_key _ _ g hg
    have hd' := List.mem_filter.1 hd
    have hsome := (href d hd'.1 (by simpa using hd'.2)).2
    obtain ⟨iv, hiv⟩ := Option.isSome_iff_exists.1 hsome
    refine ⟨iv, ?_⟩
    have hk' : d.investorId = g._id := hk
    rw [← hk']
    exact filter_id_eq_singleton (fun iv : Investor => iv._id) db.investors d.investorId iv hI
      hiv

/-- Witness of C13 amended: the sample store in which A holds 400 in X. -/
theorem summary_partition_witness :
    Event.findById (storeAX 600 400 []) 1 = some demoEvent ∧
    (storeAX 600 400 []).Referential 1 ∧
    ∃ data, (getEventInvestmentSummary (.oid 1) (storeAX 600 400 [])).1.data = some data ∧
      (data.byStartup.map (fun t => t.total)).sum = data.eventTotal ∧
      data.eventTotal = (data.byInvestor.map (fun t => t.total)).sum :=
  have href : (storeAX 600 400 []).Referential 1 := by
    intro d hd _
    have : d = investmentAX 400 [] := by simpa [storeAX] using hd
    subst this
    exact ⟨rfl, rfl⟩
  ⟨rfl, href,
    summary_partition (storeAX 600 400 []) 1 demoEvent rfl
      (by simp [storeAX, startupX, startupY, startupZ]) (by simp [storeAX]) href⟩

/-- C14. Event total: for an event `e` that exists, `getEventInvestmentSummary`
succeeds and its `eventTotal` is the sum of `amount` over the Investments whose
`eventId` is `e`, which is 0 when there is none. -/
theorem eventTotal_is_sum (db : Store) (e : ObjectId) (event : Event)
    (hE : Event.findById db e = some event) :
    ∃ data, (getEventInvestmentSummary (.oid e) db).1.data = some data ∧
      (getEventInvestmentSummary (.oid e) db).1.success = true ∧
      data.eventTotal =
        ((db.investments.filter (fun d => d.eventId == e)).map (fun d => d.amount)).sum ∧
      ((∀ d ∈ db.investments, d.eventId ≠ e) → data.eventTotal = 0) := by
  rw [getEventInvestmentSummary_found db e event hE]
  refine ⟨_, rfl, rfl, rfl, ?_⟩
  intro hnone
  have : db.investments.filter (fun d => d.eventId == e) = [] := by
    rw [List.filter_eq_nil_iff]
    intro d hd
    simpa using hnone d hd
  simp [this]

/-- Witness of C14: the sample store in which A holds 400 in X. -/
theorem eventTotal_is_sum_witness :
    Event.findById (storeAX 600 400 []) 1 = some demoEvent ∧
    ∃ data, (getEventInvestmentSummary (.oid 1) (storeAX 600 400 [])).1.data = some data ∧
      (getEventInvestmentSummary (.oid 1) (storeAX 600 400 [])).1.success = true ∧
      data.eventTotal =
        (((storeAX 600 400 []).investments.filter (fun d => d.eventId == 1)).map
          (fun d => d.amount)).sum ∧
      ((∀ d ∈ (storeAX 600 400 []).investments, d.eventId ≠ 1) → data.eventTotal = 0) :=
  ⟨rfl, eventTotal_is_sum (storeAX 600 400 []) 1 demoEvent rfl⟩

/-- C15. Per-startup aggregation: for an event `e` that exists, on a store
with unique Startup ids, every entry of `byStartup` has `total` equal to the
sum of `amount`, and `investmentCount` equal to the number, of the Investments
of event `e` with the entry's startup id; its startup is the Startup with that
id; and no two entries have the same startup id. -/
theorem byStartup_entries (db : Store) (e : ObjectId) (event : Event)
    (hE : Event.findById db e = some event)
    (hS : (db.startups.map (fun st => st._id)).Nodup) :
    ∃ data, (getEventInvestmentSummary (.oid e) db).1.data = some data ∧
      (∀ entry ∈ data.byStartup,
        entry.total =
          ((db.investments.filter (fun d => d.eventId == e && d.startupId == entry._id)).map
            (fun d => d.amount)).sum ∧
        entry.investmentCount =
          (db.investments.filter (fun d => d.eventId == e && d.startupId == entry._id)).length ∧
        Startup.findById db entry._id = some entry.startup) ∧
      (data.byStartup.map (fun t => t._id)).Nodup := by
  rw [getEventInvestmentSummary_found db e event hE]
  refine ⟨_, rfl, ?_, ?_⟩
  · intro entry hentry
    obtain ⟨g, hg, hid, ht, hc, hmem, hsid⟩ := mem_lookupStartups db _ entry hentry
    have hgroup := groupStage_group (fun d : Investment => d.startupId) _ g hg
    have hfilter : ∀ k : ObjectId,
        (db.investments.filter (fun d => d.eventId == e)).filter
            (fun d => decide (d.startupId = k))
          = db.investments.filter (fun d => d.eventId == e && d.startupId == k) := by
      intro k
      rw [List.filter_filter]
      congr 1
      funext d
      by_cases h1 : d.eventId = e <;> by_cases h2 : d.startupId = k <;> simp [h1, h2]
    rw [hfilter] at hgroup
    refine ⟨?_, ?_, ?_⟩
    · rw [ht, hid]; exact hgroup.1
    · rw [hc, hid]; exact hgroup.2
    · have h := find?_key_of_nodup (fun st : Startup => st._id) db.startups entry.startup hS hmem
      rw [hid, ← hsid]
      exact h
  · exact (lookupStartups_ids_sublist db _ hS).nodup (groupStage_nodup _ _)

/-- Witness of C15: the sample store in which A holds 400 in X. -/
theorem byStartup_entries_witness :
    Event.findById (storeAX 600 400 []) 1 = some demoEvent ∧
    ((storeAX 600 400 []).startups.map (fun st => st._id)).Nodup ∧
    ∃ data, (getEventInvestmentSummary (.oid 1) (storeAX 600 400 [])).1.data = some data ∧
      (∀ entry ∈ data.byStartup,
        entry.total =
          (((storeAX 600 400 []).investments.filter
            (fun d => d.eventId == 1 && d.startupId == entry._id)).map (fun d => d.amount)).sum ∧
        entry.investmentCount =
          ((storeAX 600 400 []).investments.filter
            (fun d => d.eventId == 1 && d.startupId == entry._id)).length ∧
        Startup.findById (storeAX 600 400 []) entry._id = some entry.startup) ∧
      (data.byStartup.map (fun t => t._id)).Nodup :=
  have hS : ((storeAX 600 400 []).startups.map (fun st => st._id)).Nodup := by
    simp [storeAX, startupX, startupY, startupZ]
  ⟨rfl, hS, byStartup_entries (storeAX 600 400 []) 1 demoEvent rfl hS⟩

/-- C16. Summary error classification: `getEventInvestmentSummary` answers
with status 400 when the event id is not well formed, with status 404 when it
is well formed and no Event has it, and with a success envelope that carries
`eventTotal`, `byStartup` and `byInvestor` otherwise; in every case the store
is unchanged. -/
theorem summary_classification (db : Store) :
    getEventInvestmentSummary .malformed db = (APIResponse.error .invalidEventId 400, db) ∧
    getEventInvestmentSummary .missing db = (APIResponse.error .invalidEventId 400, db) ∧
    (∀ e, Event.findById db e = none →
      getEventInvestmentSummary (.oid e) db = (APIResponse.error .eventNotFound 404, db)) ∧
    (∀ e event, Event.findById db e = some event →
      ∃ data, getEventInvestmentSummary (.oid e) db =
        (APIResponse.success data .summaryRetrieved 200, db)) ∧
    (∀ eventId, (getEventInvestmentSummary eventId db).2 = db) := by
  refine ⟨by simp [getEventInvestmentSummary, IdField.isValid],
    by simp [getEventInvestmentSummary, IdField.isValid], ?_, ?_, ?_⟩
  · intro e hE
    simp [getEventInvestmentSummary, IdField.isValid, IdField.cast, hE]
  · intro e event hE
    exact ⟨_, getEventInvestmentSummary_found db e event hE⟩
  · intro eventId
    cases eventId with
    | missing => simp [getEventInvestmentSummary, IdField.isValid]
    | malformed => simp [getEventInvestmentSummary, IdField.isValid]
    | oid e =>
      cases hE : Event.findById db e with
      | none => simp [getEventInvestmentSummary, IdField.isValid, IdField.cast, hE]
      | some event => rw [getEventInvestmentSummary_found db e event hE]

/-- Witness of C16: on the sample store event 1 exists and event 9 does not. -/
theorem summary_classification_witness :
    getEventInvestmentSummary (.oid 9) (storeAX 600 400 []) =
      (APIResponse.error .eventNotFound 404, storeAX 600 400 []) ∧
    ∃ data, getEventInvestmentSummary (.oid 1) (storeAX 600 400 []) =
      (APIResponse.success data .summaryRetrieved 200, storeAX 600 400 []) :=
  ⟨(summary_classification (storeAX 600 400 [])).2.2.1 9 rfl,
    (summary_classification (storeAX 600 400 [])).2.2.2.1 1 demoEvent rfl⟩

/-- C17. History query order: for an Investment whose investor and startup
are in the store, the history that `getInvestmentHistory` returns holds the
stored entries, each once and with its amount and timestamp (a permutation, so
of the same length), in order of non-increasing timestamp, and `currentAmount`
is the stored amount. -/
theorem history_query_order (fmt : Timestamp → String) (db : Store) (id : ObjectId)
    (investment : Investment) (investor : Investor) (startup : Startup)
    (hinv : Investment.findById db id = some investment)
    (hI : Investor.findById db investment.investorId = some investor)
    (hS : Startup.findById db investment.startupId = some startup) :
    ∃ view, (getInvestmentHistory fmt (.oid id) db).1.data = some view ∧
      (view.history.map (fun r =>
        ({ amount := r.amount, timestamp := r.timestamp } : HistoryEntry))).Perm
        investment.history ∧
      view.history.length = investment.history.length ∧
      view.history.Pairwise (fun a b => b.timestamp ≤ a.timestamp) ∧
      view.currentAmount = investment.amount := by
  rw [getInvestmentHistory_found fmt db id investment investor startup hinv hI hS]
  refine ⟨_, rfl, ?_, ?_, ?_, rfl⟩
  · have hperm := List.perm_insertionSort newestFirst
      (investment.history.map (fun record =>
        ({ amount := record.amount, timestamp := record.timestamp,
           formattedDate := fmt record.timestamp } : HistoryRecord)))
    have hmap := hperm.map (fun r : HistoryRecord =>
      ({ amount := r.amount, timestamp := r.timestamp } : HistoryEntry))
    simpa [Function.comp_def] using hmap
  · simp only
    rw [List.length_insertionSort, List.length_map]
  · exact List.sorted_insertionSort newestFirst _

/-- Witness of C17: the Investment of A in X with history 100 at time 1 and
150 at time 2. -/
theorem history_query_order_witness :
    Investment.findById (storeAX 920 80 [⟨100, 1⟩, ⟨150, 2⟩]) 30
      = some (investmentAX 80 [⟨100, 1⟩, ⟨150, 2⟩]) ∧
    ∃ view, (getInvestmentHistory dateString (.oid 30)
        (storeAX 920 80 [⟨100, 1⟩, ⟨150, 2⟩])).1.data = some view ∧
      (view.history.map (fun r =>
        ({ amount := r.amount, timestamp := r.timestamp } : HistoryEntry))).Perm
        (investmentAX 80 [⟨100, 1⟩, ⟨150, 2⟩]).history ∧
      view.history.length = (investmentAX 80 [⟨100, 1⟩, ⟨150, 2⟩]).history.length ∧
      view.history.Pairwise (fun a b => b.timestamp ≤ a.timestamp) ∧
      view.currentAmount = (investmentAX 80 [⟨100, 1⟩, ⟨150, 2⟩]).amount :=
  ⟨rfl, history_query_order dateString (storeAX 920 80 [⟨100, 1⟩, ⟨150, 2⟩]) 30
    (investmentAX 80 [⟨100, 1⟩, ⟨150, 2⟩]) (investorA 920) startupX rfl rfl rfl⟩

/-- Counterexample to C18 as stated: an id that is not well formed belongs to
no Investment and is answered with status 500, not 404; and the id of the
Investment of A in X, after investor A is deleted, is answered with status 500
and no payload. -/
theorem history_query_not_total :
    getInvestmentHistory dateString .malformed freshStore =
      (APIResponse.error (.thrown .castError) 500, freshStore) ∧
    Investment.findById storeWithoutA 30 = some (investmentAX 100 []) ∧
    getInvestmentHistory dateString (.oid 30) storeWithoutA =
      (APIResponse.error (.thrown .typeError) 500, storeWithoutA) := by
  refine ⟨rfl, rfl, ?_⟩
  have h1 : Investment.findById storeWithoutA 30 = some (investmentAX 100 []) := rfl
  have h2 : Investor.findById storeWithoutA (investmentAX 100 []).investorId = none := rfl
  simp [getInvestmentHistory, IdField.cast, h1, h2]

/-- C18, amended. History query contract for well-formed ids:
`getInvestmentHistory` answers with status 404 when no Investment has the id,
and with a success envelope that carries `investorName`, `startupName`,
`currentAmount` and `history` when the id is that of an Investment whose
investor and startup are in the store; the store is unchanged. -/
theorem history_query_contract (fmt : Timestamp → String) (db : Store) :
    (∀ id, Investment.findById db id = none →
      getInvestmentHistory fmt (.oid id) db = (APIResponse.error .investmentNotFound 404, db)) ∧
    (∀ id investment investor startup,
      Investment.findById db id = some investment →
      Investor.findById db investment.investorId = some investor →
      Startup.findById db investment.startupId = some startup →
      ∃ view, getInvestmentHistory fmt (.oid id) db = (APIResponse.success view .success 200, db) ∧
        view.investorName = investor.name ∧ view.startupName = startup.name ∧
        view.currentAmount = investment.amount) := by
  constructor
  · intro id hnone
    simp [getInvestmentHistory, IdField.cast, hnone]
  · intro id investment investor startup hinv hI hS
    exact ⟨_, getInvestmentHistory_found fmt db id investment investor startup hinv hI hS,
      rfl, rfl, rfl⟩

/-- Witness of C18 amended: on the sample store no Investment has id 31 and
the Investment of A in X has id 30. -/
theorem history_query_contract_witness :
    getInvestmentHistory dateString (.oid 31) (storeAX 900 100 []) =
      (APIResponse.error .investmentNotFound 404, storeAX 900 100 []) ∧
    ∃ view, getInvestmentHistory dateString (.oid 30) (storeAX 900 100 []) =
        (APIResponse.success view .success 200, storeAX 900 100 []) ∧
      view.investorName = (investorA 900).name ∧ view.startupName = startupX.name ∧
      view.currentAmount = (investmentAX 100 []).amount :=
  ⟨(history_query_contract dateString (storeAX 900 100 [])).1 31 rfl,
    (history_query_contract dateString (storeAX 900 100 [])).2 30 (investmentAX 100 [])
      (investorA 900) startupX rfl rfl rfl⟩

/-- C19. History is append-only: on a store with unique Investment ids, a
`makeInvestment` call keeps the Investments in place, one for one; the history
of each before the call is a prefix of its history after the call; and every
Investment other than the one the request is about is unchanged. -/
theorem history_append_only (env : Env) (body : RequestBody) (db : Store)
    (hnodup : (db.investments.map (fun d => d._id)).Nodup) :
    List.Forall₂
      (fun before after =>
        after._id = before._id ∧ before.history <+: after.history ∧
        (body.target db ≠ some before → after = before))
      db.investments (makeInvestment env body db).2.investments := by
  have hrefl : ∀ x : Investment,
      x._id = x._id ∧ x.history <+: x.history ∧ (body.target db ≠ some x → x = x) :=
    fun x => ⟨rfl, List.prefix_refl _, fun _ => rfl⟩
  rcases makeInvestment_cases env body db with h | ⟨i, s, x, investor, startup, existing, rfl,
    hI, hS, hev, hex, hx, hfit⟩
  · rw [h.1]
    exact forall2_same _ hrefl _
  · rw [makeInvestment_update env db i s x investor startup existing hI hS hev hex hx hfit]
    split
    · have hmem := Investment.mem_of_findOne hex
      exact forall2_updateOne (fun d : Investment => d._id) _ (existing.reallocate env.now x)
        existing db.investments hnodup hmem rfl hrefl
        ⟨rfl, List.prefix_append _ _, fun hne => absurd hex hne⟩
    · exact forall2_same _ hrefl _

/-- Witness of C19: A raises its 100 in X to 150 at time 5. -/
theorem history_append_only_witness :
    ((storeAX 900 100 [⟨40, 1⟩]).investments.map (fun d => d._id)).Nodup ∧
    List.Forall₂
      (fun before after =>
        after._id = before._id ∧ before.history <+: after.history ∧
        ((requestA 20 150).target (storeAX 900 100 [⟨40, 1⟩]) ≠ some before → after = before))
      (storeAX 900 100 [⟨40, 1⟩]).investments
      (makeInvestment (envAt 5) (requestA 20 150) (storeAX 900 100 [⟨40, 1⟩])).2.investments :=
  have hnodup : ((storeAX 900 100 [⟨40, 1⟩]).investments.map (fun d => d._id)).Nodup := by
    simp [storeAX]
  ⟨hnodup, history_append_only (envAt 5) (requestA 20 150) (storeAX 900 100 [⟨40, 1⟩]) hnodup⟩

/-- Counterexample to C20 as stated: after startup X is deleted investor A is
still in the store with its Investment in X, and the view of A is answered
with status 500. -/
theorem investor_view_fails_on_deleted_startup :
    Investor.findById storeWithoutX 10 = some (investorA 900) ∧
    investorController.getInvestorDetails (.oid 10) storeWithoutX =
      (APIResponse.error .errorGettingRelated 500, storeWithoutX) := by
  refine ⟨rfl, ?_⟩
  have h1 : Investor.findById storeWithoutX 10 = some (investorA 900) := rfl
  have h2 : Event.findById storeWithoutX (investorA 900).eventId = some demoEvent := rfl
  have h3 : investmentViews storeWithoutX
      (storeWithoutX.investments.filter (fun d => d.investorId == 10)) = none := rfl
  simp [investorController.getInvestorDetails, IdField.isValid, IdField.cast, h1, h2, h3]

/-- C20, amended. The investor view is the projection of the store: the
handler never changes the store; it answers with status 404 for a well-formed
id that no investor has; and for an investor whose event is in the store and
whose Investments each refer to a Startup in the store it succeeds with the
stored `remainingBudget`, the event's `totalBudgetPerInvestor`, one entry per
Investment of the investor, in order, with its id, startup id, startup name
and stored amount, and as `availableStartups` exactly the Startups whose
`eventId` is the investor's event. -/
theorem investor_view_projection (db : Store) :
    (∀ investorId, (investorController.getInvestorDetails investorId db).2 = db) ∧
    (∀ i, Investor.findById db i = none →
      investorController.getInvestorDetails (.oid i) db =
        (APIResponse.error .investorNotFound 404, db)) ∧
    (∀ i investor event,
      Investor.findById db i = some investor →
      Event.findById db investor.eventId = some event →
      (∀ d ∈ db.investments, d.investorId = i → (Startup.findById db d.startupId).isSome) →
      ∃ view, investorController.getInvestorDetails (.oid i) db =
          (APIResponse.success view .success 200, db) ∧
        view.remainingBudget = investor.remainingBudget ∧
        view.event.totalBudgetPerInvestor = event.totalBudgetPerInvestor ∧
        List.Forall₂ (fun (inv : Investment) (v : InvestmentView) =>
          v._id = inv._id ∧ v.startupId = inv.startupId ∧ v.amount = inv.amount ∧
          ∃ startup, Startup.findById db inv.startupId = some startup ∧
            v.startupName = startup.name)
          (db.investments.filter (fun d => d.investorId == i)) view.investments ∧
        view.availableStartups =
          (db.startups.filter (fun st => st.eventId == investor.eventId)).map
            (fun st => ({ _id := st._id, name := st.name } : StartupRef))) := by
  refine ⟨?_, ?_, ?_⟩
  · intro investorId
    cases investorId with
    | missing => simp [investorController.getInvestorDetails, IdField.isValid]
    | malformed => simp [investorController.getInvestorDetails, IdField.isValid]
    | oid i =>
      cases hI : Investor.findById db i with
      | none =>
        simp [investorController.getInvestorDetails, IdField.isValid, IdField.cast, hI]
      | some investor =>
        cases hE : Event.findById db investor.eventId with
        | none =>
          simp [investorController.getInvestorDetails, IdField.isValid, IdField.cast, hI, hE]
        | some event =>
          cases hV : investmentViews db (db.investments.filter (fun d => d.investorId == i)) with
          | none =>
            simp [investorController.getInvestorDetails, IdField.isValid, IdField.cast, hI, hE,
              hV]
          | some views =>
            simp [investorController.getInvestorDetails, IdField.isValid, IdField.cast, hI, hE,
              hV]
  · intro i hnone
    simp [investorController.getInvestorDetails, IdField.isValid, IdField.cast, hnone]
  · intro i investor event hI hE href
    obtain ⟨views, hviews, hall⟩ := investmentViews_total db
      (db.investments.filter (fun d => d.investorId == i))
      (fun d hd => href d (List.mem_filter.1 hd).1 (by simpa using (List.mem_filter.1 hd).2))
    have hid : event._id = investor.eventId := by
      have := List.find?_some hE
      simpa using this
    refine ⟨{ _id := investor._id, name := investor.name,
              event := { _id := event._id, name := event.name,
                         totalBudgetPerInvestor := event.totalBudgetPerInvestor },
              remainingBudget := investor.remainingBudget,
              investments := views,
              availableStartups :=
                (db.startups.filter (fun st => st.eventId == event._id)).map (fun startup =>
                  ({ _id := startup._id, name := startup.name } : StartupRef)) },
      ?_, rfl, rfl, hall, ?_⟩
    · simp [investorController.getInvestorDetails, IdField.isValid, IdField.cast, hI, hE,
        hviews, APIResponse.success]
    · simp [hid]

/-- Witness of C20 amended: the view of A on the sample store, and of the
absent investor 11. -/
theorem investor_view_projection_witness :
    investorController.getInvestorDetails (.oid 11) (storeAX 900 100 []) =
      (APIResponse.error .investorNotFound 404, storeAX 900 100 []) ∧
    ∃ view, investorController.getInvestorDetails (.oid 10) (storeAX 900 100 []) =
        (APIResponse.success view .success 200, storeAX 900 100 []) ∧
      view.remainingBudget = (investorA 900).remainingBudget ∧
      view.event.totalBudgetPerInvestor = demoEvent.totalBudgetPerInvestor ∧
      List.Forall₂ (fun (inv : Investment) (v : InvestmentView) =>
        v._id = inv._id ∧ v.startupId = inv.startupId ∧ v.amount = inv.amount ∧
        ∃ startup, Startup.findById (storeAX 900 100 []) inv.startupId = some startup ∧
          v.startupName = startup.name)
        ((storeAX 900 100 []).investments.filter (fun d => d.investorId == 10))
        view.investments ∧
      view.availableStartups =
        ((storeAX 900 100 []).startups.filter
          (fun st => st.eventId == (investorA 900).eventId)).map
          (fun st => ({ _id := st._id, name := st.name } : StartupRef)) :=
  ⟨(investor_view_projection (storeAX 900 100 [])).2.1 11 rfl,
    (investor_view_projection (storeAX 900 100 [])).2.2 10 (investorA 900) demoEvent rfl rfl
      (by
        intro d hd _
        have : d = investmentAX 100 [] := by simpa [storeAX] using hd
        subst this
        rfl)⟩

/-- C25. Allocation frame: on a store with unique Investment ids, a
`makeInvestment` call of investor `i` on startup `s` leaves every Event and
every Startup as it was, leaves every Investor other than `i` as it was and
changes at most `remainingBudget` on `i`, and leaves every Investment of
another pair as it was; no document is added or removed. -/
theorem allocation_frame (env : Env) (db : Store) (i s : ObjectId) (amount : JSValue)
    (hnodup : (db.investments.map (fun d => d._id)).Nodup) :
    (makeInvestment env ⟨.oid i, .oid s, amount⟩ db).2.events = db.events ∧
    (makeInvestment env ⟨.oid i, .oid s, amount⟩ db).2.startups = db.startups ∧
    List.Forall₂
      (fun (before after : Investor) =>
        after._id = before._id ∧ after.name = before.name ∧ after.eventId = before.eventId ∧
        (before._id ≠ i → after = before))
      db.investors (makeInvestment env ⟨.oid i, .oid s, amount⟩ db).2.investors ∧
    List.Forall₂
      (fun (before after : Investment) =>
        ¬ (before.investorId = i ∧ before.startupId = s) → after = before)
      db.investments (makeInvestment env ⟨.oid i, .oid s, amount⟩ db).2.investments := by
  have hreflI : ∀ x : Investor,
      x._id = x._id ∧ x.name = x.name ∧ x.eventId = x.eventId ∧ (x._id ≠ i → x = x) :=
    fun x => ⟨rfl, rfl, rfl, fun _ => rfl⟩
  have hreflV : ∀ x : Investment, ¬ (x.investorId = i ∧ x.startupId = s) → x = x :=
    fun x _ => rfl
  rcases makeInvestment_cases env ⟨.oid i, .oid s, amount⟩ db with h | ⟨i', s', x, investor,
    startup, existing, hbody, hI, hS, hev, hex, hx, hfit⟩
  · rw [h.1]
    exact ⟨rfl, rfl, forall2_same _ hreflI _, forall2_same _ hreflV _⟩
  · cases hbody
    have hinvestors : List.Forall₂
        (fun (before after : Investor) =>
          after._id = before._id ∧ after.name = before.name ∧
          after.eventId = before.eventId ∧ (before._id ≠ i → after = before))
        db.investors
        (updateOne (fun y => y._id == (investor.debit (x - existing.amount))._id)
          (investor.debit (x - existing.amount)) db.investors) := by
      have hfind : db.investors.find? (fun y => y._id == (investor.debit (x - existing.amount))._id)
          = some investor := by
        have hid := Investor.id_of_findById hI
        have : (investor.debit (x - existing.amount))._id = i := hid
        rw [this]
        exact hI
      exact forall2_updateOne_find _ _ _ investor db.investors hfind hreflI
        ⟨rfl, rfl, rfl, fun hne => absurd (Investor.id_of_findById hI) hne⟩
    rw [makeInvestment_update env db i s x investor startup existing hI hS hev hex hx hfit]
    split
    · refine ⟨rfl, rfl, hinvestors, ?_⟩
      have hmem := Investment.mem_of_findOne hex
      exact forall2_updateOne (fun d : Investment => d._id) _ (existing.reallocate env.now x)
        existing db.investments hnodup hmem rfl hreflV
        (fun hne => absurd (Investment.pair_of_findOne hex) hne)
    · exact ⟨rfl, rfl, hinvestors, forall2_same _ hreflV _⟩

/-- Witness of C25: A raises its 300 in X to 700 and holds 100 in Y. -/
theorem allocation_frame_witness :
    ((storeAXY 600 300 100).investments.map (fun d => d._id)).Nodup ∧
    (makeInvestment (envAt 1) ⟨.oid 10, .oid 20, .number 700⟩ (storeAXY 600 300 100)).2.events
      = (storeAXY 600 300 100).events ∧
    List.Forall₂
      (fun (before after : Investment) =>
        ¬ (before.investorId = 10 ∧ before.startupId = 20) → after = before)
      (storeAXY 600 300 100).investments
      (makeInvestment (envAt 1) ⟨.oid 10, .oid 20, .number 700⟩
        (storeAXY 600 300 100)).2.investments :=
  have hnodup : ((storeAXY 600 300 100).investments.map (fun d => d._id)).Nodup := by
    simp [storeAXY, investmentAX, investmentAY]
  have h := allocation_frame (envAt 1) (storeAXY 600 300 100) 10 20 (.number 700) hnodup
  ⟨hnodup, h.1, h.2.2.2⟩

/-- C26, evaluated on the code: A has 600 left and no Investment in Y; the
request of 700 for Y is answered with status 500 and the message of the type
error, which does not carry the 600. The same overdraw on X, where A has an
Investment, is answered "Insufficient budget. Available: 600". -/
theorem insufficient_message_on_new_pair :
    Investment.findOne (storeAX 600 400 []) 10 21 = none ∧
    (makeInvestment (envAt 1) (requestA 21 700) (storeAX 600 400 [])).1.message
      = .thrown .typeError ∧
    (makeInvestment (envAt 1) (requestA 21 700) (storeAX 600 400 [])).1.status = 500 ∧
    (makeInvestment (envAt 1) (requestA 20 1100) (storeAX 600 400 [])).1.message
      = .insufficientBudget 600 := by
  have h1 := makeInvestment_no_existing (envAt 1) (storeAX 600 400 []) 10 21 700 (investorA 600)
    startupY rfl rfl rfl rfl (by norm_num)
  have h2 := makeInvestment_over_budget (envAt 1) (storeAX 600 400 []) 10 20 1100
    (investorA 600) startupX (investmentAX 400 []) rfl rfl rfl rfl (by norm_num)
    (by norm_num [investorA, investmentAX])
  refine ⟨rfl, ?_, ?_, ?_⟩
  · rw [requestA, h1]; rfl
  · rw [requestA, h1]; rfl
  · rw [requestA, h2]; rfl

/-- Counterexample to C27 as stated: A has 600 left, 300 in X and 100 in Y,
and asks 700 for X and 500 for Y at the same time. Each request is within the
600 on its own and the two together are not; when both handlers read before
either writes, both succeed, and A is left with 200 and 1200 invested of a
budget of 1000. -/
theorem race_both_succeed :
    (700 : ℚ) - 300 ≤ 600 ∧ (500 : ℚ) - 100 ≤ 600 ∧ (600 : ℚ) < (700 - 300) + (500 - 100) ∧
    (raceReadsFirst (envAt 1) (envAt 2) (requestA 20 700) (requestA 21 500)
      (storeAXY 600 300 100)).1.success = true ∧
    (raceReadsFirst (envAt 1) (envAt 2) (requestA 20 700) (requestA 21 500)
      (storeAXY 600 300 100)).2.1.success = true ∧
    (raceReadsFirst (envAt 1) (envAt 2) (requestA 20 700) (requestA 21 500)
      (storeAXY 600 300 100)).2.2 =
      { events := [demoEvent], investors := [investorA 200],
        startups := [startupX, startupY, startupZ],
        investments := [investmentAX 700 [⟨300, 1⟩], investmentAY 500 [⟨100, 2⟩]] } := by
  have hr1 : makeInvestmentReads (requestA 20 700) (storeAXY 600 300 100) =
      .ok { investor := investorA 600, existing := investmentAX 300 [], newAmt := 700 } := by
    norm_num [makeInvestmentReads, requestA, storeAXY, investmentAX, investmentAY, investorA,
      startupX, startupY, startupZ, IdField.truthy, JSValue.truthy, IdField.cast,
      Investor.findById, Startup.findById, Investment.findOne]
  have hr2 : makeInvestmentReads (requestA 21 500) (storeAXY 600 300 100) =
      .ok { investor := investorA 600, existing := investmentAY 100 [], newAmt := 500 } := by
    norm_num [makeInvestmentReads, requestA, storeAXY, investmentAX, investmentAY, investorA,
      startupX, startupY, startupZ, IdField.truthy, JSValue.truthy, IdField.cast,
      Investor.findById, Startup.findById, Investment.findOne]
  refine ⟨by norm_num, by norm_num, by norm_num, ?_, ?_, ?_⟩ <;>
    simp only [raceReadsFirst, hr1, hr2] <;>
    norm_num [makeInvestmentWrites, minZero, storeAXY, investmentAX, investmentAY, investorA,
      Investor.save, Investment.save, updateOne, envAt, APIResponse.success, caught,
      APIResponse.error]

/-- C27, amended. Two allocations of one investor that do not overlap: on a
store with unique Investment ids, when the investor holds an Investment in
each of two different startups and asks new amounts for them, each within
`remainingBudget` on its own and the two together above it, and the second
handler starts after the first has finished, the first call succeeds and the
second is answered "Insufficient budget" with what the first left, and writes
nothing. -/
theorem sequential_calls_one_succeeds (env1 env2 : Env) (db : Store) (i s1 s2 : ObjectId)
    (x1 x2 : ℚ) (investor : Investor) (startup1 startup2 : Startup)
    (existing1 existing2 : Investment)
    (hnodup : (db.investments.map (fun d => d._id)).Nodup)
    (hI : Investor.findById db i = some investor)
    (hS1 : Startup.findById db s1 = some startup1)
    (hS2 : Startup.findById db s2 = some startup2)
    (hev1 : startup1.eventId = investor.eventId)
    (hev2 : startup2.eventId = investor.eventId)
    (hex1 : Investment.findOne db i s1 = some existing1)
    (hex2 : Investment.findOne db i s2 = some existing2)
    (hne : s1 ≠ s2) (hx1 : 0 < x1) (hx2 : 0 < x2) (ha1 : 0 ≤ existing1.amount)
    (h1 : x1 - existing1.amount ≤ investor.remainingBudget)
    (_h2 : x2 - existing2.amount ≤ investor.remainingBudget)
    (hjoint : investor.remainingBudget < (x1 - existing1.amount) + (x2 - existing2.amount)) :
    (makeInvestment env1 ⟨.oid i, .oid s1, .number x1⟩ db).1.success = true ∧
    makeInvestment env2 ⟨.oid i, .oid s2, .number x2⟩
        (makeInvestment env1 ⟨.oid i, .oid s1, .number x1⟩ db).2 =
      (APIResponse.error
        (.insufficientBudget (investor.remainingBudget - (x1 - existing1.amount))) 400,
       (makeInvestment env1 ⟨.oid i, .oid s1, .number x1⟩ db).2) := by
  have hupd := makeInvestment_update env1 db i s1 x1 investor startup1 existing1 hI hS1 hev1
    hex1 hx1 (by linarith)
  rw [if_pos ha1] at hupd
  rw [hupd]
  refine ⟨rfl, ?_⟩
  have hpair1 := Investment.pair_of_findOne hex1
  have hI1 : Investor.findById
      (Investor.save (investor.debit (x1 - existing1.amount))
        (Investment.save (existing1.reallocate env1.now x1) db)) i
      = some (investor.debit (x1 - existing1.amount)) :=
    Investor.findById_save_self _ i investor _ hI rfl
  have hex2' : Investment.findOne
      (Investor.save (investor.debit (x1 - existing1.amount))
        (Investment.save (existing1.reallocate env1.now x1) db)) i s2
      = some existing2 := by
    have h := Investment.findOne_save_other db i s2 existing1 (existing1.reallocate env1.now x1)
      hnodup (Investment.mem_of_findOne hex1) rfl
      (by
        intro h
        have : (existing1.reallocate env1.now x1).startupId = existing1.startupId := rfl
        exact hne (by rw [← hpair1.2, ← this]; exact h.2))
      (by intro h; exact hne (by rw [← hpair1.2]; exact h.2))
    exact h.trans hex2
  exact makeInvestment_over_budget env2 _ i s2 x2 (investor.debit (x1 - existing1.amount))
    startup2 existing2 hI1 hS2 hev2 hex2' hx2 (by simp only [Investor.debit]; linarith)

/-- Witness of C27 amended: A has 600 left, 300 in X and 100 in Y, asks 700
for X and then 500 for Y. -/
theorem sequential_calls_one_succeeds_witness :
    (makeInvestment (envAt 1) ⟨.oid 10, .oid 20, .number 700⟩
      (storeAXY 600 300 100)).1.success = true ∧
    makeInvestment (envAt 2) ⟨.oid 10, .oid 21, .number 500⟩
        (makeInvestment (envAt 1) ⟨.oid 10, .oid 20, .number 700⟩ (storeAXY 600 300 100)).2 =
      (APIResponse.error
        (.insufficientBudget ((investorA 600).remainingBudget
          - (700 - (investmentAX 300 []).amount))) 400,
       (makeInvestment (envAt 1) ⟨.oid 10, .oid 20, .number 700⟩ (storeAXY 600 300 100)).2) :=
  sequential_calls_one_succeeds (envAt 1) (envAt 2) (storeAXY 600 300 100) 10 20 21 700 500
    (investorA 600) startupX startupY (investmentAX 300 []) (investmentAY 100 [])
    (by simp [storeAXY, investmentAX, investmentAY]) rfl rfl rfl rfl rfl rfl rfl (by decide)
    (by norm_num) (by norm_num) (by norm_num [investmentAX])
    (by norm_num [investmentAX, investorA]) (by norm_num [investmentAY, investorA])
    (by norm_num [investmentAX, investmentAY, investorA])

/-- C28, evaluated on the code: the client holds the view of A (600 left of
1000, 400 in X) and the entered amounts are the persisted ones. For X,
`remainingBudget + existingAmount` is 1000, as the field shows for its
maximum, while `availableBudget` is 1400, and the entry 1200 is accepted. -/
theorem client_headroom_counts_existing_twice :
    viewA.remainingBudget + 400 = viewA.event.totalBudgetPerInvestor ∧
    viewA.remainingBudget + existingAmountOf viewA 20 = 1000 ∧
    availableBudget viewA [(20, 400)] 20 = 1400 ∧
    handleInvestmentChange viewA [(20, 400)] 20 (some 1200) = some [(20, 1200)] := by
  have he : existingAmountOf viewA 20 = 400 := by
    norm_num [existingAmountOf, existingInvestmentOf, viewA]
  have ha : availableBudget viewA [(20, 400)] 20 = 1400 := by
    rw [availableBudget, he]
    norm_num [viewA]
  refine ⟨by norm_num [viewA], by rw [he]; norm_num [viewA], ha, ?_⟩
  rw [handleInvestmentChange, ha]
  norm_num [setEntry]

/-- C29. The redundant budget checks agree: for an investor with
`remainingBudget >= 0`, an Investment of the pair and a requested amount above
0, the check of line 53 holds exactly when the check of line 66 holds; when it
holds the request is answered "Insufficient budget" there; and when it does
not, neither the check of line 66 nor the test `newAmt < 0` of line 59 holds,
and the answer is neither "Insufficient budget" nor "amount must be >= 0". -/
theorem budget_checks_agree (env : Env) (db : Store) (i s : ObjectId) (x : ℚ)
    (investor : Investor) (startup : Startup) (existing : Investment)
    (hI : Investor.findById db i = some investor)
    (hS : Startup.findById db s = some startup)
    (hev : startup.eventId = investor.eventId)
    (hex : Investment.findOne db i s = some existing)
    (hr : 0 ≤ investor.remainingBudget) (hx : 0 < x) :
    (firstBudgetCheck investor.remainingBudget existing.amount x ↔
      laterBudgetCheck investor.remainingBudget existing.amount x) ∧
    (firstBudgetCheck investor.remainingBudget existing.amount x →
      makeInvestment env ⟨.oid i, .oid s, .number x⟩ db =
        (APIResponse.error (.insufficientBudget investor.remainingBudget) 400, db)) ∧
    (¬ firstBudgetCheck investor.remainingBudget existing.amount x →
      ¬ laterBudgetCheck investor.remainingBudget existing.amount x ∧ ¬ x < 0 ∧
      (∀ q, (makeInvestment env ⟨.oid i, .oid s, .number x⟩ db).1.message
        ≠ .insufficientBudget q) ∧
      (makeInvestment env ⟨.oid i, .oid s, .number x⟩ db).1.message ≠ .amountMustBeNonneg) := by
  have hiff : firstBudgetCheck investor.remainingBudget existing.amount x ↔
      laterBudgetCheck investor.remainingBudget existing.amount x := by
    unfold firstBudgetCheck laterBudgetCheck
    constructor
    · intro h; constructor <;> linarith
    · intro h; linarith [h.2]
  refine ⟨hiff, ?_, ?_⟩
  · intro h
    exact makeInvestment_over_budget env db i s x investor startup existing hI hS hev hex hx h
  · intro h
    refine ⟨fun hl => h (hiff.2 hl), not_lt.2 hx.le, ?_, ?_⟩
    · intro q hq
      obtain ⟨i', s', x', investor', _, existing', hbody, hI', _, _, hex', _, hlt, _⟩ :=
        makeInvestment_insufficient env _ db q hq
      cases hbody
      rw [hI] at hI'; cases hI'
      rw [hex] at hex'; cases hex'
      exact h hlt
    · have hupd := makeInvestment_update env db i s x investor startup existing hI hS hev hex
        hx (not_lt.1 h)
      rw [hupd]
      split <;> simp [APIResponse.success, caught, APIResponse.error]

/-- Witness of C29: A has 600 left and 400 in X; 1100 for X fails the first
check and 700 passes it. -/
theorem budget_checks_agree_witness :
    (firstBudgetCheck (investorA 600).remainingBudget (investmentAX 400 []).amount 1100 ↔
      laterBudgetCheck (investorA 600).remainingBudget (investmentAX 400 []).amount 1100) ∧
    makeInvestment (envAt 1) ⟨.oid 10, .oid 20, .number 1100⟩ (storeAX 600 400 []) =
      (APIResponse.error (.insufficientBudget (investorA 600).remainingBudget) 400,
        storeAX 600 400 []) :=
  have h := budget_checks_agree (envAt 1) (storeAX 600 400 []) 10 20 1100 (investorA 600)
    startupX (investmentAX 400 []) rfl rfl rfl rfl (by norm_num [investorA]) (by norm_num)
  ⟨h.1, h.2.1 (by norm_num [firstBudgetCheck, investorA, investmentAX])⟩

/-- C30. Admin gate: for every value of `ADMIN_KEY` and of the `x-admin-key`
header, each possibly absent, `adminMiddleware` calls `next` exactly when the
header is equal to the key, an absent header being equal to an unset key; in
every other case it answers with status 403 and `success = false` and does
not call `next`. -/
theorem admin_gate (ADMIN_KEY header : Option String) :
    (adminMiddleware ADMIN_KEY header = .next ↔ header = ADMIN_KEY) ∧
    (adminMiddleware ADMIN_KEY header ≠ .next →
      adminMiddleware ADMIN_KEY header =
        .answered { status := 403, success := false, message := .unauthorized, data := none }) ∧
    adminMiddleware none none = .next := by
  by_cases h : header = ADMIN_KEY
  · simp [adminMiddleware, h]
  · simp [adminMiddleware, h, APIResponse.error]

/-- Counterexample to C21 as stated: on the event with a budget of 1000,
`POST /admin/investors` with a `budget` of 500 stores the new investor with
`remainingBudget = 500`; and `createInvestor` with a body without a name
stores nothing and answers with status 500. -/
theorem admin_budget_override :
    Event.findById freshStore 1 = some demoEvent ∧
    adminRoutes.postInvestors (envAt 1) (some "B") (.oid 1) (.castsTo 500) freshStore =
      (APIResponse.success
        { _id := 101, name := "B", eventId := 1, remainingBudget := 500 } .investorCreated 201,
       { freshStore with
         investors := freshStore.investors ++
           [{ _id := 101, name := "B", eventId := 1, remainingBudget := 500 }] }) ∧
    (500 : ℚ) ≠ demoEvent.totalBudgetPerInvestor ∧
    investorController.createInvestor (envAt 1) none (.oid 1) freshStore =
      (APIResponse.error (.thrown .validationError) 500, freshStore) := by
  have hE : Event.findById freshStore 1 = some demoEvent := rfl
  refine ⟨hE, ?_, by norm_num [demoEvent], ?_⟩
  · simp [adminRoutes.postInvestors, hE, Investor.create, minZero, envAt, APIResponse.success]
  · simp [investorController.createInvestor, IdField.isValid, IdField.cast, hE, Investor.create]

/-- C21, amended. Initial budget: for an event that exists, with a budget
that satisfies the schema, and a body with a name that is not empty,
`createInvestor` stores the new investor with `remainingBudget` equal to the
event's `totalBudgetPerInvestor`, and so does `POST /admin/investors` when the
body has no truthy `budget`; with a `budget` that casts to a number `q >= 0`
the admin route stores `remainingBudget = q`. For a well-formed event id that
no Event has, both answer with status 404 and store nothing. -/
theorem initial_budget (env : Env) (db : Store) (e : ObjectId) :
    (∀ event name, Event.findById db e = some event → 0 ≤ event.totalBudgetPerInvestor →
      name ≠ "" →
      investorController.createInvestor env (some name) (.oid e) db =
        (APIResponse.success
          { _id := env.newId, name := name, eventId := e,
            remainingBudget := event.totalBudgetPerInvestor } .investorCreated 201,
         { db with
           investors := db.investors ++
             [{ _id := env.newId, name := name, eventId := e,
                remainingBudget := event.totalBudgetPerInvestor }] }) ∧
      adminRoutes.postInvestors env (some name) (.oid e) .falsy db =
        (APIResponse.success
          { _id := env.newId, name := name, eventId := e,
            remainingBudget := event.totalBudgetPerInvestor } .investorCreated 201,
         { db with
           investors := db.investors ++
             [{ _id := env.newId, name := name, eventId := e,
                remainingBudget := event.totalBudgetPerInvestor }] }) ∧
      ∀ q : ℚ, 0 ≤ q →
        adminRoutes.postInvestors env (some name) (.oid e) (.castsTo q) db =
          (APIResponse.success
            { _id := env.newId, name := name, eventId := e, remainingBudget := q }
            .investorCreated 201,
           { db with
             investors := db.investors ++
               [{ _id := env.newId, name := name, eventId := e, remainingBudget := q }] })) ∧
    (Event.findById db e = none →
      (∀ name, investorController.createInvestor env name (.oid e) db =
        (APIResponse.error .eventNotFound 404, db)) ∧
      (∀ name budget, adminRoutes.postInvestors env name (.oid e) budget db =
        (APIResponse.error .eventNotFound 404, db))) := by
  constructor
  · intro event name hE h0 hname
    refine ⟨?_, ?_, ?_⟩
    · simp [investorController.createInvestor, IdField.isValid, IdField.cast, hE,
        Investor.create, minZero, h0, hname, APIResponse.success]
    · simp [adminRoutes.postInvestors, hE, Investor.create, minZero, h0, hname,
        APIResponse.success]
    · intro q hq
      simp [adminRoutes.postInvestors, hE, Investor.create, minZero, hq, hname,
        APIResponse.success]
  · intro hE
    constructor
    · intro name
      simp [investorController.createInvestor, IdField.isValid, IdField.cast, hE]
    · intro name budget
      simp [adminRoutes.postInvestors, hE]

/-- Witness of C21 amended: investor B is created on the event with a budget
of 1000, and on event 9, which does not exist. -/
theorem initial_budget_witness :
    investorController.createInvestor (envAt 1) (some "B") (.oid 1) freshStore =
      (APIResponse.success
        { _id := (envAt 1).newId, name := "B", eventId := 1,
          remainingBudget := demoEvent.totalBudgetPerInvestor } .investorCreated 201,
       { freshStore with
         investors := freshStore.investors ++
           [{ _id := (envAt 1).newId, name := "B", eventId := 1,
              remainingBudget := demoEvent.totalBudgetPerInvestor }] }) ∧
    investorController.createInvestor (envAt 1) (some "B") (.oid 9) freshStore =
      (APIResponse.error .eventNotFound 404, freshStore) :=
  ⟨((initial_budget (envAt 1) freshStore 1).1 demoEvent "B" rfl (by norm_num [demoEvent])
      (by decide)).1,
    ((initial_budget (envAt 1) freshStore 9).2 rfl).1 (some "B")⟩

/-- C23. Event deletion cascade: for an event `e` that exists, on a store
with unique Event ids, `DELETE /admin/events/e` succeeds; afterwards no Event
has the id `e` and every other Event is found as before, the Investors and the
Startups are exactly those of other events, unchanged and in order, and the
Investments are unchanged, those of event `e` included. For an id that no
Event has it answers with status 404 and changes nothing. -/
theorem event_deletion_cascade (db : Store) (e : ObjectId) :
    (∀ event, Event.findById db e = some event → (db.events.map (fun d => d._id)).Nodup →
      (adminRoutes.deleteEvent (.oid e) db).1 = APIResponse.success () .eventDeleted 200 ∧
      Event.findById (adminRoutes.deleteEvent (.oid e) db).2 e = none ∧
      (∀ j, j ≠ e →
        Event.findById (adminRoutes.deleteEvent (.oid e) db).2 j = Event.findById db j) ∧
      (∀ d ∈ (adminRoutes.deleteEvent (.oid e) db).2.investors, d.eventId ≠ e) ∧
      (∀ d ∈ (adminRoutes.deleteEvent (.oid e) db).2.startups, d.eventId ≠ e) ∧
      (adminRoutes.deleteEvent (.oid e) db).2.investors
        = db.investors.filter (fun d => !(d.eventId == e)) ∧
      (adminRoutes.deleteEvent (.oid e) db).2.startups
        = db.startups.filter (fun d => !(d.eventId == e)) ∧
      (adminRoutes.deleteEvent (.oid e) db).2.investments = db.investments) ∧
    (Event.findById db e = none →
      adminRoutes.deleteEvent (.oid e) db = (APIResponse.error .eventNotFound 404, db)) := by
  constructor
  · intro event hE hnodup
    have hres : adminRoutes.deleteEvent (.oid e) db =
        (APIResponse.success () .eventDeleted,
          { db with
            events := deleteOne (fun d => d._id == e) db.events,
            investors := db.investors.filter (fun d => !(d.eventId == e)),
            startups := db.startups.filter (fun d => !(d.eventId == e)) }) := by
      simp [adminRoutes.deleteEvent, IdField.cast, hE]
    rw [hres]
    refine ⟨rfl, ?_, ?_, ?_, ?_, rfl, rfl, rfl⟩
    · exact find?_deleteOne_self (fun d : Event => d._id) e db.events hnodup
    · intro j hj
      exact find?_deleteOne_other (fun d : Event => d._id) e j db.events hj
    · intro d hd
      have := (List.mem_filter.1 hd).2
      simpa using this
    · intro d hd
      have := (List.mem_filter.1 hd).2
      simpa using this
  · intro hE
    simp [adminRoutes.deleteEvent, IdField.cast, hE]

/-- Witness of C23: event 1 of the sample store is deleted, and event 9 is
not there. -/
theorem event_deletion_cascade_witness :
    Event.findById (storeAX 900 100 []) 1 = some demoEvent ∧
    Event.findById (adminRoutes.deleteEvent (.oid 1) (storeAX 900 100 [])).2 1 = none ∧
    (adminRoutes.deleteEvent (.oid 1) (storeAX 900 100 [])).2.investments
      = (storeAX 900 100 []).investments ∧
    adminRoutes.deleteEvent (.oid 9) (storeAX 900 100 []) =
      (APIResponse.error .eventNotFound 404, storeAX 900 100 []) :=
  have h := (event_deletion_cascade (storeAX 900 100 []) 1).1 demoEvent rfl
    (by simp [storeAX])
  ⟨rfl, h.2.1, h.2.2.2.2.2.2.2, (event_deletion_cascade (storeAX 900 100 []) 9).2 rfl⟩

/-- Counterexample to C22 as stated: with the admin key,
`PUT /admin/events/1` with the body `totalBudgetPerInvestor: 2000` succeeds
and the event, whose budget was 1000, is found afterwards with a budget of
2000. -/
theorem put_event_changes_budget :
    Event.findById freshStore 1 = some demoEvent ∧
    demoEvent.totalBudgetPerInvestor = 1000 ∧
    Event.findById
        (Operation.handle demoServer (envAt 1) freshStore
          (.adminRoute (some "secret")
            (.putEvent (.oid 1)
              (some { name := none, date := none, totalBudgetPerInvestor := some 2000 })))).2 1
      = some { demoEvent with totalBudgetPerInvestor := 2000 } := by
  refine ⟨rfl, rfl, ?_⟩
  have hE : Event.findById freshStore 1 = some demoEvent := rfl
  have hgate : adminMiddleware demoServer.ADMIN_KEY (some "secret") = .next := by
    simp [adminMiddleware, demoServer]
  simp only [Operation.handle, hgate, AdminOperation.handle]
  simp [adminRoutes.putEvent, IdField.cast, hE, belowZero, minZero, Event.findById, updateOne,
    freshStore, demoEvent]

/-- C22, amended. The budget ceiling is kept by every route other than
`PUT /admin/events/:id`: on a store with unique Event ids, for every request
to any other route, open or admin, with any arguments, an Event that is found
before and after the request is the same document, so its
`totalBudgetPerInvestor` is unchanged. -/
theorem budget_ceiling_kept (server : Server) (env : Env) (db : Store) (op : Operation)
    (e : ObjectId) (before after : Event)
    (hop : op.isPutEvent = false)
    (hnodup : (db.events.map (fun d => d._id)).Nodup)
    (hb : Event.findById db e = some before)
    (ha : Event.findById (op.handle server env db).2 e = some after) :
    after = before ∧ after.totalBudgetPerInvestor = before.totalBudgetPerInvestor := by
  have h := EventsKept.same_event db _ (Operation.handle_events server env db op hop) hnodup e
    before after hb ha
  exact ⟨h, by rw [h]⟩

/-- Witness of C22 amended: with the admin key, event 2 is created next to
event 1. -/
theorem budget_ceiling_kept_witness :
    Event.findById freshStore 1 = some demoEvent ∧
    Event.findById
        (Operation.handle demoServer (envAt 1) freshStore
          (.adminRoute (some "secret")
            (.postEvents
              (some { name := some "Next", date := some 7,
                      totalBudgetPerInvestor := some 50 })))).2 1
      = some demoEvent ∧
    demoEvent.totalBudgetPerInvestor = demoEvent.totalBudgetPerInvestor :=
  have ha : Event.findById
      (Operation.handle demoServer (envAt 1) freshStore
        (.adminRoute (some "secret")
          (.postEvents
            (some { name := some "Next", date := some 7,
                    totalBudgetPerInvestor := some 50 })))).2 1
      = some demoEvent := by
    have hgate : adminMiddleware demoServer.ADMIN_KEY (some "secret") = .next := by
      simp [adminMiddleware, demoServer]
    simp only [Operation.handle, hgate, AdminOperation.handle]
    simp [adminRoutes.postEvents, Event.create, minZero, Event.findById, freshStore, demoEvent]
  ⟨rfl, ha,
    (budget_ceiling_kept demoServer (envAt 1) freshStore
      (.adminRoute (some "secret")
        (.postEvents
          (some { name := some "Next", date := some 7,
                  totalBudgetPerInvestor := some 50 }))) 1 demoEvent demoEvent rfl
      (by simp [freshStore]) rfl ha).2⟩

/-- Counterexample to C24 as stated: with the admin key,
`GET /admin/debug/events` answers with a body that has neither a `success`
flag nor a `message`. -/
theorem debug_route_has_no_envelope :
    (Operation.handle demoServer (envAt 1) freshStore
      (.adminRoute (some "secret") .debugEvents)).1 =
      { status := 200, success := none, message := none, data := false } := by
  have hgate : adminMiddleware demoServer.ADMIN_KEY (some "secret") = .next := by
    simp [adminMiddleware, demoServer]
  simp only [Operation.handle, hgate, AdminOperation.handle, adminRoutes.debugEvents]

/-- C24, amended. Response envelope: every answer of the server to a request
on a route other than `GET /admin/debug/events`, the refusal of
`adminMiddleware` and the answer of the error handler included, has a
`success` flag and a `message`; a success has `success = true` and a `data`
field; an error has `success = false`, no `data` field and a status of 400 or
above. -/
theorem response_envelope (server : Server) (env : Env) (db : Store) (op : Operation)
    (hop : op.isDebugEvents = false) :
    (op.handle server env db).1.success.isSome = true ∧
    (op.handle server env db).1.message.isSome = true ∧
    ((op.handle server env db).1.success = some true → (op.handle server env db).1.data = true) ∧
    ((op.handle server env db).1.success = some false →
      (op.handle server env db).1.data = false ∧ 400 ≤ (op.handle server env db).1.status) := by
  have h : (op.handle server env db).1.Conforms := by
    cases op with
    | openRoute op => exact PublicOperation.open_conforms server env db op
    | adminRoute header op =>
      simp only [Operation.handle]
      split
      · rename_i r hr
        rw [adminMiddleware_answered _ _ r hr]
        exact envelope_conforms _ (conforms_error _ _ (by decide))
      · apply AdminOperation.admin_conforms
        intro header'
        cases op <;> simp_all [Operation.isDebugEvents]
  exact h

/-- Witness of C24 amended: a request to an admin route without the key is
answered with status 403 through the envelope. -/
theorem response_envelope_witness :
    (Operation.handle demoServer (envAt 1) freshStore
      (.adminRoute none (.deleteEvent (.oid 1)))).1.success = some false ∧
    (Operation.handle demoServer (envAt 1) freshStore
      (.adminRoute none (.deleteEvent (.oid 1)))).1.data = false ∧
    400 ≤ (Operation.handle demoServer (envAt 1) freshStore
      (.adminRoute none (.deleteEvent (.oid 1)))).1.status :=
  have hs : (Operation.handle demoServer (envAt 1) freshStore
      (.adminRoute none (.deleteEvent (.oid 1)))).1.success = some false := by
    have hgate : adminMiddleware demoServer.ADMIN_KEY none
        = .answered (APIResponse.error .unauthorized 403) := by
      simp [adminMiddleware, demoServer]
    simp only [Operation.handle, hgate]
    rfl
  have h := (response_envelope demoServer (envAt 1) freshStore
    (.adminRoute none (.deleteEvent (.oid 1))) rfl).2.2.2 hs
  ⟨hs, h.1, h.2⟩

end InvestmentPlatform
